import Mathlib

/-!
Verification development for the research30 aggregation pipeline.

The Python sources are shallowly embedded: pure functions become Lean
functions, dict-shaped rows become structures with `Option` fields where
the code distinguishes a missing value, Python `float` arithmetic is
modelled by `ℚ`, Python `int(...)` truncation by an explicit `pyInt`,
and HTTP calls are abstracted into `Except`-valued fetch oracles (a
`.error` models `http.HTTPError` raised after the retry loop).  String
operations are modelled on ASCII text: `str.lower`, `\w`, and `\s` agree
with the Lean embedding on ASCII inputs, and all concrete inputs used in
theorems are ASCII.
-/

namespace Research30

/-! ## Python primitive semantics -/

/-- Python `int(x)` on a float/rational: truncation toward zero. -/
def pyInt (q : ℚ) : ℤ :=
  if 0 ≤ q then ⌊q⌋ else -⌊-q⌋

/-- Python `round(x)` for rationals: round half to even (banker's rounding). -/
def pyRound (x : ℚ) : ℤ :=
  let f := ⌊x⌋
  let r := x - f
  if r < 1/2 then f
  else if 1/2 < r then f + 1
  else if f % 2 = 0 then f else f + 1

/-- Python `round(x, 3)`: round to 3 decimal places, half to even. -/
def round3 (x : ℚ) : ℚ :=
  (pyRound (x * 1000) : ℚ) / 1000

/-- ASCII model of the regex class `\w` (Python `re` on ASCII text). -/
def isWordChar (c : Char) : Bool :=
  c.isAlphanum || c = '_'

/-- ASCII model of the regex class `\s` / `str.strip` whitespace. -/
def isPySpace (c : Char) : Bool :=
  c = ' ' || c = '\t' || c = '\n' || c = '\r' || c = '\x0b' || c = '\x0c'

/-- Python `s.lower()` (ASCII). -/
def lowerStr (s : String) : String :=
  String.mk (s.toList.map Char.toLower)

/-- Python `needle in hay` substring test. -/
def strContains (hay needle : String) : Bool :=
  (List.range (hay.toList.length + 1)).any
    (fun i => needle.toList.isPrefixOf (hay.toList.drop i))

/-- Auxiliary for `wordTokens`: accumulate maximal `\w+` runs. -/
def wordRunsAux : List Char → List Char → List (List Char)
  | [], cur => if cur.isEmpty then [] else [cur.reverse]
  | c :: cs, cur =>
    if isWordChar c then wordRunsAux cs (c :: cur)
    else if cur.isEmpty then wordRunsAux cs []
    else cur.reverse :: wordRunsAux cs []

/-- Python `re.findall(r'\w+', s)`: the maximal word-character runs of `s`. -/
def wordTokens (s : String) : List String :=
  (wordRunsAux s.toList []).map String.mk

/-- Python `s.strip()`. -/
def pyStrip (s : String) : String :=
  String.mk (((s.toList.dropWhile isPySpace).reverse.dropWhile isPySpace).reverse)

/-- Auxiliary for `pyReplace`; the fuel starts at the list length and each
step consumes at least one character. -/
def replaceAux (old new : List Char) : ℕ → List Char → List Char
  | 0, l => l
  | _ + 1, [] => []
  | fuel + 1, c :: cs =>
    if old.isPrefixOf (c :: cs) then
      new ++ replaceAux old new fuel ((c :: cs).drop old.length)
    else c :: replaceAux old new fuel cs

/-- Python `s.replace(old, new)` for non-empty `old` (all occurrences,
left to right, non-overlapping; every use in the sources has a non-empty
`old`). -/
def pyReplace (s old new : String) : String :=
  if old = "" then s
  else String.mk (replaceAux old.toList new.toList s.toList.length s.toList)

/-- Auxiliary for `pySplit`. -/
def splitAux (sep : List Char) : ℕ → List Char → List Char →
    List (List Char)
  | 0, l, cur => [cur.reverse ++ l]
  | _ + 1, [], cur => [cur.reverse]
  | fuel + 1, c :: cs, cur =>
    if sep.isPrefixOf (c :: cs) then
      cur.reverse :: splitAux sep fuel ((c :: cs).drop sep.length) []
    else splitAux sep fuel cs (c :: cur)

/-- Python `s.split(sep)` for non-empty `sep`. -/
def pySplit (s sep : String) : List String :=
  if sep = "" then [s]
  else (splitAux sep.toList s.toList.length s.toList []).map String.mk

/-- The numeric value of a digit string, `none` when it is empty or has a
non-digit (the shape `int(...)` accepts in every use here). -/
def digitsToNat? (s : String) : Option ℕ :=
  if s.toList ≠ [] ∧ s.toList.all Char.isDigit then
    some (s.toList.foldl (fun n c => n * 10 + (c.toNat - 48)) 0)
  else none

/-- Decimal digits of a natural number (auxiliary for `natToStr`). -/
def natDigitsAux : ℕ → ℕ → List Char
  | 0, _ => []
  | fuel + 1, n =>
    if n = 0 then []
    else natDigitsAux fuel (n / 10) ++ [Char.ofNat (48 + n % 10)]

/-- Python `str(n)` for a natural number. -/
def natToStr (n : ℕ) : String :=
  if n = 0 then "0" else String.mk (natDigitsAux (n + 1) n)

/-- Auxiliary for `collapseSpaces`: the flag records whether the previous
character was whitespace. -/
def collapseAux : List Char → Bool → List Char
  | [], _ => []
  | c :: cs, prev =>
    if isPySpace c then
      if prev then collapseAux cs true else ' ' :: collapseAux cs true
    else c :: collapseAux cs false

/-- Python `re.sub(r'\s+', ' ', s)`: collapse whitespace runs to one space. -/
def collapseSpaces (l : List Char) : List Char :=
  collapseAux l false

/-! ## normalize.py: keyword relevance -/

/-- `normalize._count_bigram_matches`: how many consecutive topic word
pairs appear (as `"w1 w2"` substrings) in `text`. -/
def countBigramMatches (topicWords : List String) (text : String) : ℕ :=
  if topicWords.length < 2 then 0
  else
    let textLower := lowerStr text
    (List.range (topicWords.length - 1)).countP
      (fun i => strContains textLower
        (topicWords.getD i "" ++ " " ++ topicWords.getD (i + 1) ""))

/-- `normalize.compute_keyword_relevance`: keyword relevance of a topic
against a title and abstract, returning `(score in [0,1], explanation)`. -/
def computeKeywordRelevance (topic title abstract : String) :
    ℚ × String :=
  if topic = "" then (0, "no topic")
  else
    let topicLower := lowerStr topic
    let titleLower := lowerStr title
    let abstractLower := lowerStr abstract
    let topicWords := wordTokens topicLower
    if topicWords = [] then (0, "no topic words")
    else
      let n : ℕ := topicWords.length
      let phraseScore : ℚ :=
        if strContains titleLower topicLower then 4/10
        else if strContains abstractLower topicLower then 2/10 else 0
      let phraseReasons : List String :=
        if strContains titleLower topicLower then ["exact phrase in title"]
        else if strContains abstractLower topicLower then
          ["exact phrase in abstract"]
        else []
      let titleWordMatches : ℕ :=
        (topicWords.filter (fun w => strContains titleLower w)).length
      let abstractWordMatches : ℕ :=
        (topicWords.filter (fun w => strContains abstractLower w)).length
      let titleFrac : ℚ := (titleWordMatches : ℚ) / (n : ℚ)
      let abstractFrac : ℚ := (abstractWordMatches : ℚ) / (n : ℚ)
      let wordScore : ℚ := titleFrac * (3/10) * 2 + abstractFrac * (3/10)
      let wordReasons : List String :=
        (if 0 < titleWordMatches then
          [s!"{titleWordMatches}/{n} words in title"] else []) ++
        (if 0 < abstractWordMatches then
          [s!"{abstractWordMatches}/{n} words in abstract"] else [])
      let titleBigrams : ℕ := countBigramMatches topicWords titleLower
      let abstractBigrams : ℕ := countBigramMatches topicWords abstractLower
      let maxBigrams : ℕ := n - 1
      let bigramBonus : ℚ :=
        if 2 ≤ n then
          max ((titleBigrams : ℚ) / (maxBigrams : ℚ))
              ((abstractBigrams : ℚ) / (maxBigrams : ℚ) * (1/2)) * (15/100)
        else 0
      let bigramReasons : List String :=
        if 2 ≤ n ∧ 0 < max titleBigrams abstractBigrams then
          [s!"{max titleBigrams abstractBigrams}/{maxBigrams} bigrams matched"]
        else []
      let allBonus : ℚ :=
        if titleWordMatches = n then 1/10
        else if abstractWordMatches = n then 5/100 else 0
      let allReasons : List String :=
        if titleWordMatches = n then ["all words in title"]
        else if abstractWordMatches = n then ["all words in abstract"] else []
      let score : ℚ := phraseScore + wordScore + bigramBonus + allBonus
      let clamped : ℚ := min 1 (max 0 score)
      let reasons := phraseReasons ++ wordReasons ++ bigramReasons ++ allReasons
      let why := if reasons = [] then "low keyword match"
        else String.intercalate "; " reasons
      (round3 clamped, why)

/-! ## schema.py: canonical item types -/

/-- `schema.AcademicEngagement`: optional academic engagement metrics. -/
structure AcademicEngagement where
  published_doi : Option String := none
  published_journal : Option String := none
  citation_count : Option ℤ := none
  downloads : Option ℤ := none
  likes : Option ℤ := none
  author_count : Option ℤ := none
  deriving DecidableEq, Repr

/-- `schema.SubScores`: component scores. -/
structure SubScores where
  relevance : ℤ := 0
  recency : ℤ := 0
  engagement : ℤ := 0
  deriving DecidableEq, Repr

/-- `schema.BiorxivItem`: normalized bioRxiv/medRxiv item. -/
structure BiorxivItem where
  id : String
  preprint_doi : String
  title : String
  authors : String
  abstract : String
  category : String
  source : String
  url : String
  date : Option String := none
  date_confidence : String := "low"
  engagement : Option AcademicEngagement := none
  relevance : ℚ := 0
  why_relevant : String := ""
  subs : SubScores := {}
  score : ℤ := 0
  deriving DecidableEq, Repr

/-- `schema.ArxivItem`: normalized arXiv item. -/
structure ArxivItem where
  id : String
  arxiv_id : String
  title : String
  authors : String
  abstract : String
  primary_category : String
  categories : List String
  url : String
  date : Option String := none
  date_confidence : String := "low"
  engagement : Option AcademicEngagement := none
  relevance : ℚ := 0
  why_relevant : String := ""
  subs : SubScores := {}
  score : ℤ := 0
  deriving DecidableEq, Repr

/-- `schema.PubmedItem`: normalized PubMed item. -/
structure PubmedItem where
  id : String
  pmid : String
  title : String
  authors : String
  abstract : String
  journal : String
  doi : Option String
  url : String
  date : Option String := none
  date_confidence : String := "low"
  engagement : Option AcademicEngagement := none
  relevance : ℚ := 0
  why_relevant : String := ""
  subs : SubScores := {}
  score : ℤ := 0
  deriving DecidableEq, Repr

/-- `schema.HuggingFaceItem`: normalized HuggingFace item. -/
structure HuggingFaceItem where
  id : String
  hf_id : String
  title : String
  author : String
  item_type : String
  tags : List String
  url : String
  date : Option String := none
  date_confidence : String := "low"
  engagement : Option AcademicEngagement := none
  relevance : ℚ := 0
  why_relevant : String := ""
  subs : SubScores := {}
  score : ℤ := 0
  deriving DecidableEq, Repr

/-- `schema.OpenAlexItem`: normalized OpenAlex item. -/
structure OpenAlexItem where
  id : String
  openalex_id : String
  title : String
  authors : String
  abstract : String
  doi : Option String
  source_name : String
  source_type : String
  work_type : String
  url : String
  date : Option String := none
  date_confidence : String := "low"
  engagement : Option AcademicEngagement := none
  relevance : ℚ := 0
  why_relevant : String := ""
  subs : SubScores := {}
  score : ℤ := 0
  deriving DecidableEq, Repr

/-- Modelled from the spec: `schema.SemanticScholarItem` is referenced by
`normalize.py`, `score.py`, `render.py` and `research30.py` but its class
declaration is missing from the sources; its fields follow the spec's
SemanticScholar variant (paper_id, doi?, venue, publication_types) plus the
common item header, matching the constructor call in
`normalize.normalize_semanticscholar_items`. -/
structure SemanticScholarItem where
  id : String
  paper_id : String
  title : String
  authors : String
  abstract : String
  doi : Option String
  venue : String
  publication_types : List String
  url : String
  date : Option String := none
  date_confidence : String := "low"
  engagement : Option AcademicEngagement := none
  relevance : ℚ := 0
  why_relevant : String := ""
  subs : SubScores := {}
  score : ℤ := 0
  deriving DecidableEq, Repr

/-- The heterogeneous item lists the pipeline passes to `dedupe` and
`score.sort_items`: Python uses dynamic `isinstance` checks over the six
schema classes, modelled as a sum type. -/
inductive Item where
  | biorxiv (b : BiorxivItem)
  | arxiv (a : ArxivItem)
  | pubmed (p : PubmedItem)
  | huggingface (h : HuggingFaceItem)
  | openalex (o : OpenAlexItem)
  | semanticscholar (s : SemanticScholarItem)
  deriving DecidableEq, Repr

/-! ## schema.py: serialization

Python dicts are modelled by record types.  A key that `to_dict` emits
unconditionally becomes a plain field; a key that is present only
conditionally becomes an `Option` field (`none` = key absent); `from_dict`
reads such keys through `dict.get`, which the `Option` model captures
exactly. -/

/-- Dict produced by `AcademicEngagement.to_dict` (each key present only
when the corresponding field is not `None`). -/
structure EngagementDict where
  published_doi : Option String := none
  published_journal : Option String := none
  citation_count : Option ℤ := none
  downloads : Option ℤ := none
  likes : Option ℤ := none
  author_count : Option ℤ := none
  deriving DecidableEq, Repr

/-- `AcademicEngagement.to_dict`: emits only the non-`None` fields and
returns `None` for an all-empty record (`return d if d else None`). -/
def AcademicEngagement.toDict (e : AcademicEngagement) :
    Option EngagementDict :=
  let d : EngagementDict :=
    { published_doi := e.published_doi
      published_journal := e.published_journal
      citation_count := e.citation_count
      downloads := e.downloads
      likes := e.likes
      author_count := e.author_count }
  if d = {} then none else some d

/-- Dict produced by `SubScores.to_dict` (all three keys always present). -/
structure SubsDict where
  relevance : ℤ
  recency : ℤ
  engagement : ℤ
  deriving DecidableEq, Repr

/-- `SubScores.to_dict`. -/
def SubScores.toDict (s : SubScores) : SubsDict :=
  { relevance := s.relevance, recency := s.recency, engagement := s.engagement }

/-- `Report.from_dict._parse_engagement`: `None` or an empty dict parse to
`None`, otherwise `AcademicEngagement(**raw)` (absent keys default). -/
def parseEngagement (raw : Option EngagementDict) :
    Option AcademicEngagement :=
  match raw with
  | none => none
  | some d =>
    if d = {} then none
    else some
      { published_doi := d.published_doi
        published_journal := d.published_journal
        citation_count := d.citation_count
        downloads := d.downloads
        likes := d.likes
        author_count := d.author_count }

/-- `Report.from_dict._parse_subs`. -/
def parseSubs (raw : Option SubsDict) : SubScores :=
  match raw with
  | none => {}
  | some s => { relevance := s.relevance, recency := s.recency,
                engagement := s.engagement }

/-- Dict produced by `BiorxivItem.to_dict` (every key always present). -/
structure BiorxivDict where
  id : String
  preprint_doi : String
  title : String
  authors : String
  abstract : String
  category : String
  source : String
  url : String
  date : Option String
  date_confidence : String
  engagement : Option EngagementDict
  relevance : ℚ
  why_relevant : String
  subs : SubsDict
  score : ℤ
  deriving DecidableEq, Repr

/-- `BiorxivItem.to_dict`. -/
def BiorxivItem.toDict (i : BiorxivItem) : BiorxivDict :=
  { id := i.id, preprint_doi := i.preprint_doi, title := i.title
    authors := i.authors, abstract := i.abstract, category := i.category
    source := i.source, url := i.url, date := i.date
    date_confidence := i.date_confidence
    engagement := i.engagement.bind AcademicEngagement.toDict
    relevance := i.relevance, why_relevant := i.why_relevant
    subs := i.subs.toDict, score := i.score }

/-- The bioRxiv/medRxiv branch of `Report.from_dict`. -/
def BiorxivItem.fromDict (r : BiorxivDict) : BiorxivItem :=
  { id := r.id, preprint_doi := r.preprint_doi, title := r.title
    authors := r.authors, abstract := r.abstract, category := r.category
    source := r.source, url := r.url, date := r.date
    date_confidence := r.date_confidence
    engagement := parseEngagement r.engagement
    relevance := r.relevance, why_relevant := r.why_relevant
    subs := parseSubs (some r.subs), score := r.score }

/-- Dict produced by `ArxivItem.to_dict`. -/
structure ArxivDict where
  id : String
  arxiv_id : String
  title : String
  authors : String
  abstract : String
  primary_category : String
  categories : List String
  url : String
  date : Option String
  date_confidence : String
  engagement : Option EngagementDict
  relevance : ℚ
  why_relevant : String
  subs : SubsDict
  score : ℤ
  deriving DecidableEq, Repr

/-- `ArxivItem.to_dict`. -/
def ArxivItem.toDict (i : ArxivItem) : ArxivDict :=
  { id := i.id, arxiv_id := i.arxiv_id, title := i.title
    authors := i.authors, abstract := i.abstract
    primary_category := i.primary_category, categories := i.categories
    url := i.url, date := i.date, date_confidence := i.date_confidence
    engagement := i.engagement.bind AcademicEngagement.toDict
    relevance := i.relevance, why_relevant := i.why_relevant
    subs := i.subs.toDict, score := i.score }

/-- The arXiv branch of `Report.from_dict`. -/
def ArxivItem.fromDict (r : ArxivDict) : ArxivItem :=
  { id := r.id, arxiv_id := r.arxiv_id, title := r.title
    authors := r.authors, abstract := r.abstract
    primary_category := r.primary_category, categories := r.categories
    url := r.url, date := r.date, date_confidence := r.date_confidence
    engagement := parseEngagement r.engagement
    relevance := r.relevance, why_relevant := r.why_relevant
    subs := parseSubs (some r.subs), score := r.score }

/-- Dict produced by `PubmedItem.to_dict`. -/
structure PubmedDict where
  id : String
  pmid : String
  title : String
  authors : String
  abstract : String
  journal : String
  doi : Option String
  url : String
  date : Option String
  date_confidence : String
  engagement : Option EngagementDict
  relevance : ℚ
  why_relevant : String
  subs : SubsDict
  score : ℤ
  deriving DecidableEq, Repr

/-- `PubmedItem.to_dict`. -/
def PubmedItem.toDict (i : PubmedItem) : PubmedDict :=
  { id := i.id, pmid := i.pmid, title := i.title
    authors := i.authors, abstract := i.abstract, journal := i.journal
    doi := i.doi, url := i.url, date := i.date
    date_confidence := i.date_confidence
    engagement := i.engagement.bind AcademicEngagement.toDict
    relevance := i.relevance, why_relevant := i.why_relevant
    subs := i.subs.toDict, score := i.score }

/-- The PubMed branch of `Report.from_dict`. -/
def PubmedItem.fromDict (r : PubmedDict) : PubmedItem :=
  { id := r.id, pmid := r.pmid, title := r.title
    authors := r.authors, abstract := r.abstract, journal := r.journal
    doi := r.doi, url := r.url, date := r.date
    date_confidence := r.date_confidence
    engagement := parseEngagement r.engagement
    relevance := r.relevance, why_relevant := r.why_relevant
    subs := parseSubs (some r.subs), score := r.score }

/-- Dict produced by `HuggingFaceItem.to_dict`. -/
structure HuggingFaceDict where
  id : String
  hf_id : String
  title : String
  author : String
  item_type : String
  tags : List String
  url : String
  date : Option String
  date_confidence : String
  engagement : Option EngagementDict
  relevance : ℚ
  why_relevant : String
  subs : SubsDict
  score : ℤ
  deriving DecidableEq, Repr

/-- `HuggingFaceItem.to_dict`. -/
def HuggingFaceItem.toDict (i : HuggingFaceItem) : HuggingFaceDict :=
  { id := i.id, hf_id := i.hf_id, title := i.title
    author := i.author, item_type := i.item_type, tags := i.tags
    url := i.url, date := i.date, date_confidence := i.date_confidence
    engagement := i.engagement.bind AcademicEngagement.toDict
    relevance := i.relevance, why_relevant := i.why_relevant
    subs := i.subs.toDict, score := i.score }

/-- The HuggingFace branch of `Report.from_dict`. -/
def HuggingFaceItem.fromDict (r : HuggingFaceDict) : HuggingFaceItem :=
  { id := r.id, hf_id := r.hf_id, title := r.title
    author := r.author, item_type := r.item_type, tags := r.tags
    url := r.url, date := r.date, date_confidence := r.date_confidence
    engagement := parseEngagement r.engagement
    relevance := r.relevance, why_relevant := r.why_relevant
    subs := parseSubs (some r.subs), score := r.score }

/-- Dict produced by `OpenAlexItem.to_dict`. -/
structure OpenAlexDict where
  id : String
  openalex_id : String
  title : String
  authors : String
  abstract : String
  doi : Option String
  source_name : String
  source_type : String
  work_type : String
  url : String
  date : Option String
  date_confidence : String
  engagement : Option EngagementDict
  relevance : ℚ
  why_relevant : String
  subs : SubsDict
  score : ℤ
  deriving DecidableEq, Repr

/-- `OpenAlexItem.to_dict`. -/
def OpenAlexItem.toDict (i : OpenAlexItem) : OpenAlexDict :=
  { id := i.id, openalex_id := i.openalex_id, title := i.title
    authors := i.authors, abstract := i.abstract, doi := i.doi
    source_name := i.source_name, source_type := i.source_type
    work_type := i.work_type, url := i.url, date := i.date
    date_confidence := i.date_confidence
    engagement := i.engagement.bind AcademicEngagement.toDict
    relevance := i.relevance, why_relevant := i.why_relevant
    subs := i.subs.toDict, score := i.score }

/-- The OpenAlex branch of `Report.from_dict`. -/
def OpenAlexItem.fromDict (r : OpenAlexDict) : OpenAlexItem :=
  { id := r.id, openalex_id := r.openalex_id, title := r.title
    authors := r.authors, abstract := r.abstract, doi := r.doi
    source_name := r.source_name, source_type := r.source_type
    work_type := r.work_type, url := r.url, date := r.date
    date_confidence := r.date_confidence
    engagement := parseEngagement r.engagement
    relevance := r.relevance, why_relevant := r.why_relevant
    subs := parseSubs (some r.subs), score := r.score }

/-- `schema.Report`: the full research report.  The field set follows the
`Report` dataclass in `schema.py`; it has item lists and error slots for
the six serialized sources. -/
structure Report where
  topic : String
  range_from : String
  range_to : String
  generated_at : String
  mode : String
  biorxiv : List BiorxivItem := []
  medrxiv : List BiorxivItem := []
  arxiv : List ArxivItem := []
  pubmed : List PubmedItem := []
  huggingface : List HuggingFaceItem := []
  openalex : List OpenAlexItem := []
  biorxiv_error : Option String := none
  medrxiv_error : Option String := none
  arxiv_error : Option String := none
  pubmed_error : Option String := none
  huggingface_error : Option String := none
  openalex_error : Option String := none
  from_cache : Bool := false
  cache_age_hours : Option ℚ := none
  deriving DecidableEq, Repr

/-- Dict produced by `Report.to_dict`.  The `range` sub-dict is flattened
into its two keys; error keys are present only when the error is truthy;
`from_cache` is present only when `True` (a `Bool` field models this since
`from_dict` reads it with default `False`). -/
structure ReportDict where
  topic : String
  range_from : String
  range_to : String
  generated_at : String
  mode : String
  biorxiv : List BiorxivDict
  medrxiv : List BiorxivDict
  arxiv : List ArxivDict
  pubmed : List PubmedDict
  huggingface : List HuggingFaceDict
  openalex : List OpenAlexDict
  biorxiv_error : Option String
  medrxiv_error : Option String
  arxiv_error : Option String
  pubmed_error : Option String
  huggingface_error : Option String
  openalex_error : Option String
  from_cache : Bool
  cache_age_hours : Option ℚ
  deriving DecidableEq, Repr

/-- Python truthiness of an optional string: `if err:` keeps only a
non-`None`, non-empty value. -/
def truthyStr (s : Option String) : Option String :=
  match s with
  | none => none
  | some e => if e = "" then none else some e

/-- `Report.to_dict`. -/
def Report.toDict (r : Report) : ReportDict :=
  { topic := r.topic, range_from := r.range_from, range_to := r.range_to
    generated_at := r.generated_at, mode := r.mode
    biorxiv := r.biorxiv.map BiorxivItem.toDict
    medrxiv := r.medrxiv.map BiorxivItem.toDict
    arxiv := r.arxiv.map ArxivItem.toDict
    pubmed := r.pubmed.map PubmedItem.toDict
    huggingface := r.huggingface.map HuggingFaceItem.toDict
    openalex := r.openalex.map OpenAlexItem.toDict
    biorxiv_error := truthyStr r.biorxiv_error
    medrxiv_error := truthyStr r.medrxiv_error
    arxiv_error := truthyStr r.arxiv_error
    pubmed_error := truthyStr r.pubmed_error
    huggingface_error := truthyStr r.huggingface_error
    openalex_error := truthyStr r.openalex_error
    from_cache := r.from_cache
    cache_age_hours := r.cache_age_hours }

/-- `Report.from_dict`. -/
def Report.fromDict (d : ReportDict) : Report :=
  { topic := d.topic, range_from := d.range_from, range_to := d.range_to
    generated_at := d.generated_at, mode := d.mode
    biorxiv := d.biorxiv.map BiorxivItem.fromDict
    medrxiv := d.medrxiv.map BiorxivItem.fromDict
    arxiv := d.arxiv.map ArxivItem.fromDict
    pubmed := d.pubmed.map PubmedItem.fromDict
    huggingface := d.huggingface.map HuggingFaceItem.fromDict
    openalex := d.openalex.map OpenAlexItem.fromDict
    biorxiv_error := d.biorxiv_error
    medrxiv_error := d.medrxiv_error
    arxiv_error := d.arxiv_error
    pubmed_error := d.pubmed_error
    huggingface_error := d.huggingface_error
    openalex_error := d.openalex_error
    from_cache := d.from_cache
    cache_age_hours := d.cache_age_hours }

/-! ## score.py: academic-signal and composite scoring

`dates.py` is referenced by `score.py` but missing from the sources, so
`dates.recency_score` is passed in as a function parameter `rf` (the spec
pins only that it is monotone in the date and `0` for an absent date).
`math.log1p` is transcendental, so it is likewise abstracted into a
parameter `lg` (its value on nonnegative integers); `log1p_safe`'s
`None`/negative guard is embedded explicitly. -/

def PAPER_WEIGHT_RELEVANCE : ℚ := 50/100
def PAPER_WEIGHT_RECENCY : ℚ := 25/100
def PAPER_WEIGHT_ACADEMIC : ℚ := 25/100

def HF_WEIGHT_RELEVANCE : ℚ := 45/100
def HF_WEIGHT_RECENCY : ℚ := 25/100
def HF_WEIGHT_ACADEMIC : ℚ := 30/100

/-- `score.log1p_safe` with `lg` abstracting `math.log1p`. -/
def log1pSafe (lg : ℤ → ℚ) (x : Option ℤ) : ℚ :=
  match x with
  | none => 0
  | some v => if v < 0 then 0 else lg v

/-- Python truthiness of an `Optional[str]` field. -/
def optStrTruthy (o : Option String) : Bool :=
  match o with
  | none => false
  | some s => s ≠ ""

/-- `score.compute_biorxiv_academic`. -/
def computeBiorxivAcademic (e : Option AcademicEngagement) : ℤ :=
  match e with
  | none => 20
  | some e =>
    let s : ℤ := 20
    let s := if optStrTruthy e.published_doi then s + 50 else s
    let s := match e.author_count with
      | some a => if a ≠ 0 ∧ 5 ≤ a then s + 10 else s
      | none => s
    min 100 s

def POPULAR_CATEGORIES : List String :=
  ["cs.AI", "cs.LG", "cs.CL", "cs.CV", "cs.NE", "stat.ML",
   "q-bio", "physics", "math"]

/-- `score.compute_arxiv_academic`. -/
def computeArxivAcademic (e : Option AcademicEngagement)
    (primaryCategory : String) : ℤ :=
  let s : ℤ := 30
  let s := if POPULAR_CATEGORIES.any
      (fun cat => cat.toList.isPrefixOf primaryCategory.toList) then s + 10
    else s
  let s := match e with
    | some e =>
      match e.author_count with
      | some a => if a ≠ 0 ∧ 5 ≤ a then s + 10 else s
      | none => s
    | none => s
  min 100 s

/-- `score.compute_pubmed_academic`. -/
def computePubmedAcademic (lg : ℤ → ℚ)
    (e : Option AcademicEngagement) : ℤ :=
  match e with
  | none => 40
  | some e =>
    let s : ℤ := 40
    let s := if optStrTruthy e.published_journal then s + 20 else s
    let s := match e.citation_count with
      | some c => if c ≠ 0 ∧ 0 < c then
          s + pyInt (log1pSafe lg (some c) * 15) else s
      | none => s
    min 100 s

/-- `score.compute_huggingface_academic`. -/
def computeHuggingfaceAcademic (lg : ℤ → ℚ)
    (e : Option AcademicEngagement) : ℤ :=
  match e with
  | none => 10
  | some e =>
    let s : ℤ := 10
    let s := s + pyInt (log1pSafe lg e.downloads * 8)
    let s := s + pyInt (log1pSafe lg e.likes * 12)
    min 100 s

/-- `score.compute_openalex_academic`. -/
def computeOpenalexAcademic (lg : ℤ → ℚ)
    (e : Option AcademicEngagement) : ℤ :=
  match e with
  | none => 30
  | some e =>
    let s : ℤ := 30
    let s := if optStrTruthy e.published_journal then s + 20 else s
    let s := match e.citation_count with
      | some c => if c ≠ 0 ∧ 0 < c then
          s + pyInt (log1pSafe lg (some c) * 12) else s
      | none => s
    let s := match e.author_count with
      | some a => if a ≠ 0 ∧ 5 ≤ a then s + 10 else s
      | none => s
    min 100 s

/-- `score.compute_semanticscholar_academic`. -/
def computeSemanticscholarAcademic (lg : ℤ → ℚ)
    (e : Option AcademicEngagement) : ℤ :=
  match e with
  | none => 30
  | some e =>
    let s : ℤ := 30
    let s := if optStrTruthy e.published_journal then s + 20 else s
    let s := match e.citation_count with
      | some c => if c ≠ 0 ∧ 0 < c then
          s + pyInt (log1pSafe lg (some c) * 12) else s
      | none => s
    let s := match e.author_count with
      | some a => if a ≠ 0 ∧ 5 ≤ a then s + 10 else s
      | none => s
    min 100 s

/-- The shared body of the per-item update in `score.score_*_items`:
sub-scores, weighted combination, low-confidence penalty, clamp. -/
def compositeScore (wr wt wa : ℚ) (relScore recScore acadScore : ℤ)
    (dateConfidence : String) : ℤ :=
  let overall : ℚ := wr * relScore + wt * recScore + wa * acadScore
  let overall := if dateConfidence = "low" then overall - 10 else overall
  max 0 (min 100 (pyInt overall))

/-- `score.score_biorxiv_items` (single item update). -/
def scoreBiorxivItem (rf : Option String → ℤ) (i : BiorxivItem) :
    BiorxivItem :=
  let relScore := pyInt (i.relevance * 100)
  let recScore := rf i.date
  let acadScore := computeBiorxivAcademic i.engagement
  { i with
    subs := ⟨relScore, recScore, acadScore⟩
    score := compositeScore PAPER_WEIGHT_RELEVANCE PAPER_WEIGHT_RECENCY
      PAPER_WEIGHT_ACADEMIC relScore recScore acadScore i.date_confidence }

/-- `score.score_biorxiv_items`. -/
def scoreBiorxivItems (rf : Option String → ℤ) (items : List BiorxivItem) :
    List BiorxivItem :=
  items.map (scoreBiorxivItem rf)

/-- `score.score_arxiv_items` (single item update). -/
def scoreArxivItem (rf : Option String → ℤ) (i : ArxivItem) : ArxivItem :=
  let relScore := pyInt (i.relevance * 100)
  let recScore := rf i.date
  let acadScore := computeArxivAcademic i.engagement i.primary_category
  { i with
    subs := ⟨relScore, recScore, acadScore⟩
    score := compositeScore PAPER_WEIGHT_RELEVANCE PAPER_WEIGHT_RECENCY
      PAPER_WEIGHT_ACADEMIC relScore recScore acadScore i.date_confidence }

/-- `score.score_arxiv_items`. -/
def scoreArxivItems (rf : Option String → ℤ) (items : List ArxivItem) :
    List ArxivItem :=
  items.map (scoreArxivItem rf)

/-- `score.score_pubmed_items` (single item update). -/
def scorePubmedItem (rf : Option String → ℤ) (lg : ℤ → ℚ)
    (i : PubmedItem) : PubmedItem :=
  let relScore := pyInt (i.relevance * 100)
  let recScore := rf i.date
  let acadScore := computePubmedAcademic lg i.engagement
  { i with
    subs := ⟨relScore, recScore, acadScore⟩
    score := compositeScore PAPER_WEIGHT_RELEVANCE PAPER_WEIGHT_RECENCY
      PAPER_WEIGHT_ACADEMIC relScore recScore acadScore i.date_confidence }

/-- `score.score_pubmed_items`. -/
def scorePubmedItems (rf : Option String → ℤ) (lg : ℤ → ℚ)
    (items : List PubmedItem) : List PubmedItem :=
  items.map (scorePubmedItem rf lg)

/-- `score.score_huggingface_items` (single item update). -/
def scoreHuggingfaceItem (rf : Option String → ℤ) (lg : ℤ → ℚ)
    (i : HuggingFaceItem) : HuggingFaceItem :=
  let relScore := pyInt (i.relevance * 100)
  let recScore := rf i.date
  let acadScore := computeHuggingfaceAcademic lg i.engagement
  { i with
    subs := ⟨relScore, recScore, acadScore⟩
    score := compositeScore HF_WEIGHT_RELEVANCE HF_WEIGHT_RECENCY
      HF_WEIGHT_ACADEMIC relScore recScore acadScore i.date_confidence }

/-- `score.score_huggingface_items`. -/
def scoreHuggingfaceItems (rf : Option String → ℤ) (lg : ℤ → ℚ)
    (items : List HuggingFaceItem) : List HuggingFaceItem :=
  items.map (scoreHuggingfaceItem rf lg)

/-- `score.score_openalex_items` (single item update). -/
def scoreOpenalexItem (rf : Option String → ℤ) (lg : ℤ → ℚ)
    (i : OpenAlexItem) : OpenAlexItem :=
  let relScore := pyInt (i.relevance * 100)
  let recScore := rf i.date
  let acadScore := computeOpenalexAcademic lg i.engagement
  { i with
    subs := ⟨relScore, recScore, acadScore⟩
    score := compositeScore PAPER_WEIGHT_RELEVANCE PAPER_WEIGHT_RECENCY
      PAPER_WEIGHT_ACADEMIC relScore recScore acadScore i.date_confidence }

/-- `score.score_openalex_items`. -/
def scoreOpenalexItems (rf : Option String → ℤ) (lg : ℤ → ℚ)
    (items : List OpenAlexItem) : List OpenAlexItem :=
  items.map (scoreOpenalexItem rf lg)

/-- `score.score_semanticscholar_items` (single item update). -/
def scoreSemanticscholarItem (rf : Option String → ℤ) (lg : ℤ → ℚ)
    (i : SemanticScholarItem) : SemanticScholarItem :=
  let relScore := pyInt (i.relevance * 100)
  let recScore := rf i.date
  let acadScore := computeSemanticscholarAcademic lg i.engagement
  { i with
    subs := ⟨relScore, recScore, acadScore⟩
    score := compositeScore PAPER_WEIGHT_RELEVANCE PAPER_WEIGHT_RECENCY
      PAPER_WEIGHT_ACADEMIC relScore recScore acadScore i.date_confidence }

/-- `score.score_semanticscholar_items`. -/
def scoreSemanticscholarItems (rf : Option String → ℤ) (lg : ℤ → ℚ)
    (items : List SemanticScholarItem) : List SemanticScholarItem :=
  items.map (scoreSemanticscholarItem rf lg)

/-! ## score.py: sort_items -/

/-- Common item accessors used by `sort_items` and `dedupe`. -/
def itemScore : Item → ℤ
  | .biorxiv b => b.score
  | .arxiv a => a.score
  | .pubmed p => p.score
  | .huggingface h => h.score
  | .openalex o => o.score
  | .semanticscholar s => s.score

def itemDate : Item → Option String
  | .biorxiv b => b.date
  | .arxiv a => a.date
  | .pubmed p => p.date
  | .huggingface h => h.date
  | .openalex o => o.date
  | .semanticscholar s => s.date

/-- `dedupe._get_title` / `getattr(item, "title", "")`: every variant has a
title. -/
def itemTitle : Item → String
  | .biorxiv b => b.title
  | .arxiv a => a.title
  | .pubmed p => p.title
  | .huggingface h => h.title
  | .openalex o => o.title
  | .semanticscholar s => s.title

/-- Python `a or b` for an optional string (`None` and `""` are falsy). -/
def orDefault (o : Option String) (d : String) : String :=
  match o with
  | none => d
  | some s => if s = "" then d else s

/-- `int(date.replace("-", ""))`, totalized: a date string that is not all
digits (on which Python would raise) maps to `0`; every date produced by
the pipeline is `YYYY-MM-DD`. -/
def dateAsInt (d : String) : ℤ :=
  (((digitsToNat? (pyReplace d "-" "")).getD 0 : ℕ) : ℤ)

/-- The sort key of `score.sort_items.sort_key`:
`(-score, -int(date digits), title)`, compared lexicographically as Python
compares tuples. -/
def sortKey (it : Item) : ℤ ×ₗ ℤ ×ₗ String :=
  toLex (-itemScore it,
    toLex (-dateAsInt (orDefault (itemDate it) "0000-00-00"), itemTitle it))

/-- `score.sort_items`: Python's `sorted` with a key function is the stable
sort by that key; `List.insertionSort` with the key's total preorder is
extensionally that stable sort. -/
def sortItems (items : List Item) : List Item :=
  List.insertionSort (fun a b => sortKey a ≤ sortKey b) items

/-! ## dedupe.py -/

/-- `dedupe.SOURCE_PRIORITY` (lower = higher priority, keep this one). -/
def SOURCE_PRIORITY : List (String × ℤ) :=
  [("pubmed", 0), ("openalex", 1), ("biorxiv", 2), ("medrxiv", 3),
   ("arxiv", 4), ("huggingface", 5)]

/-- `dedupe._get_source`: the `isinstance` chain has no branch for
`SemanticScholarItem`, so a Semantic Scholar item falls through to
`"unknown"`. -/
def getSource : Item → String
  | .biorxiv b => b.source
  | .arxiv _ => "arxiv"
  | .pubmed _ => "pubmed"
  | .huggingface _ => "huggingface"
  | .openalex _ => "openalex"
  | .semanticscholar _ => "unknown"

/-- `dedupe._source_priority`: `SOURCE_PRIORITY.get(_get_source(item), 99)`. -/
def sourcePriority (it : Item) : ℤ :=
  ((SOURCE_PRIORITY.find? (fun p => p.1 = getSource it)).map Prod.snd).getD 99

/-- `dedupe.normalize_text`: lowercase, non-word/space to space, collapse
whitespace, strip. -/
def normalizeText (s : String) : String :=
  let l1 := s.toList.map Char.toLower
  let l2 := l1.map (fun c => if isWordChar c || isPySpace c then c else ' ')
  pyStrip (String.mk (collapseSpaces l2))

/-- `dedupe.get_ngrams` with `n = 3`: the character 3-grams of the
normalized text, or the singleton of the text itself when it is shorter
than 3 characters. -/
def getNgrams (text : String) : Finset String :=
  let t := normalizeText text
  if t.toList.length < 3 then {t}
  else ((List.range (t.toList.length - 2)).map
    (fun i => String.mk ((t.toList.drop i).take 3))).toFinset

/-- `dedupe.jaccard_similarity`. -/
def jaccardSimilarity (s1 s2 : Finset String) : ℚ :=
  if s1 = ∅ ∨ s2 = ∅ then 0
  else
    let inter := (s1 ∩ s2).card
    let union := (s1 ∪ s2).card
    if 0 < union then (inter : ℚ) / (union : ℚ) else 0

/-- Engagement accessor (`getattr(item, 'engagement', None)`; every
variant has the field). -/
def itemEngagement : Item → Option AcademicEngagement
  | .biorxiv b => b.engagement
  | .arxiv a => a.engagement
  | .pubmed p => p.engagement
  | .huggingface h => h.engagement
  | .openalex o => o.engagement
  | .semanticscholar s => s.engagement

/-- `dedupe._get_dois`: every DOI the item carries (`preprint_doi` for
bioRxiv, `doi` for PubMed and OpenAlex, plus `engagement.published_doi`),
lowercased and stripped. -/
def getDois (it : Item) : List String :=
  let base : List String :=
    match it with
    | .biorxiv b => if b.preprint_doi ≠ "" then [b.preprint_doi] else []
    | .pubmed p =>
      match p.doi with
      | some d => if d ≠ "" then [d] else []
      | none => []
    | .openalex o =>
      match o.doi with
      | some d => if d ≠ "" then [d] else []
      | none => []
    | _ => []
  let withEng : List String :=
    match itemEngagement it with
    | some e =>
      match e.published_doi with
      | some d => if d ≠ "" then base ++ [d] else base
      | none => base
    | none => base
  (withEng.filter (fun d => d ≠ "")).map (fun d => pyStrip (lowerStr d))

/-- The comparison key `(source_priority, -score)` used by both dedup
passes, with Python's lexicographic tuple order. -/
def dedupeKey (it : Item) : ℤ ×ₗ ℤ :=
  toLex (sourcePriority it, -itemScore it)

/-- `doi_map.setdefault(doi, []).append(idx)`, keyed in insertion order.
The map stores the `(index, item)` pair rather than the bare index so the
comparator need not re-index `all_items`. -/
def insertDoi (m : List (String × List (ℕ × Item))) (d : String)
    (p : ℕ × Item) : List (String × List (ℕ × Item)) :=
  if m.any (fun q => q.1 = d) then
    m.map (fun q => if q.1 = d then (q.1, q.2 ++ [p]) else q)
  else m ++ [(d, [p])]

/-- The `doi_map` of `dedupe_cross_source` pass 1. -/
def buildDoiMap (items : List Item) : List (String × List (ℕ × Item)) :=
  items.enum.foldl
    (fun m p => (getDois p.2).foldl (fun m d => insertDoi m d p) m) []

/-- Python `min(indices, key=...)`: the first element attaining the
minimal key. -/
def minByFirst (l : List (ℕ × Item)) : Option (ℕ × Item) :=
  match l with
  | [] => none
  | x :: xs =>
    some (xs.foldl (fun best p =>
      if dedupeKey p.2 < dedupeKey best.2 then p else best) x)

/-- Pass 1 of `dedupe_cross_source`: for each DOI referenced at least
twice, mark every index other than the `(priority, -score)`-minimal one
removed. -/
def doiPassRemove (items : List Item) : Finset ℕ :=
  (buildDoiMap items).foldl
    (fun R g =>
      if g.2.length ≤ 1 then R
      else
        match minByFirst g.2 with
        | none => R
        | some best =>
          g.2.foldl (fun R p => if p.1 ≠ best.1 then insert p.1 R else R) R)
    ∅

/-- Inner loop (over `j`) of the title-similarity pass of
`dedupe_cross_source`; note that after the outer item `i` is itself marked
removed the loop still continues comparing against it, exactly as the
Python loop does. -/
def titlePassInner (iIdx : ℕ) (iItem : Item) (iG : Finset String) (θ : ℚ) :
    List (ℕ × Item × Finset String) → Finset ℕ → Finset ℕ
  | [], R => R
  | (jIdx, jItem, jG) :: rest, R =>
    if jIdx ∈ R then titlePassInner iIdx iItem iG θ rest R
    else if θ ≤ jaccardSimilarity iG jG then
      titlePassInner iIdx iItem iG θ rest
        (if dedupeKey iItem ≤ dedupeKey jItem then insert jIdx R
         else insert iIdx R)
    else titlePassInner iIdx iItem iG θ rest R

/-- Outer loop (over `i`) of the title-similarity pass of
`dedupe_cross_source`. -/
def titlePassOuter (θ : ℚ) :
    List (ℕ × Item × Finset String) → Finset ℕ → Finset ℕ
  | [], R => R
  | (iIdx, iItem, iG) :: rest, R =>
    if iIdx ∈ R then titlePassOuter θ rest R
    else titlePassOuter θ rest (titlePassInner iIdx iItem iG θ rest R)

/-- `dedupe.dedupe_cross_source`. -/
def dedupeCrossSource (items : List Item) (θ : ℚ := 7/10) : List Item :=
  if items.length ≤ 1 then items
  else
    let R1 := doiPassRemove items
    let remaining := items.enum.filter (fun p => p.1 ∉ R1)
    let ngrams := remaining.map
      (fun p => (p.1, p.2, getNgrams (itemTitle p.2)))
    let R2 := titlePassOuter θ ngrams R1
    (items.enum.filter (fun p => p.1 ∉ R2)).map Prod.snd

/-- Inner loop (over `j`) of `dedupe_within_source`: keeps the
higher-scored of a similar pair (ties keep the earlier). -/
def withinInner (iItem : Item) (iIdx : ℕ) (iG : Finset String) (θ : ℚ) :
    List (ℕ × Item × Finset String) → Finset ℕ → Finset ℕ
  | [], R => R
  | (jIdx, jItem, jG) :: rest, R =>
    if jIdx ∈ R then withinInner iItem iIdx iG θ rest R
    else if θ ≤ jaccardSimilarity iG jG then
      withinInner iItem iIdx iG θ rest
        (if itemScore jItem ≤ itemScore iItem then insert jIdx R
         else insert iIdx R)
    else withinInner iItem iIdx iG θ rest R

/-- Outer loop (over `i`) of `dedupe_within_source`. -/
def withinOuter (θ : ℚ) :
    List (ℕ × Item × Finset String) → Finset ℕ → Finset ℕ
  | [], R => R
  | (iIdx, iItem, iG) :: rest, R =>
    if iIdx ∈ R then withinOuter θ rest R
    else withinOuter θ rest (withinInner iItem iIdx iG θ rest R)

/-- `dedupe.dedupe_within_source`. -/
def dedupeWithinSource (items : List Item) (θ : ℚ := 7/10) : List Item :=
  if items.length ≤ 1 then items
  else
    let ngrams := items.enum.map
      (fun p => (p.1, p.2, getNgrams (itemTitle p.2)))
    let R := withinOuter θ ngrams ∅
    (items.enum.filter (fun p => p.1 ∉ R)).map Prod.snd

/-! ## xml_parse.py

`xml.etree.ElementTree` trees are modelled by `XElem`; `ET.fromstring` is
abstracted into the adapters' fetch oracles (`none` models a
`ParseError`, on which both parsers return `[]`). -/

inductive XElem where
  | mk (tag : String) (attrs : List (String × String))
       (text : Option String) (tail : Option String)
       (children : List XElem)

def XElem.tag : XElem → String | .mk t _ _ _ _ => t
def XElem.attrs : XElem → List (String × String) | .mk _ a _ _ _ => a
def XElem.text : XElem → Option String | .mk _ _ t _ _ => t
def XElem.tail : XElem → Option String | .mk _ _ _ t _ => t
def XElem.children : XElem → List XElem | .mk _ _ _ _ c => c

/-- `elem.get(key, default)` on attributes. -/
def XElem.get (e : XElem) (key default : String) : String :=
  ((e.attrs.find? (fun p => p.1 = key)).map Prod.snd).getD default

/-- Direct children with a given tag. -/
def XElem.childrenTag (e : XElem) (t : String) : List XElem :=
  e.children.filter (fun c => c.tag = t)

/-- `elem.findall(path)` for a `/`-separated simple tag path (ElementTree
semantics: all matches of the path, document order). -/
def XElem.findAllPath (e : XElem) (path : List String) : List XElem :=
  path.foldl (fun acc step => (acc.map (fun x => x.childrenTag step)).flatten)
    [e]

/-- `elem.find(path)`: first match of the path. -/
def XElem.findPath (e : XElem) (path : List String) : Option XElem :=
  (e.findAllPath path).head?

/-- `elem.find(tag)` for a single tag. -/
def XElem.find1 (e : XElem) (t : String) : Option XElem :=
  e.findPath [t]

mutual
/-- `''.join(elem.itertext())`: all text of the element and its
descendants, including child tails. -/
def XElem.iterText : XElem → String
  | .mk _ _ t _ cs => (t.getD "") ++ iterTextList cs
def iterTextList : List XElem → String
  | [] => ""
  | c :: cs => c.iterText ++ (c.tail.getD "") ++ iterTextList cs
end

/-- Auxiliary for `XElem.findDesc`: all elements with the given tag in a
forest, document order. -/
def findDescList : List XElem → String → List XElem
  | [], _ => []
  | .mk ct ca cx ctl ccs :: cs, t =>
    (if ct = t then [XElem.mk ct ca cx ctl ccs] else []) ++
      findDescList ccs t ++ findDescList cs t

/-- Descendants (self excluded) with a given tag, document order:
`elem.findall('.//tag')`. -/
def XElem.findDesc (e : XElem) (t : String) : List XElem :=
  findDescList e.children t

/-- `elem.text.strip() if elem is not None and elem.text else ''` — the
repeated truthiness idiom of both parsers. -/
def textOrEmpty (o : Option XElem) : String :=
  match o with
  | none => ""
  | some el =>
    match el.text with
    | none => ""
    | some t => if t = "" then "" else pyStrip t

/-- Truthiness of `elem is not None and elem.text`. -/
def textTruthy (o : Option XElem) : Bool :=
  match o with
  | none => false
  | some el =>
    match el.text with
    | none => false
    | some t => t ≠ ""

/-- `s.replace('\n', ' ')`. -/
def replaceNewlines (s : String) : String :=
  String.mk (s.toList.map (fun c => if c = '\n' then ' ' else c))

/-- `xml_parse._extract_text`. -/
def extractText (o : Option XElem) : String :=
  match o with
  | none => ""
  | some el => pyStrip el.iterText

def ATOM_NS : String := "\x7bhttp://www.w3.org/2005/Atom\x7d"
def ARXIV_NS : String := "\x7bhttp://arxiv.org/schemas/atom\x7d"

/-- The row dict built by `xml_parse.parse_arxiv_atom`;
`relevance`/`why_relevant` are the keys `search_arxiv` adds afterwards. -/
structure ArxivRaw where
  arxiv_id : String
  title : String
  authors : String
  author_count : ℤ
  abstract : String
  published : String
  updated : String
  primary_category : String
  categories : List String
  link : String
  relevance : ℚ := 0
  why_relevant : String := ""
  deriving DecidableEq, Repr

/-- The per-entry body of `parse_arxiv_atom`. -/
def parseArxivEntry (entry : XElem) : ArxivRaw :=
  let arxivUrl := textOrEmpty (entry.find1 (ATOM_NS ++ "id"))
  let arxiv_id :=
    if strContains arxivUrl "/abs/" then
      (((pySplit arxivUrl "/abs/").getLast?).getD arxivUrl)
    else arxivUrl
  let title := replaceNewlines (textOrEmpty (entry.find1 (ATOM_NS ++ "title")))
  let authors := (entry.childrenTag (ATOM_NS ++ "author")).filterMap
    (fun ae =>
      let ne := ae.find1 (ATOM_NS ++ "name")
      if textTruthy ne then some (textOrEmpty ne) else none)
  let abstract :=
    replaceNewlines (textOrEmpty (entry.find1 (ATOM_NS ++ "summary")))
  let published := textOrEmpty (entry.find1 (ATOM_NS ++ "published"))
  let updated := textOrEmpty (entry.find1 (ATOM_NS ++ "updated"))
  let primary_category :=
    match entry.find1 (ARXIV_NS ++ "primary_category") with
    | some el => el.get "term" ""
    | none => ""
  let categories := ((entry.childrenTag (ATOM_NS ++ "category")).map
    (fun ce => ce.get "term" "")).filter (fun t => t ≠ "")
  let link :=
    match (entry.childrenTag (ATOM_NS ++ "link")).find?
        (fun le => le.get "type" "" = "text/html") with
    | some le => le.get "href" arxivUrl
    | none => arxivUrl
  { arxiv_id := arxiv_id, title := title
    authors := String.intercalate ", " authors
    author_count := (authors.length : ℤ), abstract := abstract
    published := published, updated := updated
    primary_category := primary_category, categories := categories
    link := link }

/-- `xml_parse.parse_arxiv_atom` (`none` = `ET.ParseError`, giving `[]`).
Every `entry` produces a row — there is no drop branch. -/
def parseArxivAtom (root : Option XElem) : List ArxivRaw :=
  match root with
  | none => []
  | some root => (root.childrenTag (ATOM_NS ++ "entry")).map parseArxivEntry

/-! ## arxiv.py -/

def depthLimitArxiv (d : String) : ℕ :=
  if d = "quick" then 30 else if d = "default" then 100
  else if d = "deep" then 200 else 100

/-- `arxiv.search_arxiv`: the fetch oracle stands for
`http.get_text` composed with `ET.fromstring` (`Except.error` = an
exception from the transport, `some`/`none` = parsed / `ParseError`).
Keyword relevance is attached to every parsed row; no row is filtered. -/
def searchArxiv (topic : String) (fetched : Except String (Option XElem)) :
    List ArxivRaw × Option String :=
  match fetched with
  | .error e => ([], some e)
  | .ok root =>
    let papers := parseArxivAtom root
    (papers.map (fun p =>
      let rw := computeKeywordRelevance topic p.title p.abstract
      { p with relevance := rw.1, why_relevant := rw.2 }), none)

/-! ## xml_parse.py: PubMed EFetch parsing -/

/-- `xml_parse._month_to_num`'s table. -/
def MONTH_TABLE : List (String × String) :=
  [("jan", "01"), ("feb", "02"), ("mar", "03"), ("apr", "04"),
   ("may", "05"), ("jun", "06"), ("jul", "07"), ("aug", "08"),
   ("sep", "09"), ("oct", "10"), ("nov", "11"), ("dec", "12")]

/-- Python `s.zfill(2)`. -/
def zfill2 (s : String) : String :=
  String.mk (List.replicate (2 - s.toList.length) '0' ++ s.toList)

/-- `xml_parse._month_to_num`. -/
def monthToNum (monthStr : String) : String :=
  match digitsToNat? monthStr with
  | some n => zfill2 (natToStr n)
  | none =>
    ((MONTH_TABLE.find?
      (fun p => p.1 = String.mk ((lowerStr monthStr).toList.take 3))).map
        Prod.snd).getD "01"

/-- `xml_parse._extract_pub_date`. -/
def extractPubDate (art : XElem) : Option String :=
  match (art.childrenTag "ArticleDate").find?
      (fun de => textTruthy (de.find1 "Year")) with
  | some de =>
    let y := (de.find1 "Year").bind XElem.text
    let m := de.find1 "Month"
    let d := de.find1 "Day"
    some ((y.getD "") ++ "-" ++
      (if textTruthy m then zfill2 ((m.bind XElem.text).getD "") else "01") ++
      "-" ++
      (if textTruthy d then zfill2 ((d.bind XElem.text).getD "") else "01"))
  | none =>
    match art.findPath ["Journal", "JournalIssue", "PubDate"] with
    | some pd =>
      let y := pd.find1 "Year"
      if textTruthy y then
        let m := pd.find1 "Month"
        let d := pd.find1 "Day"
        some ((((y.bind XElem.text)).getD "") ++ "-" ++
          (if textTruthy m then monthToNum ((m.bind XElem.text).getD "")
           else "01") ++ "-" ++
          (if textTruthy d then zfill2 ((d.bind XElem.text).getD "")
           else "01"))
      else none
    | none => none

/-- The row dict built by `xml_parse.parse_pubmed_efetch`;
`relevance`/`why_relevant`/`query_translation` are added by
`search_pubmed`. -/
structure PubmedRaw where
  pmid : String
  title : String
  authors : String
  author_count : ℤ
  abstract : String
  journal : String
  doi : String
  pub_date : Option String
  relevance : ℚ := 0
  why_relevant : String := ""
  query_translation : String := ""
  deriving DecidableEq, Repr

/-- The per-article body of `parse_pubmed_efetch`: produces a row for
every article that has `MedlineCitation` and `Article` wrappers — a
missing or empty title yields `title = ''`, never a drop. -/
def parsePubmedArticle (article : XElem) : Option PubmedRaw :=
  match article.find1 "MedlineCitation" with
  | none => none
  | some medline =>
    let pmid := textOrEmpty (medline.find1 "PMID")
    match medline.find1 "Article" with
    | none => none
    | some art =>
      let title := extractText (art.find1 "ArticleTitle")
      let abstractParts :=
        match art.find1 "Abstract" with
        | some ab => (ab.childrenTag "AbstractText").filterMap
          (fun te =>
            let label := te.get "Label" ""
            let text := extractText (some te)
            if label ≠ "" ∧ text ≠ "" then some (label ++ ": " ++ text)
            else if text ≠ "" then some text else none)
        | none => []
      let abstract := String.intercalate " " abstractParts
      let authors :=
        match art.find1 "AuthorList" with
        | some al => (al.childrenTag "Author").filterMap
          (fun ae =>
            let last := ae.find1 "LastName"
            let first := ae.find1 "ForeName"
            if textTruthy last then
              let lastText := ((last.bind XElem.text).getD "")
              if textTruthy first then
                some (lastText ++ " " ++
                  (String.mk (((first.bind XElem.text).getD "").toList.take 1)))
              else some lastText
            else none)
        | none => []
      let journal := textOrEmpty (art.findPath ["Journal", "Title"])
      let doi :=
        match article.findPath ["PubmedData", "ArticleIdList"] with
        | some idl =>
          match (idl.childrenTag "ArticleId").find?
              (fun aid => aid.get "IdType" "" = "doi" ∧ textTruthy (some aid))
            with
          | some aid => pyStrip ((aid.text).getD "")
          | none => ""
        | none => ""
      some { pmid := pmid, title := title
             authors := String.intercalate ", " authors
             author_count := (authors.length : ℤ)
             abstract := abstract, journal := journal, doi := doi
             pub_date := extractPubDate art }

/-- `xml_parse.parse_pubmed_efetch`. -/
def parsePubmedEfetch (root : Option XElem) : List PubmedRaw :=
  match root with
  | none => []
  | some root => (root.findDesc "PubmedArticle").filterMap parsePubmedArticle

/-! ## pubmed.py -/

def depthLimitPubmed (d : String) : ℕ :=
  if d = "quick" then 30 else if d = "default" then 100
  else if d = "deep" then 200 else 100

def EFETCH_BATCH_SIZE : ℕ := 200

/-- The EFetch batching loop of `search_pubmed`: an `HTTPError` aborts the
loop but keeps the articles already collected. -/
def efetchLoop (efetchFn : List String → Except String (Option XElem)) :
    List (List String) → List PubmedRaw → List PubmedRaw × Option String
  | [], acc => (acc, none)
  | b :: bs, acc =>
    match efetchFn b with
    | .ok root => efetchLoop efetchFn bs (acc ++ parsePubmedEfetch root)
    | .error e => (acc, some e)

/-- The 200-PMID batches of the EFetch loop. -/
def pmidBatches (pmids : List String) : List (List String) :=
  (List.range ((pmids.length + EFETCH_BATCH_SIZE - 1) / EFETCH_BATCH_SIZE)).map
    (fun k => (pmids.drop (k * EFETCH_BATCH_SIZE)).take EFETCH_BATCH_SIZE)

/-- `pubmed.search_pubmed`: the ESearch oracle yields
`(pmids, querytranslation)`; the EFetch oracle yields the parsed XML for
one PMID batch.  Keyword relevance is attached to every collected
article; no row is filtered. -/
def searchPubmed (topic : String)
    (esearchRes : Except String (List String × String))
    (efetchFn : List String → Except String (Option XElem)) :
    List PubmedRaw × Option String :=
  match esearchRes with
  | .error e => ([], some e)
  | .ok (pmids, queryTranslation) =>
    if pmids = [] then ([], none)
    else
      let res := efetchLoop efetchFn (pmidBatches pmids) []
      (res.1.map (fun a =>
        let rw := computeKeywordRelevance topic a.title a.abstract
        { a with relevance := rw.1, why_relevant := rw.2
                 query_translation := queryTranslation }), res.2)

/-! ## biorxiv.py

The fetch oracle stands for `http.get` on one cursor page (an
`Except.error` models `http.HTTPError` after the retry loop); the page
payload is typed, so the generic `except Exception` path for malformed
payloads has no counterpart here.  The `ThreadPoolExecutor` fan-out over
the remaining cursors is modelled in cursor submission order; the
error-channel and filtering behavior is order-independent because a
failed page is always skipped (`continue`) and a successful one always
appended. -/

/-- A raw bioRxiv/medRxiv collection row (the fields the adapter reads or
forwards); `relevance`/`why_relevant`/`source` are added by
`_filter_page`. -/
structure BioRaw where
  doi : String := ""
  title : String := ""
  authors : String := ""
  abstract : String := ""
  category : String := ""
  date : String := ""
  relevance : ℚ := 0
  why_relevant : String := ""
  source : String := ""
  deriving DecidableEq, Repr

/-- `messages[0]` of a bioRxiv details page. -/
structure BioMsg where
  total : ℤ := 0
  count : ℤ := 0
  deriving DecidableEq, Repr

/-- One page of the bioRxiv details API. -/
structure BioPage where
  collection : List BioRaw := []
  messages : List BioMsg := []
  deriving DecidableEq, Repr

def depthLimitBiorxiv (d : String) : ℕ :=
  if d = "quick" then 20 else if d = "default" then 50
  else if d = "deep" then 200 else 50

def BIORXIV_MAX_PAGES : ℕ := 30

/-- `biorxiv._filter_page`: keep a row only when its keyword relevance is
strictly above `0.1`. -/
def filterPage (topic server : String) (collection : List BioRaw) :
    List BioRaw :=
  collection.filterMap (fun item =>
    let rw := computeKeywordRelevance topic item.title item.abstract
    if rw.1 > 1/10 then
      some { item with relevance := rw.1, why_relevant := rw.2
                       source := server }
    else none)

/-- The cursor list for the remaining pages (`while c < total` capped at
`MAX_PAGES - 1` pages, stepping by the API page size 100). -/
def remCursorsAux : ℕ → ℤ → ℤ → List ℤ
  | 0, _, _ => []
  | fuel + 1, c, total =>
    if c < total then c :: remCursorsAux fuel (c + 100) total else []

def remainingCursors (count total : ℤ) : List ℤ :=
  remCursorsAux (BIORXIV_MAX_PAGES - 1) count total

/-- The fan-out over the remaining cursors: a failed page is skipped, a
successful one filtered and appended, and paging stops early once
`max_relevant` rows are collected. -/
def bioPagesLoop (fetch : ℤ → Except String BioPage) (topic server : String)
    (maxRelevant : ℕ) : List ℤ → List BioRaw → List BioRaw
  | [], acc => acc
  | cur :: rest, acc =>
    match fetch cur with
    | .error _ => bioPagesLoop fetch topic server maxRelevant rest acc
    | .ok page =>
      let acc := if page.collection ≠ [] then
          acc ++ filterPage topic server page.collection
        else acc
      if maxRelevant ≤ acc.length then acc
      else bioPagesLoop fetch topic server maxRelevant rest acc

/-- `biorxiv.search_preprint_server` (network path). -/
def searchPreprintServer (server topic : String) (depth : String)
    (fetch : ℤ → Except String BioPage) : List BioRaw × Option String :=
  let maxRelevant := depthLimitBiorxiv depth
  match fetch 0 with
  | .error e => ([], some e)
  | .ok firstData =>
    if firstData.collection = [] then ([], none)
    else
      let results := filterPage topic server firstData.collection
      if maxRelevant ≤ results.length then (results.take maxRelevant, none)
      else
        match firstData.messages.head? with
        | none => (results.take maxRelevant, none)
        | some msg =>
          if msg.total ≤ msg.count then (results.take maxRelevant, none)
          else
            let cursors := remainingCursors msg.count msg.total
            if cursors = [] then (results.take maxRelevant, none)
            else
              ((bioPagesLoop fetch topic server maxRelevant cursors
                results).take maxRelevant, none)

/-- `biorxiv.search_biorxiv`. -/
def searchBiorxiv (topic depth : String)
    (fetch : ℤ → Except String BioPage) : List BioRaw × Option String :=
  searchPreprintServer "biorxiv" topic depth fetch

/-- `biorxiv.search_medrxiv`. -/
def searchMedrxiv (topic depth : String)
    (fetch : ℤ → Except String BioPage) : List BioRaw × Option String :=
  searchPreprintServer "medrxiv" topic depth fetch

/-! ## openalex.py -/

/-- `primary_location.source`. -/
structure OSource where
  display_name : String := ""
  type : String := ""
  deriving DecidableEq, Repr

structure OLocation where
  source : Option OSource := none
  deriving DecidableEq, Repr

structure OTopicInfo where
  display_name : String := ""
  score : ℚ := 0
  deriving DecidableEq, Repr

/-- One authorship entry (`a.get('author', {}).get('display_name', '')`).
-/
structure OAuthor where
  display_name : String := ""
  deriving DecidableEq, Repr

structure OOpenAccess where
  oa_url : Option String := none
  deriving DecidableEq, Repr

/-- A raw OpenAlex work (the fields `search_openalex` reads). -/
structure OWork where
  id : String := ""
  title : String := ""
  abstract : Option String := none
  abstract_inverted_index : Option (List (String × List ℤ)) := none
  doi : Option String := none
  publication_date : Option String := none
  primary_location : Option OLocation := none
  authorships : List OAuthor := []
  cited_by_count : ℤ := 0
  work_type : String := ""
  open_access : OOpenAccess := {}
  primary_topic : Option OTopicInfo := none
  deriving DecidableEq, Repr

/-- One page of the OpenAlex works API (`results` plus `meta.count`). -/
structure OPage where
  results : List OWork := []
  meta_count : ℤ := 0
  deriving DecidableEq, Repr

/-- The normalized row dict `search_openalex` emits. -/
structure OAItemRaw where
  openalex_id : String
  title : String
  authors : String
  abstract : String
  doi : Option String
  publication_date : Option String
  source_name : String
  source_type : String
  work_type : String
  cited_by_count : ℤ
  url : String
  relevance : ℚ
  why_relevant : String
  source : String := "openalex"
  primary_topic_name : String
  primary_topic_score : ℚ
  deriving DecidableEq, Repr

def depthLimitOpenalex (d : String) : ℕ :=
  if d = "quick" then 30 else if d = "default" then 100
  else if d = "deep" then 200 else 100

def OPENALEX_MAX_PAGES : ℕ := 5
def OPENALEX_PAGE_SIZE : ℕ := 100

/-- `openalex._reconstruct_abstract`: sort `(position, word)` pairs and
join on spaces (`list.sort` on tuples is the stable sort by the
lexicographic tuple order). -/
def reconstructAbstract (inv : Option (List (String × List ℤ))) : String :=
  match inv with
  | none => ""
  | some ii =>
    if ii = [] then ""
    else
      let wordPositions :=
        (ii.map (fun p => p.2.map (fun pos => (pos, p.1)))).flatten
      let sorted := List.insertionSort
        (fun a b => (toLex a : ℤ ×ₗ String) ≤ toLex b) wordPositions
      String.intercalate " " (sorted.map Prod.snd)

/-- `openalex._extract_authors`. -/
def oaExtractAuthors (authorships : List OAuthor) : String :=
  String.intercalate ", " ((authorships.map OAuthor.display_name).filter
    (fun n => n ≠ ""))

/-- `openalex._extract_source`. -/
def oaExtractSource (pl : Option OLocation) : String × String :=
  match pl with
  | none => ("", "")
  | some loc =>
    match loc.source with
    | none => ("", "")
    | some s => (s.display_name, s.type)

/-- `openalex._extract_doi`. -/
def oaExtractDoi (doiUrl : Option String) : Option String :=
  match doiUrl with
  | none => none
  | some d =>
    if d = "" then none
    else if "https://doi.org/".toList.isPrefixOf d.toList then
      some (String.mk (d.toList.drop "https://doi.org/".length))
    else if "http://doi.org/".toList.isPrefixOf d.toList then
      some (String.mk (d.toList.drop "http://doi.org/".length))
    else some d

/-- `openalex._build_url`. -/
def oaBuildUrl (work : OWork) : String :=
  match work.doi with
  | some d =>
    if d ≠ "" then
      (if "http".toList.isPrefixOf d.toList then d
       else "https://doi.org/" ++ d)
    else
      match work.open_access.oa_url with
      | some u => if u ≠ "" then u else work.id
      | none => work.id
  | none =>
    match work.open_access.oa_url with
    | some u => if u ≠ "" then u else work.id
    | none => work.id

/-- The per-work body of the `search_openalex` page loop: the `rel > 0.1`
filter, the global-rank boost, and the row construction. -/
def oaProcessWork (topic : String) (maxResults : ℕ) (globalRank : ℕ)
    (work : OWork) : Option OAItemRaw :=
  let abstract :=
    match work.abstract with
    | some a => if a ≠ "" then a
        else reconstructAbstract work.abstract_inverted_index
    | none => reconstructAbstract work.abstract_inverted_index
  let rw := computeKeywordRelevance topic work.title abstract
  if rw.1 > 1/10 then
    let positionBoost : ℚ :=
      max 0 ((1/10) * (1 - (globalRank : ℚ) / (maxResults : ℚ)))
    let boostedRel := min 1 (rw.1 + positionBoost)
    let st := oaExtractSource work.primary_location
    let primaryTopic := work.primary_topic.getD {}
    some { openalex_id := pyReplace work.id "https://openalex.org/" ""
           title := work.title
           authors := oaExtractAuthors work.authorships
           abstract := abstract
           doi := oaExtractDoi work.doi
           publication_date := work.publication_date
           source_name := st.1, source_type := st.2
           work_type := work.work_type
           cited_by_count := work.cited_by_count
           url := oaBuildUrl work
           relevance := boostedRel, why_relevant := rw.2
           primary_topic_name := primaryTopic.display_name
           primary_topic_score := primaryTopic.score }
  else none

/-- The page loop of `search_openalex`: a first-page `HTTPError` returns
`([], error)`; a later-page `HTTPError` breaks out with the partial
results and **no** error; paging also stops on an empty page, on reaching
the depth cap, or past `meta.count`. -/
def oaLoop (fetch : ℕ → Except String OPage) (topic : String)
    (maxResults : ℕ) : ℕ → ℕ → List OAItemRaw →
    List OAItemRaw × Option String
  | _, 0, acc => (acc.take maxResults, none)
  | pageNum, fuel + 1, acc =>
    match fetch pageNum with
    | .error e =>
      if pageNum = 1 then ([], some e) else (acc.take maxResults, none)
    | .ok page =>
      if page.results = [] then (acc.take maxResults, none)
      else
        let pageStart := (pageNum - 1) * OPENALEX_PAGE_SIZE
        let acc := acc ++ page.results.enum.filterMap
          (fun p => oaProcessWork topic maxResults (pageStart + p.1) p.2)
        if maxResults ≤ acc.length then (acc.take maxResults, none)
        else if (page.meta_count : ℚ) ≤ ((pageNum * OPENALEX_PAGE_SIZE : ℕ) : ℚ)
          then (acc.take maxResults, none)
        else oaLoop fetch topic maxResults (pageNum + 1) fuel acc

/-- `openalex.search_openalex` (network path). -/
def searchOpenalex (topic depth : String)
    (fetch : ℕ → Except String OPage) : List OAItemRaw × Option String :=
  oaLoop fetch topic (depthLimitOpenalex depth) 1 OPENALEX_MAX_PAGES []

/-! ## semanticscholar.py -/

structure SJournal where
  name : String := ""
  deriving DecidableEq, Repr

structure SAuthorRec where
  name : String := ""
  deriving DecidableEq, Repr

/-- `externalIds` (only the `DOI` key is read). -/
structure SExternalIds where
  doi : Option String := none
  deriving DecidableEq, Repr

structure SOpenAccessPdf where
  url : Option String := none
  deriving DecidableEq, Repr

/-- A raw Semantic Scholar paper (the fields the adapter reads). -/
structure SPaper where
  paperId : String := ""
  title : String := ""
  abstract : Option String := none
  authors : List SAuthorRec := []
  citationCount : ℤ := 0
  influentialCitationCount : ℤ := 0
  journal : Option SJournal := none
  externalIds : Option SExternalIds := none
  openAccessPdf : Option SOpenAccessPdf := none
  publicationDate : Option String := none
  venue : String := ""
  url : String := ""
  publicationTypes : Option (List String) := none
  deriving DecidableEq, Repr

/-- One page of the S2 paper-search API. -/
structure SPage where
  data : List SPaper := []
  total : ℤ := 0
  next : Option ℤ := none
  deriving DecidableEq, Repr

/-- The normalized row dict `search_semantic_scholar` emits. -/
structure S2ItemRaw where
  paper_id : String
  title : String
  authors : String
  abstract : String
  doi : Option String
  venue : String
  publication_types : List String
  cited_by_count : ℤ
  influential_citations : ℤ
  publication_date : Option String
  url : String
  external_ids : Option SExternalIds
  relevance : ℚ
  why_relevant : String
  source : String := "semanticscholar"
  deriving DecidableEq, Repr

def depthLimitS2 (d : String) : ℕ :=
  if d = "quick" then 30 else if d = "default" then 100
  else if d = "deep" then 200 else 100

def S2_MAX_PAGES : ℕ := 3
def S2_PAGE_SIZE : ℕ := 100

/-- `semanticscholar._extract_authors`. -/
def s2ExtractAuthors (authors : List SAuthorRec) : String :=
  String.intercalate ", " ((authors.map SAuthorRec.name).filter
    (fun n => n ≠ ""))

/-- `semanticscholar._extract_doi` (an absent or empty `externalIds` dict
yields `None`). -/
def s2ExtractDoi (ext : Option SExternalIds) : Option String :=
  match ext with
  | none => none
  | some e => e.doi

/-- `semanticscholar._build_url`. -/
def s2BuildUrl (paper : SPaper) : String :=
  match paper.openAccessPdf with
  | some oa =>
    (match oa.url with
     | some u => if u ≠ "" then u else s2DoiUrl paper
     | none => s2DoiUrl paper)
  | none => s2DoiUrl paper
where
  s2DoiUrl (paper : SPaper) : String :=
    match s2ExtractDoi paper.externalIds with
    | some d => if d ≠ "" then "https://doi.org/" ++ d else paper.url
    | none => paper.url

/-- The per-paper body of the `search_semantic_scholar` page loop: the
stricter `rel > 0.3` filter, the global-rank boost, and the row
construction. -/
def s2ProcessPaper (topic : String) (maxResults : ℕ) (globalRank : ℤ)
    (paper : SPaper) : Option S2ItemRaw :=
  let abstract := paper.abstract.getD ""
  let rw := computeKeywordRelevance topic paper.title abstract
  if rw.1 > 3/10 then
    let positionBoost : ℚ :=
      max 0 ((1/10) * (1 - (globalRank : ℚ) / (maxResults : ℚ)))
    let boostedRel := min 1 (rw.1 + positionBoost)
    let venue :=
      if paper.venue ≠ "" then paper.venue
      else
        match paper.journal with
        | some j => j.name
        | none => ""
    some { paper_id := paper.paperId, title := paper.title
           authors := s2ExtractAuthors paper.authors
           abstract := abstract
           doi := s2ExtractDoi paper.externalIds
           venue := venue
           publication_types := paper.publicationTypes.getD []
           cited_by_count := paper.citationCount
           influential_citations := paper.influentialCitationCount
           publication_date := paper.publicationDate
           url := s2BuildUrl paper
           external_ids := paper.externalIds
           relevance := boostedRel, why_relevant := rw.2 }
  else none

/-- The offset loop of `search_semantic_scholar`: an `HTTPError` at
offset 0 returns `([], error)`; at a later offset it breaks out with the
partial results and **no** error. -/
def s2Loop (fetch : ℤ → Except String SPage) (topic : String)
    (maxResults : ℕ) : ℤ → ℕ → List S2ItemRaw →
    List S2ItemRaw × Option String
  | _, 0, acc => (acc.take maxResults, none)
  | offset, fuel + 1, acc =>
    match fetch offset with
    | .error e =>
      if offset = 0 then ([], some e) else (acc.take maxResults, none)
    | .ok page =>
      if page.data = [] then (acc.take maxResults, none)
      else
        let acc := acc ++ page.data.enum.filterMap
          (fun p => s2ProcessPaper topic maxResults (offset + (p.1 : ℤ)) p.2)
        if maxResults ≤ acc.length then (acc.take maxResults, none)
        else
          match page.next with
          | none => (acc.take maxResults, none)
          | some nxt =>
            if page.total ≤ offset + (S2_PAGE_SIZE : ℤ) then
              (acc.take maxResults, none)
            else s2Loop fetch topic maxResults nxt fuel acc

/-- `semanticscholar.search_semantic_scholar` (network path). -/
def searchSemanticScholar (topic depth : String)
    (fetch : ℤ → Except String SPage) : List S2ItemRaw × Option String :=
  s2Loop fetch topic (depthLimitS2 depth) 0 S2_MAX_PAGES []

/-! ## huggingface.py -/

/-- A raw HuggingFace model/dataset row (the fields the adapter reads). -/
structure HFModelRaw where
  modelId : Option String := none
  id : String := ""
  lastModified : String := ""
  createdAt : String := ""
  downloads : ℤ := 0
  likes : ℤ := 0
  tags : Option (List String) := none
  deriving DecidableEq, Repr

/-- The nested `paper` object of a daily-papers row.  The author entries
(dicts with a `name` key, or bare strings) are collapsed to their
names. -/
structure HFPaperInner where
  id : String := ""
  title : String := ""
  summary : String := ""
  upvotes : ℤ := 0
  publishedAt : String := ""
  authors : List String := []
  deriving DecidableEq, Repr

/-- A raw daily-papers row. -/
structure HFPaperRaw where
  paper : Option HFPaperInner := none
  id : String := ""
  title : String := ""
  publishedAt : String := ""
  authors : List String := []
  deriving DecidableEq, Repr

/-- The normalized HuggingFace item dict. -/
structure HFItemRaw where
  hf_id : String
  title : String
  author : String
  item_type : String
  tags : List String
  date : Option String
  downloads : ℤ
  likes : ℤ
  relevance : ℚ
  why_relevant : String
  url : String
  deriving DecidableEq, Repr

def depthLimitHuggingface (d : String) : ℕ :=
  if d = "quick" then 20 else if d = "default" then 50
  else if d = "deep" then 100 else 50

/-- `lastModified || createdAt` date extraction: the first truthy value
of length at least 10, cut to 10 characters. -/
def hfExtractDate (lastModified createdAt : String) : Option String :=
  if lastModified ≠ "" ∧ 10 ≤ lastModified.toList.length then
    some (String.mk (lastModified.toList.take 10))
  else if createdAt ≠ "" ∧ 10 ≤ createdAt.toList.length then
    some (String.mk (createdAt.toList.take 10))
  else none

/-- `huggingface._normalize_model`: only a missing id drops the row. -/
def hfNormalizeModel (raw : HFModelRaw) (topic : String) :
    Option HFItemRaw :=
  let modelId :=
    match raw.modelId with
    | some m => if m ≠ "" then m else raw.id
    | none => raw.id
  if modelId = "" then none
  else
    let title := if strContains modelId "/" then
        (((pySplit modelId "/").getLast?).getD modelId)
      else modelId
    let author := if strContains modelId "/" then
        (((pySplit modelId "/").head?).getD "")
      else ""
    let tags := raw.tags.getD []
    let rw := computeKeywordRelevance topic title (String.intercalate " " tags)
    some { hf_id := modelId, title := title, author := author
           item_type := "model", tags := tags
           date := hfExtractDate raw.lastModified raw.createdAt
           downloads := raw.downloads, likes := raw.likes
           relevance := rw.1, why_relevant := rw.2
           url := "https://huggingface.co/" ++ modelId }

/-- `huggingface._normalize_dataset`. -/
def hfNormalizeDataset (raw : HFModelRaw) (topic : String) :
    Option HFItemRaw :=
  let dsId := raw.id
  if dsId = "" then none
  else
    let title := if strContains dsId "/" then
        (((pySplit dsId "/").getLast?).getD dsId)
      else dsId
    let author := if strContains dsId "/" then
        (((pySplit dsId "/").head?).getD "")
      else ""
    let tags := raw.tags.getD []
    let rw := computeKeywordRelevance topic title (String.intercalate " " tags)
    some { hf_id := dsId, title := title, author := author
           item_type := "dataset", tags := tags
           date := hfExtractDate raw.lastModified raw.createdAt
           downloads := raw.downloads, likes := raw.likes
           relevance := rw.1, why_relevant := rw.2
           url := "https://huggingface.co/datasets/" ++ dsId }

/-- `huggingface._normalize_paper`: of the three normalizers this is the
only one that drops a row for a missing title. -/
def hfNormalizePaper (raw : HFPaperRaw) (topic : String) :
    Option HFItemRaw :=
  let paperId :=
    match raw.paper with
    | some p => if p.id ≠ "" then p.id else raw.id
    | none => raw.id
  let title :=
    match raw.paper with
    | some p => if p.title ≠ "" then p.title else raw.title
    | none => raw.title
  if title = "" then none
  else
    let authorNames :=
      (match raw.paper with
       | some p => p.authors
       | none => raw.authors).take 3
    let author := String.intercalate ", "
      (authorNames.filter (fun n => n ≠ ""))
    let dateRaw :=
      if raw.publishedAt ≠ "" then raw.publishedAt
      else
        match raw.paper with
        | some p => p.publishedAt
        | none => raw.publishedAt
    let date :=
      if dateRaw ≠ "" ∧ 10 ≤ dateRaw.toList.length then
        some (String.mk (dateRaw.toList.take 10))
      else none
    let summary :=
      match raw.paper with
      | some p => p.summary
      | none => ""
    let rw := computeKeywordRelevance topic title summary
    let upvotes :=
      match raw.paper with
      | some p => p.upvotes
      | none => 0
    some { hf_id := paperId, title := title, author := author
           item_type := "paper", tags := []
           date := date, downloads := 0, likes := upvotes
           relevance := rw.1, why_relevant := rw.2
           url := "https://huggingface.co/papers/" ++ paperId }

/-- `huggingface._search_papers`: the daily-papers feed is pre-filtered by
a title-only keyword relevance above `0.1`.  (When a nested `paper`
object is present its title is used; the dict model collapses a
present-but-empty nested title into the outer-title fallback.) -/
def hfSearchPapers (topic : String)
    (dataRes : Except String (List HFPaperRaw)) :
    List HFPaperRaw × Option String :=
  match dataRes with
  | .error e => ([], some e)
  | .ok data =>
    (data.filter (fun paper =>
      let title :=
        match paper.paper with
        | some p => if p.title ≠ "" then p.title else paper.title
        | none => paper.title
      (computeKeywordRelevance topic title "").1 > 1/10), none)

/-- The date gate `item.get('date', '') >= from_date` applied to each
normalized item.  (With an absent date the Python comparison
`None >= from_date` would raise a `TypeError`; the pipeline's dates are
always strings, and the embedding keeps such rows out.) -/
def hfDateOk (fromDate : String) (item : HFItemRaw) : Bool :=
  match item.date with
  | some d => fromDate ≤ d
  | none => false

/-- `huggingface.search_huggingface` (network path): the three oracles
stand for the models, datasets and daily-papers endpoints.  Models and
datasets are **not** filtered by relevance — only by presence of an id
and by date; daily papers pass through `_search_papers`'s title
filter. -/
def searchHuggingface (topic fromDate : String)
    (modelsRes datasetsRes : Except String (List HFModelRaw))
    (papersRes : Except String (List HFPaperRaw)) :
    List HFItemRaw × Option String :=
  let modelsPair : List HFModelRaw × List String :=
    match modelsRes with
    | .ok l => (l, [])
    | .error e => ([], ["models: " ++ e])
  let datasetsPair : List HFModelRaw × List String :=
    match datasetsRes with
    | .ok l => (l, [])
    | .error e => ([], ["datasets: " ++ e])
  let papersPair := hfSearchPapers topic papersRes
  let papersErrs : List String :=
    match papersPair.2 with
    | some e => ["papers: " ++ e]
    | none => []
  let modelItems := modelsPair.1.filterMap (fun m =>
    match hfNormalizeModel m topic with
    | some item => if hfDateOk fromDate item then some item else none
    | none => none)
  let datasetItems := datasetsPair.1.filterMap (fun d =>
    match hfNormalizeDataset d topic with
    | some item => if hfDateOk fromDate item then some item else none
    | none => none)
  let paperItems := papersPair.1.filterMap (fun p =>
    match hfNormalizePaper p topic with
    | some item => if hfDateOk fromDate item then some item else none
    | none => none)
  let errors := modelsPair.2 ++ datasetsPair.2 ++ papersErrs
  (modelItems ++ datasetItems ++ paperItems,
   if errors = [] then none else some (String.intercalate "; " errors))

/-! ## Spec-side definitions

These follow the wording of the specification / claims (not the code) and
exist to be compared against the embedded code. -/

/-- Auxiliary: maximal runs of characters satisfying `p`. -/
def runsAux (p : Char → Bool) : List Char → List Char → List (List Char)
  | [], cur => if cur.isEmpty then [] else [cur.reverse]
  | c :: cs, cur =>
    if p c then runsAux p cs (c :: cur)
    else if cur.isEmpty then runsAux p cs []
    else cur.reverse :: runsAux p cs []

/-- The claim's tokenizer `[A-Za-z0-9]+` (underscore is *not* a word
character here, unlike the code's `\w+`). -/
def alnumTokens (s : String) : List String :=
  (runsAux Char.isAlphanum s.toList []).map String.mk

/-- The relevance formula as the (amended) claim words it: phrase bonus,
`0.60/0.30` word ratios, `0.15` bigram bonus with half-weight abstract,
all-words bonus, clamp to `[0,1]`, round to 3 decimals; tokens are `\w+`
runs of the lowercased topic. -/
def claimRelevance (topic title abstract : String) : ℚ :=
  let words := wordTokens (lowerStr topic)
  if topic = "" ∨ words = [] then 0
  else
    let n : ℚ := (words.length : ℚ)
    let topicL := lowerStr topic
    let titleL := lowerStr title
    let absL := lowerStr abstract
    let phrase : ℚ :=
      if strContains titleL topicL then 4/10
      else if strContains absL topicL then 2/10 else 0
    let th : ℚ := ((words.filter (fun w => strContains titleL w)).length : ℚ)
    let ah : ℚ := ((words.filter (fun w => strContains absL w)).length : ℚ)
    let bigram : ℚ :=
      if words.length < 2 then 0
      else (15/100) *
        max ((countBigramMatches words titleL : ℚ) / (n - 1))
            (((countBigramMatches words absL : ℚ) / (n - 1)) * (1/2))
    let allB : ℚ :=
      if th = n then 1/10 else if ah = n then 5/100 else 0
    round3 (min 1 (max 0
      (phrase + (6/10) * (th / n) + (3/10) * (ah / n) + bigram + allB)))

/-- The composite-score formula exactly as claim C2 words it:
`round(Wr·rel100 + Wt·recency + Wa·engagement) − penalty`, clamped to
`[0, 100]`. -/
def claimCompositeScore (wr wt wa : ℚ) (rel100 rec acad penalty : ℤ) : ℤ :=
  max 0 (min 100 (pyRound (wr * rel100 + wt * rec + wa * acad) - penalty))

/-- Engagement records that serialization round-trips: absent, or carrying
at least one field (`AcademicEngagement()` with every field `None`
serializes to `null` and deserializes to absent). -/
def engOk (e : Option AcademicEngagement) : Prop :=
  ∀ x, e = some x → x ≠ {}

/-- Error slots that serialization round-trips: absent or non-empty. -/
def errOk (o : Option String) : Prop :=
  o ≠ some ""

/-- All engagement records of a report are round-trippable. -/
def reportEngOk (r : Report) : Prop :=
  (∀ i ∈ r.biorxiv, engOk i.engagement) ∧
  (∀ i ∈ r.medrxiv, engOk i.engagement) ∧
  (∀ i ∈ r.arxiv, engOk i.engagement) ∧
  (∀ i ∈ r.pubmed, engOk i.engagement) ∧
  (∀ i ∈ r.huggingface, engOk i.engagement) ∧
  (∀ i ∈ r.openalex, engOk i.engagement)

/-- All error slots of a report are round-trippable. -/
def reportErrOk (r : Report) : Prop :=
  errOk r.biorxiv_error ∧ errOk r.medrxiv_error ∧ errOk r.arxiv_error ∧
  errOk r.pubmed_error ∧ errOk r.huggingface_error ∧ errOk r.openalex_error

/-- Two items collide on a DOI: some DOI carried by one is also carried by
the other (after the lowercasing/stripping of `_get_dois`). -/
def doiShared (a b : Item) : Prop :=
  ∃ d, d ∈ getDois a ∧ d ∈ getDois b

/-- The dedup keep-rule between two colliding items, in the claim's terms:
the first is kept when its source priority is strictly lower, or on equal
priority when its score is at least the other's (full ties keep the
first). -/
def keepsFirst (a b : Item) : Prop :=
  sourcePriority a < sourcePriority b ∨
    (sourcePriority a = sourcePriority b ∧ itemScore b ≤ itemScore a)

instance keepsFirstDec (a b : Item) : Decidable (keepsFirst a b) :=
  inferInstanceAs (Decidable (sourcePriority a < sourcePriority b ∨
    (sourcePriority a = sourcePriority b ∧ itemScore b ≤ itemScore a)))

/-! ## Concrete fixtures used by theorems -/

/-- A HuggingFace item on which `int()` truncation and `round()` differ
(weighted sum 10.65). -/
def c2Item : HuggingFaceItem :=
  { id := "hf:x", hf_id := "x", title := "T", author := "",
    item_type := "model", tags := [], url := "", date := none,
    date_confidence := "high", relevance := 17/100 }

/-- An arXiv item whose weighted score is 57.5 (well above the clamp
region), used to witness the exact-10 confidence penalty. -/
def c2ArxW : ArxivItem :=
  { id := "arxiv:w", arxiv_id := "w", title := "t", authors := "",
    abstract := "", primary_category := "", categories := [], url := "",
    date := none, date_confidence := "high", relevance := 1 }

/-- Two distinct arXiv items with identical sort keys (same title, score
and date, different ids). -/
def c9X : Item := .arxiv
  { id := "arxiv:1", arxiv_id := "a1", title := "Same Title",
    authors := "", abstract := "", primary_category := "",
    categories := [], url := "", date := some "2025-01-01",
    score := 50 }

def c9Y : Item := .arxiv
  { id := "arxiv:2", arxiv_id := "a2", title := "Same Title",
    authors := "", abstract := "", primary_category := "",
    categories := [], url := "", date := some "2025-01-01",
    score := 50 }

/-- An item whose sort key differs from `c9X`'s. -/
def c9Z : Item := .arxiv
  { id := "arxiv:3", arxiv_id := "a3", title := "Other Title",
    authors := "", abstract := "", primary_category := "",
    categories := [], url := "", date := some "2025-01-01",
    score := 80 }

instance : IsTotal Item (fun a b => sortKey a ≤ sortKey b) :=
  ⟨fun a b => le_total (sortKey a) (sortKey b)⟩

instance : IsTrans Item (fun a b => sortKey a ≤ sortKey b) :=
  ⟨fun _ _ _ hab hbc => le_trans hab hbc⟩

/-- A bioRxiv item whose engagement record exists but has every field
`None`: `AcademicEngagement().to_dict()` returns `None`, so serialization
turns it into an absent record. -/
def c5BadItem : BiorxivItem :=
  { id := "biorxiv:1", preprint_doi := "10.1101/x", title := "T",
    authors := "", abstract := "", category := "", source := "biorxiv",
    url := "", engagement := some {} }

def c5BadReport : Report :=
  { topic := "t", range_from := "2025-01-01", range_to := "2025-01-31",
    generated_at := "g", mode := "all", biorxiv := [c5BadItem] }

/-- A report with a nondegenerate engagement record, a non-empty error
and cache metadata: everything serialization preserves. -/
def c5GoodReport : Report :=
  { topic := "t", range_from := "2025-01-01", range_to := "2025-01-31",
    generated_at := "g", mode := "all",
    biorxiv := [{ c5BadItem with
      engagement := some { published_doi := some "10.1038/x" } }],
    pubmed_error := some "HTTP 500: boom", from_cache := true,
    cache_age_hours := some 2 }

/-- The index removed from a two-item colliding pair `[a, b]`:
`0` exactly when `b`'s `(priority, -score)` key is strictly smaller. -/
def loserIdx (a b : Item) : ℕ :=
  if dedupeKey b < dedupeKey a then 0 else 1

/-- Decidable form of `doiShared`. -/
def anySharedDoi (a b : Item) : Bool :=
  (getDois a).any (fun d => d ∈ getDois b)

/-- One group's removal fold in pass 1 of `dedupe_cross_source` (`b` is
the index of the group's best entry). -/
def remFold (b : ℕ) (R : Finset ℕ) (l : List (ℕ × Item)) : Finset ℕ :=
  l.foldl (fun R p => if p.1 ≠ b then insert p.1 R else R) R

/-- One group's contribution to `doiPassRemove` (its fold step). -/
def doiStep (R : Finset ℕ) (g : String × List (ℕ × Item)) : Finset ℕ :=
  if g.2.length ≤ 1 then R
  else
    match minByFirst g.2 with
    | none => R
    | some best => remFold best.1 R g.2

/-- The inner fold of `buildDoiMap`: insert one item under each of its
DOIs. -/
def insDois (m : List (String × List (ℕ × Item))) (ds : List String)
    (p : ℕ × Item) : List (String × List (ℕ × Item)) :=
  ds.foldl (fun m d => insertDoi m d p) m

/-- The index list stored in `doi_map` under a DOI. -/
def lookupGroup (m : List (String × List (ℕ × Item))) (d : String) :
    Option (List (ℕ × Item)) :=
  (m.find? (fun q => q.1 = d)).map Prod.snd

/-- C1 fixtures: an OpenAlex work and a Semantic Scholar paper that share
a DOI (the S2 paper carries it in `engagement.published_doi`); the S2
paper has the far higher score. -/
def c1Oa : OpenAlexItem :=
  { id := "openalex:W1", openalex_id := "W1", title := "CRISPR screening",
    authors := "", abstract := "", doi := some "10.1/x",
    source_name := "", source_type := "", work_type := "article",
    url := "", score := 10 }

def c1S2 : SemanticScholarItem :=
  { id := "s2:P1", paper_id := "P1", title := "CRISPR base editors",
    authors := "", abstract := "", doi := some "10.1/x", venue := "",
    publication_types := [], url := "",
    engagement := some { published_doi := some "10.1/x" }, score := 90 }

/-- C1 witness fixtures (the `test_doi_dedup` scenario). -/
def c1WP : PubmedItem :=
  { id := "pubmed:1", pmid := "1", title := "CRISPR Paper", authors := "",
    abstract := "", journal := "Nature", doi := some "10.1038/xxx",
    url := "", score := 80 }

def c1WB : BiorxivItem :=
  { id := "biorxiv:1", preprint_doi := "10.1101/yyy",
    title := "CRISPR Paper Preprint", authors := "", abstract := "",
    category := "", source := "biorxiv", url := "", score := 60,
    engagement := some { published_doi := some "10.1038/xxx" } }

/-- C4 witness fixtures (the spec scenario: PubMed score 60, bioRxiv
score 80, shared published DOI). -/
def c4P : PubmedItem :=
  { id := "pubmed:2", pmid := "2", title := "Published article",
    authors := "", abstract := "", journal := "", doi := some "10.1038/xxx",
    url := "", score := 60 }

def c4B : BiorxivItem :=
  { id := "biorxiv:2", preprint_doi := "10.1101/zzz",
    title := "Preprint version", authors := "", abstract := "",
    category := "", source := "biorxiv", url := "", score := 80,
    engagement := some { published_doi := some "10.1038/xxx" } }

/-- C10 witness fixtures: two items whose titles are all punctuation, so
both normalize to the empty string. -/
def c10A : ArxivItem :=
  { id := "arxiv:x1", arxiv_id := "x1", title := "!!", authors := "",
    abstract := "", primary_category := "", categories := [], url := "",
    score := 5 }

def c10B : ArxivItem :=
  { id := "arxiv:x2", arxiv_id := "x2", title := "??", authors := "",
    abstract := "", primary_category := "", categories := [], url := "",
    score := 3 }

/-- The effective title of a daily-papers row (nested `paper.title` with
outer-title fallback), as read by `_normalize_paper` and
`_search_papers`. -/
def hfPaperTitle (paper : HFPaperRaw) : String :=
  match paper.paper with
  | some p => if p.title ≠ "" then p.title else paper.title
  | none => paper.title

/-- The effective id of a models row (`modelId` with `id` fallback), as
read by `_normalize_model`. -/
def hfModelId (raw : HFModelRaw) : String :=
  match raw.modelId with
  | some m => if m ≠ "" then m else raw.id
  | none => raw.id

/-- The abstract `search_openalex` scores (the plain abstract or the
reconstruction of the inverted index). -/
def oaAbstract (work : OWork) : String :=
  match work.abstract with
  | some a => if a ≠ "" then a
      else reconstructAbstract work.abstract_inverted_index
  | none => reconstructAbstract work.abstract_inverted_index

/-- C3 fixtures: an arXiv Atom feed whose single entry is irrelevant to
the topic, and the raw row it parses to. -/
def c3Feed : XElem :=
  .mk "feed" [] none none
    [.mk (ATOM_NS ++ "entry") [] none none
      [.mk (ATOM_NS ++ "title") [] (some "Cooking recipes") none []]]

def c3Row0 : ArxivRaw :=
  { arxiv_id := "", title := "Cooking recipes", authors := "",
    author_count := 0, abstract := "", published := "", updated := "",
    primary_category := "", categories := [], link := "" }

/-- C3 witness fixtures: a HuggingFace model with zero keyword relevance
that still reaches the adapter output. -/
def c3WModel : HFModelRaw :=
  { modelId := some "org/bert", lastModified := "2025-01-02T00:00:00" }

def c3WHFItem : HFItemRaw :=
  { hf_id := "org/bert", title := "bert", author := "org",
    item_type := "model", tags := [], date := some "2025-01-02",
    downloads := 0, likes := 0,
    relevance := (computeKeywordRelevance "quantum" "bert" "").1,
    why_relevant := (computeKeywordRelevance "quantum" "bert" "").2,
    url := "https://huggingface.co/org/bert" }

/-- C7 fixtures: an OpenAlex oracle whose first page succeeds with one
relevant work and 300 announced results, and whose second page fails. -/
def c7Work : OWork :=
  { id := "https://openalex.org/W7", title := "CRISPR editing" }

def c7Page1 : OPage := { results := [c7Work], meta_count := 300 }

def c7Fetch : ℕ → Except String OPage := fun n =>
  if n = 1 then .ok c7Page1 else .error "HTTP 500: Internal Server Error"

/-- C7 witness fixture: an oracle that already fails on the first page. -/
def c7FailFetch : ℕ → Except String OPage := fun n =>
  if n = 0 then .ok {} else .error "HTTP 503"

/-- C8 fixtures: an Atom entry with no title element, and a PubMed
article with the wrappers present but no `ArticleTitle`. -/
def c8Feed : XElem :=
  .mk "feed" [] none none [.mk (ATOM_NS ++ "entry") [] none none []]

def c8Article : XElem :=
  .mk "PubmedArticle" [] none none
    [.mk "MedlineCitation" [] none none
      [.mk "Article" [] none none []]]

def c8PubmedRoot : XElem :=
  .mk "PubmedArticleSet" [] none none [c8Article]

/-- The row the title-less PubMed article parses to. -/
def c8PubmedRow : PubmedRaw :=
  { pmid := "", title := "", authors := "", author_count := 0,
    abstract := "", journal := "", doi := "", pub_date := none }

/-! # Theorems -/

/-! ## C6: the relevance scorer -/

/-- C6 (counterexample): the claim says a topic with no `[A-Za-z0-9]+`
tokens yields relevance 0, but the code tokenizes with `\w+`, which also
matches underscores: the topic `"_"` has no `[A-Za-z0-9]+` token yet
scores 1 against the title `"_"`. -/
theorem c6_counterexample :
    alnumTokens "_" = [] ∧ (computeKeywordRelevance "_" "_" "").1 = 1 := by
  constructor
  · decide
  · have h3 : (wordTokens (lowerStr "_")).length = 1 := by decide
    have h1 : (List.filter (fun w => strContains (lowerStr "_") w)
        (wordTokens (lowerStr "_"))).length = 1 := by decide
    have h2 : (List.filter (fun w => strContains (lowerStr "") w)
        (wordTokens (lowerStr "_"))).length = 0 := by decide
    simp +decide [computeKeywordRelevance, h1, h2, h3]
    norm_num [round3, pyRound]

/-- C6 (amended): the relevance scorer is the deterministic,
case-insensitive function computing  +0.40 for the full topic phrase in
the title else +0.20 in the abstract, plus `0.60·(title hits/|words|) +
0.30·(abstract hits/|words|)`, plus a bigram bonus of `0.15` times the
max of the title bigram fraction and half the abstract one (skipped for
single-word topics), plus `0.10`/`0.05` for all words in title/abstract,
clamped to `[0,1]` and rounded to 3 decimals — with topic words the `\w+`
tokens (underscore included), and a topic that is empty or has no `\w+`
token yielding 0. -/
theorem c6_relevance_amended (topic title abstract : String) :
    (computeKeywordRelevance topic title abstract).1 =
      claimRelevance topic title abstract := by
  by_cases h1 : topic = ""
  · simp [computeKeywordRelevance, claimRelevance, h1]
  · by_cases h2 : wordTokens (lowerStr topic) = []
    · simp [computeKeywordRelevance, claimRelevance, h1, h2]
    · simp only [computeKeywordRelevance, claimRelevance, h1, h2, if_false,
        or_self, if_neg, not_false_iff]
      refine congrArg round3 (congrArg (fun x => min 1 (max 0 x)) ?_)
      by_cases h3 : 2 ≤ (wordTokens (lowerStr topic)).length
      · have hcast : (((wordTokens (lowerStr topic)).length - 1 : ℕ) : ℚ) =
            ((wordTokens (lowerStr topic)).length : ℚ) - 1 := by
          push_cast [Nat.cast_sub
            (by omega : 1 ≤ (wordTokens (lowerStr topic)).length)]
          ring
        rw [if_pos h3,
          if_neg (by omega : ¬ (wordTokens (lowerStr topic)).length < 2),
          hcast]
        have hQ : (((List.filter (fun w => strContains (lowerStr title) w)
            (wordTokens (lowerStr topic))).length : ℚ) =
              ((wordTokens (lowerStr topic)).length : ℚ)) ↔
            ((List.filter (fun w => strContains (lowerStr title) w)
              (wordTokens (lowerStr topic))).length =
                (wordTokens (lowerStr topic)).length) := Nat.cast_inj
        have hQ2 : (((List.filter (fun w => strContains (lowerStr abstract) w)
            (wordTokens (lowerStr topic))).length : ℚ) =
              ((wordTokens (lowerStr topic)).length : ℚ)) ↔
            ((List.filter (fun w => strContains (lowerStr abstract) w)
              (wordTokens (lowerStr topic))).length =
                (wordTokens (lowerStr topic)).length) := Nat.cast_inj
        simp only [hQ, hQ2]
        ring
      · rw [if_neg h3,
          if_pos (by omega : (wordTokens (lowerStr topic)).length < 2)]
        simp only [Nat.cast_inj]
        ring

/-! ## C2: the composite scorer -/

theorem pyInt_of_nonneg (q : ℚ) (h : 0 ≤ q) : pyInt q = ⌊q⌋ := if_pos h

theorem pyInt_nonneg (q : ℚ) (h : 0 ≤ q) : 0 ≤ pyInt q := by
  rw [pyInt_of_nonneg q h]
  exact Int.floor_nonneg.mpr h

/-- The code's clamp-of-truncation equals clamp of `⌊S⌋ − penalty`: the
penalty is subtracted before `int()` in the code, but the clamp to
`[0, 100]` makes the two readings agree. -/
theorem compositeScore_eq (wr wt wa : ℚ) (rel rec acad : ℤ) (conf : String)
    (hS : 0 ≤ wr * rel + wt * rec + wa * acad) :
    compositeScore wr wt wa rel rec acad conf =
      max 0 (min 100 (⌊wr * rel + wt * rec + wa * acad⌋ -
        (if conf = "low" then 10 else 0))) := by
  unfold compositeScore
  by_cases hc : conf = "low"
  · simp only [hc, if_pos rfl, if_true]
    by_cases h10 : (10 : ℚ) ≤ wr * rel + wt * rec + wa * acad
    · rw [pyInt_of_nonneg _ (by linarith)]
      have : wr * ↑rel + wt * ↑rec + wa * ↑acad - 10 =
          wr * ↑rel + wt * ↑rec + wa * ↑acad - ((10 : ℤ) : ℚ) := by norm_num
      rw [this, Int.floor_sub_int]
    · have hneg : wr * ↑rel + wt * ↑rec + wa * ↑acad - 10 < 0 := by linarith
      have hL : pyInt (wr * ↑rel + wt * ↑rec + wa * ↑acad - 10) ≤ 0 := by
        unfold pyInt
        split_ifs with h0
        · exact Int.floor_nonpos (le_of_lt hneg)
        · have : (0:ℤ) ≤ ⌊-(wr * ↑rel + wt * ↑rec + wa * ↑acad - 10)⌋ :=
            Int.floor_nonneg.mpr (by linarith)
          omega
      have hR : ⌊wr * ↑rel + wt * ↑rec + wa * ↑acad⌋ - 10 ≤ 0 := by
        have : ⌊wr * ↑rel + wt * ↑rec + wa * ↑acad⌋ < 10 :=
          Int.floor_lt.mpr (by push_cast; linarith)
        omega
      omega
  · simp only [hc, if_neg hc, if_false, sub_zero]
    rw [pyInt_of_nonneg _ hS]

theorem rel100_bounds (rel : ℚ) (h0 : 0 ≤ rel) (h1 : rel ≤ 1) :
    0 ≤ pyInt (rel * 100) ∧ pyInt (rel * 100) ≤ 100 := by
  rw [pyInt_of_nonneg _ (by linarith)]
  constructor
  · exact Int.floor_nonneg.mpr (by linarith)
  · have : ⌊rel * 100⌋ ≤ ⌊(100 : ℚ)⌋ := Int.floor_le_floor (by linarith)
    simpa using this

theorem arxivAcad_bounds (e : Option AcademicEngagement) (pc : String) :
    0 ≤ computeArxivAcademic e pc ∧ computeArxivAcademic e pc ≤ 100 := by
  unfold computeArxivAcademic
  rcases e with _ | e
  · split_ifs <;> simp [min_def] <;> omega
  · rcases h : e.author_count with _ | a <;> simp only [h] <;> split_ifs <;>
      simp [min_def] <;> omega

theorem biorxivAcad_bounds (e : Option AcademicEngagement) :
    0 ≤ computeBiorxivAcademic e ∧ computeBiorxivAcademic e ≤ 100 := by
  unfold computeBiorxivAcademic
  rcases e with _ | e
  · exact ⟨by norm_num, by norm_num⟩
  · rcases h : e.author_count with _ | a <;> simp only [h] <;> split_ifs <;>
      simp [min_def] <;> omega

theorem log1pSafe_nonneg (lg : ℤ → ℚ) (hlg : ∀ v, 0 ≤ v → 0 ≤ lg v)
    (x : Option ℤ) : 0 ≤ log1pSafe lg x := by
  unfold log1pSafe
  rcases x with _ | v
  · exact le_refl 0
  · simp only
    split_ifs with h
    · exact le_refl 0
    · exact hlg v (by omega)

theorem hfAcad_bounds (lg : ℤ → ℚ) (hlg : ∀ v, 0 ≤ v → 0 ≤ lg v)
    (e : Option AcademicEngagement) :
    0 ≤ computeHuggingfaceAcademic lg e ∧
      computeHuggingfaceAcademic lg e ≤ 100 := by
  unfold computeHuggingfaceAcademic
  rcases e with _ | e
  · exact ⟨by norm_num, by norm_num⟩
  · have h1 : 0 ≤ pyInt (log1pSafe lg e.downloads * 8) :=
      pyInt_nonneg _ (by have := log1pSafe_nonneg lg hlg e.downloads; linarith)
    have h2 : 0 ≤ pyInt (log1pSafe lg e.likes * 12) :=
      pyInt_nonneg _ (by have := log1pSafe_nonneg lg hlg e.likes; linarith)
    simp only [min_def]
    split_ifs <;> omega

theorem pubmedAcad_bounds (lg : ℤ → ℚ) (hlg : ∀ v, 0 ≤ v → 0 ≤ lg v)
    (e : Option AcademicEngagement) :
    0 ≤ computePubmedAcademic lg e ∧ computePubmedAcademic lg e ≤ 100 := by
  unfold computePubmedAcademic
  rcases e with _ | e
  · exact ⟨by norm_num, by norm_num⟩
  · have h1 : ∀ c : ℤ, 0 ≤ pyInt (log1pSafe lg (some c) * 15) :=
      fun c => pyInt_nonneg _
        (by have := log1pSafe_nonneg lg hlg (some c); linarith)
    rcases h : e.citation_count with _ | c <;> simp only [h] <;>
      split_ifs <;> simp [min_def] <;> first
        | omega
        | (have hq := h1 c; split_ifs <;> omega)

theorem openalexAcad_bounds (lg : ℤ → ℚ) (hlg : ∀ v, 0 ≤ v → 0 ≤ lg v)
    (e : Option AcademicEngagement) :
    0 ≤ computeOpenalexAcademic lg e ∧
      computeOpenalexAcademic lg e ≤ 100 := by
  unfold computeOpenalexAcademic
  rcases e with _ | e
  · exact ⟨by norm_num, by norm_num⟩
  · have h1 : ∀ c : ℤ, 0 ≤ pyInt (log1pSafe lg (some c) * 12) :=
      fun c => pyInt_nonneg _
        (by have := log1pSafe_nonneg lg hlg (some c); linarith)
    rcases hc : e.citation_count with _ | c <;>
      rcases ha : e.author_count with _ | a <;> simp only [hc, ha] <;>
      split_ifs <;> simp [min_def] <;> first
        | omega
        | (have hq := h1 c; split_ifs <;> omega)

theorem s2Acad_bounds (lg : ℤ → ℚ) (hlg : ∀ v, 0 ≤ v → 0 ≤ lg v)
    (e : Option AcademicEngagement) :
    0 ≤ computeSemanticscholarAcademic lg e ∧
      computeSemanticscholarAcademic lg e ≤ 100 := by
  unfold computeSemanticscholarAcademic
  rcases e with _ | e
  · exact ⟨by norm_num, by norm_num⟩
  · have h1 : ∀ c : ℤ, 0 ≤ pyInt (log1pSafe lg (some c) * 12) :=
      fun c => pyInt_nonneg _
        (by have := log1pSafe_nonneg lg hlg (some c); linarith)
    rcases hc : e.citation_count with _ | c <;>
      rcases ha : e.author_count with _ | a <;> simp only [hc, ha] <;>
      split_ifs <;> simp [min_def] <;> first
        | omega
        | (have hq := h1 c; split_ifs <;> omega)

/-- The floor-form of the composite score under nonnegative inputs. -/
theorem score_formula_generic (wr wt wa : ℚ) (rel rec acad : ℤ)
    (conf : String) (hwr : 0 ≤ wr) (hwt : 0 ≤ wt) (hwa : 0 ≤ wa)
    (hrel : 0 ≤ rel) (hrec : 0 ≤ rec) (hacad : 0 ≤ acad) :
    compositeScore wr wt wa rel rec acad conf =
      max 0 (min 100 (⌊wr * rel + wt * rec + wa * acad⌋ -
        (if conf = "low" then 10 else 0))) :=
  compositeScore_eq wr wt wa rel rec acad conf (by positivity)

theorem exact_ten (wr wt wa : ℚ) (rel rec acad : ℤ)
    (hw : wr + wt + wa = 1) (hwr : 0 ≤ wr) (hwt : 0 ≤ wt) (hwa : 0 ≤ wa)
    (hrel : 0 ≤ rel) (hrel2 : rel ≤ 100) (hrec : 0 ≤ rec) (hrec2 : rec ≤ 100)
    (hacad : 0 ≤ acad) (hacad2 : acad ≤ 100)
    (h10 : 10 ≤ ⌊wr * rel + wt * rec + wa * acad⌋) :
    compositeScore wr wt wa rel rec acad "high" -
      compositeScore wr wt wa rel rec acad "low" = 10 := by
  have hS : 0 ≤ wr * (rel:ℚ) + wt * rec + wa * acad := by positivity
  have hS100 : wr * (rel:ℚ) + wt * rec + wa * acad ≤ 100 := by
    have h1 := mul_le_mul_of_nonneg_left
      (show (rel:ℚ) ≤ 100 by exact_mod_cast hrel2) hwr
    have h2 := mul_le_mul_of_nonneg_left
      (show (rec:ℚ) ≤ 100 by exact_mod_cast hrec2) hwt
    have h3 := mul_le_mul_of_nonneg_left
      (show (acad:ℚ) ≤ 100 by exact_mod_cast hacad2) hwa
    have hsum : wr * 100 + wt * 100 + wa * 100 = 100 := by linarith
    linarith
  have hfl : ⌊wr * (rel:ℚ) + wt * rec + wa * acad⌋ ≤ 100 := by
    have : ⌊wr * (rel:ℚ) + wt * rec + wa * acad⌋ ≤ ⌊(100:ℚ)⌋ :=
      Int.floor_le_floor hS100
    simpa using this
  rw [compositeScore_eq _ _ _ _ _ _ _ hS, compositeScore_eq _ _ _ _ _ _ _ hS]
  rw [if_neg (by decide : ¬("high" = "low")), if_pos (rfl : "low" = "low")]
  simp only [min_def, max_def]
  split_ifs <;> omega

/-- C2 (counterexample): the code truncates with Python `int()`, not
`round()`.  For a HuggingFace item with relevance 0.17, no date and high
confidence the weighted sum is 10.65: the code scores it 10 while the
claim's formula gives 11. -/
theorem c2_counterexample :
    (scoreHuggingfaceItem (fun _ => 0) (fun _ => 0) c2Item).score = 10 ∧
    claimCompositeScore HF_WEIGHT_RELEVANCE HF_WEIGHT_RECENCY
      HF_WEIGHT_ACADEMIC (pyInt ((17/100 : ℚ) * 100)) 0
      (computeHuggingfaceAcademic (fun _ => 0) none) 0 = 11 := by
  have hf1 : pyInt ((17/100 : ℚ) * 100) = 17 := by
    rw [show ((17:ℚ)/100) * 100 = ((17:ℤ):ℚ) by norm_num,
      pyInt_of_nonneg _ (by norm_num), Int.floor_intCast]
  have hacad : computeHuggingfaceAcademic (fun _ => 0) none = 10 := rfl
  have hfloor : (⌊(1065:ℚ)/100⌋ : ℤ) = 10 := by
    rw [Int.floor_eq_iff] <;> norm_num
  constructor
  · simp only [scoreHuggingfaceItem, compositeScore, c2Item, hacad, hf1]
    norm_num [HF_WEIGHT_RELEVANCE, HF_WEIGHT_RECENCY, HF_WEIGHT_ACADEMIC]
    rw [if_neg (by decide : ¬("high" = "low"))]
    rw [show (213:ℚ)/20 = (1065:ℚ)/100 by norm_num,
      pyInt_of_nonneg _ (by norm_num), hfloor]
    decide
  · simp only [claimCompositeScore, hacad, hf1]
    norm_num [HF_WEIGHT_RELEVANCE, HF_WEIGHT_RECENCY, HF_WEIGHT_ACADEMIC,
      pyRound]

/-- C2 (amended): every composite score equals
`clamp(⌊Wr·rel100 + Wt·recency + Wa·engagement⌋ − penalty, 0, 100)` —
`int()` truncation (equivalently `⌊·⌋` after the clamp), not `round()` —
with `(Wr,Wt,Wa) = (0.50,0.25,0.25)` for the paper sources and
`(0.45,0.25,0.30)` for HuggingFace, and `penalty = 10` exactly for
`date_confidence = "low"`; two otherwise identical items differing only
in confidence (high vs low) score exactly 10 apart provided the floor of
the weighted sum is at least 10. -/
theorem c2_composite_amended :
    (∀ (rf : Option String → ℤ) (i : ArxivItem),
      0 ≤ i.relevance → i.relevance ≤ 1 → 0 ≤ rf i.date →
      (scoreArxivItem rf i).score =
        max 0 (min 100
          (⌊PAPER_WEIGHT_RELEVANCE * pyInt (i.relevance * 100) +
            PAPER_WEIGHT_RECENCY * rf i.date +
            PAPER_WEIGHT_ACADEMIC *
              computeArxivAcademic i.engagement i.primary_category⌋ -
          (if i.date_confidence = "low" then 10 else 0)))) ∧
    (∀ (rf : Option String → ℤ) (i : BiorxivItem),
      0 ≤ i.relevance → i.relevance ≤ 1 → 0 ≤ rf i.date →
      (scoreBiorxivItem rf i).score =
        max 0 (min 100
          (⌊PAPER_WEIGHT_RELEVANCE * pyInt (i.relevance * 100) +
            PAPER_WEIGHT_RECENCY * rf i.date +
            PAPER_WEIGHT_ACADEMIC * computeBiorxivAcademic i.engagement⌋ -
          (if i.date_confidence = "low" then 10 else 0)))) ∧
    (∀ (rf : Option String → ℤ) (lg : ℤ → ℚ) (i : PubmedItem),
      (∀ v, 0 ≤ v → 0 ≤ lg v) →
      0 ≤ i.relevance → i.relevance ≤ 1 → 0 ≤ rf i.date →
      (scorePubmedItem rf lg i).score =
        max 0 (min 100
          (⌊PAPER_WEIGHT_RELEVANCE * pyInt (i.relevance * 100) +
            PAPER_WEIGHT_RECENCY * rf i.date +
            PAPER_WEIGHT_ACADEMIC * computePubmedAcademic lg i.engagement⌋ -
          (if i.date_confidence = "low" then 10 else 0)))) ∧
    (∀ (rf : Option String → ℤ) (lg : ℤ → ℚ) (i : OpenAlexItem),
      (∀ v, 0 ≤ v → 0 ≤ lg v) →
      0 ≤ i.relevance → i.relevance ≤ 1 → 0 ≤ rf i.date →
      (scoreOpenalexItem rf lg i).score =
        max 0 (min 100
          (⌊PAPER_WEIGHT_RELEVANCE * pyInt (i.relevance * 100) +
            PAPER_WEIGHT_RECENCY * rf i.date +
            PAPER_WEIGHT_ACADEMIC * computeOpenalexAcademic lg i.engagement⌋ -
          (if i.date_confidence = "low" then 10 else 0)))) ∧
    (∀ (rf : Option String → ℤ) (lg : ℤ → ℚ) (i : SemanticScholarItem),
      (∀ v, 0 ≤ v → 0 ≤ lg v) →
      0 ≤ i.relevance → i.relevance ≤ 1 → 0 ≤ rf i.date →
      (scoreSemanticscholarItem rf lg i).score =
        max 0 (min 100
          (⌊PAPER_WEIGHT_RELEVANCE * pyInt (i.relevance * 100) +
            PAPER_WEIGHT_RECENCY * rf i.date +
            PAPER_WEIGHT_ACADEMIC *
              computeSemanticscholarAcademic lg i.engagement⌋ -
          (if i.date_confidence = "low" then 10 else 0)))) ∧
    (∀ (rf : Option String → ℤ) (lg : ℤ → ℚ) (i : HuggingFaceItem),
      (∀ v, 0 ≤ v → 0 ≤ lg v) →
      0 ≤ i.relevance → i.relevance ≤ 1 → 0 ≤ rf i.date →
      (scoreHuggingfaceItem rf lg i).score =
        max 0 (min 100
          (⌊HF_WEIGHT_RELEVANCE * pyInt (i.relevance * 100) +
            HF_WEIGHT_RECENCY * rf i.date +
            HF_WEIGHT_ACADEMIC * computeHuggingfaceAcademic lg i.engagement⌋ -
          (if i.date_confidence = "low" then 10 else 0)))) ∧
    (∀ (rf : Option String → ℤ) (i : ArxivItem),
      0 ≤ i.relevance → i.relevance ≤ 1 → 0 ≤ rf i.date → rf i.date ≤ 100 →
      10 ≤ ⌊PAPER_WEIGHT_RELEVANCE * pyInt (i.relevance * 100) +
            PAPER_WEIGHT_RECENCY * rf i.date +
            PAPER_WEIGHT_ACADEMIC *
              computeArxivAcademic i.engagement i.primary_category⌋ →
      (scoreArxivItem rf { i with date_confidence := "high" }).score -
        (scoreArxivItem rf { i with date_confidence := "low" }).score = 10) ∧
    (∀ (rf : Option String → ℤ) (lg : ℤ → ℚ) (i : HuggingFaceItem),
      (∀ v, 0 ≤ v → 0 ≤ lg v) →
      0 ≤ i.relevance → i.relevance ≤ 1 → 0 ≤ rf i.date → rf i.date ≤ 100 →
      10 ≤ ⌊HF_WEIGHT_RELEVANCE * pyInt (i.relevance * 100) +
            HF_WEIGHT_RECENCY * rf i.date +
            HF_WEIGHT_ACADEMIC * computeHuggingfaceAcademic lg i.engagement⌋ →
      (scoreHuggingfaceItem rf lg { i with date_confidence := "high" }).score -
        (scoreHuggingfaceItem rf lg
          { i with date_confidence := "low" }).score = 10) := by
  refine ⟨?_, ?_, ?_, ?_, ?_, ?_, ?_, ?_⟩
  · intro rf i h0 h1 hr
    simp only [scoreArxivItem]
    exact score_formula_generic _ _ _ _ _ _ _
      (by norm_num [PAPER_WEIGHT_RELEVANCE])
      (by norm_num [PAPER_WEIGHT_RECENCY])
      (by norm_num [PAPER_WEIGHT_ACADEMIC])
      (rel100_bounds i.relevance h0 h1).1 hr
      (arxivAcad_bounds i.engagement i.primary_category).1
  · intro rf i h0 h1 hr
    simp only [scoreBiorxivItem]
    exact score_formula_generic _ _ _ _ _ _ _
      (by norm_num [PAPER_WEIGHT_RELEVANCE])
      (by norm_num [PAPER_WEIGHT_RECENCY])
      (by norm_num [PAPER_WEIGHT_ACADEMIC])
      (rel100_bounds i.relevance h0 h1).1 hr
      (biorxivAcad_bounds i.engagement).1
  · intro rf lg i hlg h0 h1 hr
    simp only [scorePubmedItem]
    exact score_formula_generic _ _ _ _ _ _ _
      (by norm_num [PAPER_WEIGHT_RELEVANCE])
      (by norm_num [PAPER_WEIGHT_RECENCY])
      (by norm_num [PAPER_WEIGHT_ACADEMIC])
      (rel100_bounds i.relevance h0 h1).1 hr
      (pubmedAcad_bounds lg hlg i.engagement).1
  · intro rf lg i hlg h0 h1 hr
    simp only [scoreOpenalexItem]
    exact score_formula_generic _ _ _ _ _ _ _
      (by norm_num [PAPER_WEIGHT_RELEVANCE])
      (by norm_num [PAPER_WEIGHT_RECENCY])
      (by norm_num [PAPER_WEIGHT_ACADEMIC])
      (rel100_bounds i.relevance h0 h1).1 hr
      (openalexAcad_bounds lg hlg i.engagement).1
  · intro rf lg i hlg h0 h1 hr
    simp only [scoreSemanticscholarItem]
    exact score_formula_generic _ _ _ _ _ _ _
      (by norm_num [PAPER_WEIGHT_RELEVANCE])
      (by norm_num [PAPER_WEIGHT_RECENCY])
      (by norm_num [PAPER_WEIGHT_ACADEMIC])
      (rel100_bounds i.relevance h0 h1).1 hr
      (s2Acad_bounds lg hlg i.engagement).1
  · intro rf lg i hlg h0 h1 hr
    simp only [scoreHuggingfaceItem]
    exact score_formula_generic _ _ _ _ _ _ _
      (by norm_num [HF_WEIGHT_RELEVANCE])
      (by norm_num [HF_WEIGHT_RECENCY])
      (by norm_num [HF_WEIGHT_ACADEMIC])
      (rel100_bounds i.relevance h0 h1).1 hr
      (hfAcad_bounds lg hlg i.engagement).1
  · intro rf i h0 h1 hr hr2 h10
    simp only [scoreArxivItem]
    exact exact_ten _ _ _ _ _ _
      (by norm_num [PAPER_WEIGHT_RELEVANCE, PAPER_WEIGHT_RECENCY,
        PAPER_WEIGHT_ACADEMIC])
      (by norm_num [PAPER_WEIGHT_RELEVANCE])
      (by norm_num [PAPER_WEIGHT_RECENCY])
      (by norm_num [PAPER_WEIGHT_ACADEMIC])
      (rel100_bounds i.relevance h0 h1).1 (rel100_bounds i.relevance h0 h1).2
      hr hr2
      (arxivAcad_bounds i.engagement i.primary_category).1
      (arxivAcad_bounds i.engagement i.primary_category).2 h10
  · intro rf lg i hlg h0 h1 hr hr2 h10
    simp only [scoreHuggingfaceItem]
    exact exact_ten _ _ _ _ _ _
      (by norm_num [HF_WEIGHT_RELEVANCE, HF_WEIGHT_RECENCY,
        HF_WEIGHT_ACADEMIC])
      (by norm_num [HF_WEIGHT_RELEVANCE])
      (by norm_num [HF_WEIGHT_RECENCY])
      (by norm_num [HF_WEIGHT_ACADEMIC])
      (rel100_bounds i.relevance h0 h1).1 (rel100_bounds i.relevance h0 h1).2
      hr hr2
      (hfAcad_bounds lg hlg i.engagement).1
      (hfAcad_bounds lg hlg i.engagement).2 h10

/-- C2 (witness): the exact-10 part of the amended claim at a concrete
arXiv item with weighted sum 57.5. -/
theorem c2_witness :
    (scoreArxivItem (fun _ => 0)
        { c2ArxW with date_confidence := "high" }).score -
      (scoreArxivItem (fun _ => 0)
        { c2ArxW with date_confidence := "low" }).score = 10 := by
  have h100 : pyInt ((1:ℚ) * 100) = 100 := by
    rw [show ((1:ℚ) * 100) = ((100:ℤ):ℚ) by norm_num,
      pyInt_of_nonneg _ (by norm_num), Int.floor_intCast]
  have hacad : computeArxivAcademic none "" = 30 := by decide
  refine (c2_composite_amended.2.2.2.2.2.2.1) (fun _ => 0) c2ArxW
    (by norm_num [c2ArxW]) (by norm_num [c2ArxW]) (by norm_num)
    (by norm_num) ?_
  rw [Int.le_floor]
  simp only [c2ArxW, h100, hacad]
  norm_num [PAPER_WEIGHT_RELEVANCE, PAPER_WEIGHT_RECENCY,
    PAPER_WEIGHT_ACADEMIC]

/-! ## C9: sort_items -/

/-- C9 (counterexample): `sorted` is stable, so two distinct items with
identical sort keys keep their input order — permuting the input permutes
the output, refuting permutation invariance for every list. -/
theorem c9_counterexample :
    ([c9Y, c9X] : List Item).Perm [c9X, c9Y] ∧
      sortItems [c9Y, c9X] ≠ sortItems [c9X, c9Y] := by
  have hk : sortKey c9Y = sortKey c9X := by decide
  have h1 : sortItems [c9Y, c9X] = [c9Y, c9X] := by
    simp [sortItems, List.insertionSort, List.orderedInsert, le_of_eq hk]
  have h2 : sortItems [c9X, c9Y] = [c9X, c9Y] := by
    simp [sortItems, List.insertionSort, List.orderedInsert,
      le_of_eq hk.symm]
  constructor
  · exact List.Perm.swap c9X c9Y []
  · rw [h1, h2]
    intro h
    have hh : c9Y = c9X := by
      have := congrArg List.head? h
      simpa using this
    exact absurd hh (by decide)

/-- C9 (amended): `sort_items` sorts by the key
`(-score, -date_as_int, title)` (missing dates as `0000-00-00`) and
returns a permutation of its input; the output is permutation-invariant
for every input list whose items have pairwise distinct sort keys (for
ties the stable sort preserves input order, so full permutation
invariance fails). -/
theorem c9_sort_amended :
    (∀ l : List Item,
      List.Sorted (fun a b => sortKey a ≤ sortKey b) (sortItems l)) ∧
    (∀ l : List Item, (sortItems l).Perm l) ∧
    (∀ l l' : List Item, l.Perm l' → (l.map sortKey).Nodup →
      sortItems l' = sortItems l) := by
  refine ⟨fun l => List.sorted_insertionSort _ l,
    fun l => List.perm_insertionSort _ l, ?_⟩
  intro l l' hp hnd
  have hsorted : ∀ m : List Item, (m.map sortKey).Nodup →
      List.Sorted (fun a b => sortKey a < sortKey b) (sortItems m) := by
    intro m hm
    have hs := List.sorted_insertionSort
      (fun a b => sortKey a ≤ sortKey b) m
    have hmnd : ((sortItems m).map sortKey).Nodup := by
      have : ((sortItems m).map sortKey).Perm (m.map sortKey) :=
        (List.perm_insertionSort _ m).map sortKey
      exact (this.nodup_iff).mpr hm
    have hpw : (sortItems m).Pairwise
        (fun a b => sortKey a ≠ sortKey b) :=
      (List.pairwise_map).mp hmnd
    exact (hs.and hpw).imp (fun h => lt_of_le_of_ne h.1 h.2)
  have hnd' : (l'.map sortKey).Nodup := by
    have : (l.map sortKey).Perm (l'.map sortKey) := hp.map sortKey
    exact (this.nodup_iff).mp hnd
  haveI : IsAntisymm Item (fun a b => sortKey a < sortKey b) :=
    ⟨fun a b h1 h2 => absurd (lt_trans h1 h2) (lt_irrefl _)⟩
  have hperm : (sortItems l').Perm (sortItems l) :=
    (List.perm_insertionSort _ l').trans
      (hp.symm.trans (List.perm_insertionSort _ l).symm)
  exact List.eq_of_perm_of_sorted hperm (hsorted l' hnd') (hsorted l hnd)

/-- C9 (witness): with distinct sort keys, permuting the input leaves the
sorted output unchanged. -/
theorem c9_witness :
    sortItems [c9Z, c9X] = sortItems [c9X, c9Z] :=
  c9_sort_amended.2.2 [c9X, c9Z] [c9Z, c9X]
    (List.Perm.swap c9Z c9X []) (by decide)

/-! ## C5: serialization round trip -/

theorem subs_roundtrip (s : SubScores) : parseSubs (some s.toDict) = s := by
  cases s; rfl

theorem eng_roundtrip (e : Option AcademicEngagement) (h : engOk e) :
    parseEngagement (e.bind AcademicEngagement.toDict) = e := by
  cases e with
  | none => rfl
  | some x =>
    obtain ⟨p1, p2, p3, p4, p5, p6⟩ := x
    have hx : AcademicEngagement.mk p1 p2 p3 p4 p5 p6 ≠ {} := h _ rfl
    simp only [Option.bind, AcademicEngagement.toDict]
    split_ifs with hd
    · exfalso
      apply hx
      simp only [EngagementDict.mk.injEq] at hd
      simp_all [EngagementDict.mk.injEq]
    · simp [parseEngagement, hd]

theorem biorxiv_roundtrip (i : BiorxivItem) (h : engOk i.engagement) :
    BiorxivItem.fromDict (BiorxivItem.toDict i) = i := by
  obtain ⟨f1, f2, f3, f4, f5, f6, f7, f8, f9, f10, f11, f12, f13, f14, f15⟩ := i
  simp only [BiorxivItem.toDict, BiorxivItem.fromDict, subs_roundtrip,
    eng_roundtrip _ h]

theorem arxiv_roundtrip (i : ArxivItem) (h : engOk i.engagement) :
    ArxivItem.fromDict (ArxivItem.toDict i) = i := by
  obtain ⟨f1, f2, f3, f4, f5, f6, f7, f8, f9, f10, f11, f12, f13, f14, f15⟩ := i
  simp only [ArxivItem.toDict, ArxivItem.fromDict, subs_roundtrip,
    eng_roundtrip _ h]

theorem pubmed_roundtrip (i : PubmedItem) (h : engOk i.engagement) :
    PubmedItem.fromDict (PubmedItem.toDict i) = i := by
  obtain ⟨f1, f2, f3, f4, f5, f6, f7, f8, f9, f10, f11, f12, f13, f14, f15⟩ := i
  simp only [PubmedItem.toDict, PubmedItem.fromDict, subs_roundtrip,
    eng_roundtrip _ h]

theorem hf_roundtrip (i : HuggingFaceItem) (h : engOk i.engagement) :
    HuggingFaceItem.fromDict (HuggingFaceItem.toDict i) = i := by
  obtain ⟨f1, f2, f3, f4, f5, f6, f7, f8, f9, f10, f11, f12, f13, f14⟩ := i
  simp only [HuggingFaceItem.toDict, HuggingFaceItem.fromDict,
    subs_roundtrip, eng_roundtrip _ h]

theorem openalex_roundtrip (i : OpenAlexItem) (h : engOk i.engagement) :
    OpenAlexItem.fromDict (OpenAlexItem.toDict i) = i := by
  obtain ⟨f1, f2, f3, f4, f5, f6, f7, f8, f9, f10, f11, f12, f13, f14, f15,
    f16, f17⟩ := i
  simp only [OpenAlexItem.toDict, OpenAlexItem.fromDict, subs_roundtrip,
    eng_roundtrip _ h]

theorem truthyStr_id (o : Option String) (h : errOk o) : truthyStr o = o := by
  cases o with
  | none => rfl
  | some e =>
    simp only [truthyStr]
    split_ifs with he
    · exact absurd (he ▸ rfl) h
    · rfl

theorem map_roundtrip {α β : Type} (toD : α → β) (fromD : β → α)
    (l : List α) (P : α → Prop) (hP : ∀ i ∈ l, P i)
    (hrt : ∀ i, P i → fromD (toD i) = i) :
    (l.map toD).map fromD = l := by
  rw [List.map_map]
  have : ∀ i ∈ l, (fromD ∘ toD) i = id i := fun i hi => hrt i (hP i hi)
  rw [List.map_congr_left this, List.map_id]

/-- C5 (counterexample): a report holding a bioRxiv item whose engagement
record exists with all fields `None` does not round-trip —
`AcademicEngagement().to_dict()` yields `None`, which deserializes back
to an absent engagement. -/
theorem c5_counterexample :
    (Report.fromDict (Report.toDict c5BadReport)).biorxiv.map
        BiorxivItem.engagement = [none] ∧
      c5BadReport.biorxiv.map BiorxivItem.engagement = [some {}] ∧
      Report.fromDict (Report.toDict c5BadReport) ≠ c5BadReport := by
  refine ⟨by decide, by decide, ?_⟩
  intro h
  have := congrArg (fun r => r.biorxiv.map BiorxivItem.engagement) h
  simp only at this
  rw [show (Report.fromDict (Report.toDict c5BadReport)).biorxiv.map
      BiorxivItem.engagement = [none] by decide] at this
  exact absurd this (by decide)

/-- C5 (amended): `Report.from_dict (report.to_dict())` returns the
report unchanged (exactly — serialization itself does no float rounding)
over the six serialized source lists, provided every item's engagement
record is absent or carries at least one field, and every per-source
error is absent or non-empty.  The pipeline's Semantic Scholar list is a
dynamically attached attribute that `to_dict`/`from_dict` do not handle,
so it is outside Report serialization. -/
theorem c5_roundtrip_amended (r : Report) (hE : reportEngOk r)
    (hErr : reportErrOk r) :
    Report.fromDict (Report.toDict r) = r := by
  obtain ⟨t, rf, rt, g, m, l1, l2, l3, l4, l5, l6, e1, e2, e3, e4, e5, e6,
    fc, ca⟩ := r
  obtain ⟨hE1, hE2, hE3, hE4, hE5, hE6⟩ := hE
  obtain ⟨hr1, hr2, hr3, hr4, hr5, hr6⟩ := hErr
  simp only [Report.toDict, Report.fromDict,
    map_roundtrip _ _ l1 _ hE1 biorxiv_roundtrip,
    map_roundtrip _ _ l2 _ hE2 biorxiv_roundtrip,
    map_roundtrip _ _ l3 _ hE3 arxiv_roundtrip,
    map_roundtrip _ _ l4 _ hE4 pubmed_roundtrip,
    map_roundtrip _ _ l5 _ hE5 hf_roundtrip,
    map_roundtrip _ _ l6 _ hE6 openalex_roundtrip,
    truthyStr_id _ hr1, truthyStr_id _ hr2, truthyStr_id _ hr3,
    truthyStr_id _ hr4, truthyStr_id _ hr5, truthyStr_id _ hr6]

/-- C5 (witness): the amended round trip at a concrete report with a
nondegenerate engagement record, a non-empty error, and cache fields. -/
theorem c5_witness :
    Report.fromDict (Report.toDict c5GoodReport) = c5GoodReport := by
  refine c5_roundtrip_amended c5GoodReport
    ⟨?_, ?_, ?_, ?_, ?_, ?_⟩ ⟨?_, ?_, ?_, ?_, ?_, ?_⟩
  · intro i hi
    simp only [c5GoodReport, List.mem_singleton] at hi
    subst hi
    intro x hx he
    subst he
    exact absurd hx (by decide)
  · intro i hi; cases hi
  · intro i hi; cases hi
  · intro i hi; cases hi
  · intro i hi; cases hi
  · intro i hi; cases hi
  · intro hx; cases hx
  · intro hx; cases hx
  · intro hx; cases hx
  · intro hx
    have hinj : "HTTP 500: boom" = "" := by
      have h2 : c5GoodReport.pubmed_error = some "HTTP 500: boom" := rfl
      rw [h2] at hx
      injection hx
    exact absurd hinj (by decide)
  · intro hx; cases hx
  · intro hx; cases hx

/-! ## Two-item characterization of the DOI pass of `dedupe_cross_source` -/

theorem minFold_const (s : ℕ × Item) (l : List (ℕ × Item))
    (h : ∀ p ∈ l, ¬ dedupeKey p.2 < dedupeKey s.2) :
    l.foldl (fun best p =>
      if dedupeKey p.2 < dedupeKey best.2 then p else best) s = s := by
  induction l with
  | nil => rfl
  | cons q t ih =>
    simp only [List.foldl_cons]
    rw [if_neg (h q (List.mem_cons_self q t))]
    exact ih (fun p hp => h p (List.mem_cons_of_mem q hp))

theorem minByFirst_replicate (n : ℕ) (x : ℕ × Item) (h : 1 ≤ n) :
    minByFirst (List.replicate n x) = some x := by
  obtain ⟨m, rfl⟩ : ∃ m, n = m + 1 := ⟨n - 1, by omega⟩
  simp only [List.replicate_succ, minByFirst]
  rw [minFold_const x _ (fun p hp => by
    rw [List.eq_of_mem_replicate hp]; exact lt_irrefl _)]

theorem minByFirst_mixed (n k : ℕ) (x y : ℕ × Item) (hn : 1 ≤ n)
    (hk : 1 ≤ k) :
    minByFirst (List.replicate n x ++ List.replicate k y) =
      some (if dedupeKey y.2 < dedupeKey x.2 then y else x) := by
  obtain ⟨m, rfl⟩ : ∃ m, n = m + 1 := ⟨n - 1, by omega⟩
  obtain ⟨j, rfl⟩ : ∃ j, k = j + 1 := ⟨k - 1, by omega⟩
  simp only [List.replicate_succ, List.cons_append, minByFirst,
    List.foldl_append, List.foldl_cons]
  rw [minFold_const x _ (fun p hp => by
    rw [List.eq_of_mem_replicate hp]; exact lt_irrefl _)]
  by_cases hlt : dedupeKey y.2 < dedupeKey x.2
  · rw [if_pos hlt, minFold_const y _ (fun p hp => by
      rw [List.eq_of_mem_replicate hp]; exact lt_irrefl _)]
  · rw [if_neg hlt, minFold_const x _ (fun p hp => by
      rw [List.eq_of_mem_replicate hp]; exact hlt)]

theorem remFold_append (b : ℕ) (R : Finset ℕ) (l1 l2 : List (ℕ × Item)) :
    remFold b R (l1 ++ l2) = remFold b (remFold b R l1) l2 := by
  simp [remFold, List.foldl_append]

theorem remFold_replicate (b : ℕ) (R : Finset ℕ) (n : ℕ) (x : ℕ × Item) :
    remFold b R (List.replicate n x) =
      if n = 0 ∨ x.1 = b then R else insert x.1 R := by
  induction n generalizing R with
  | zero => simp [remFold]
  | succ m ih =>
    simp only [List.replicate_succ, remFold, List.foldl_cons]
    by_cases hb : x.1 = b
    · rw [if_neg (by simpa using hb)]
      rw [show (List.foldl (fun R p =>
          if p.1 ≠ b then insert p.1 R else R) R (List.replicate m x) =
          remFold b R (List.replicate m x)) from rfl, ih]
      simp [hb]
    · rw [if_pos hb]
      rw [show (List.foldl (fun R p =>
          if p.1 ≠ b then insert p.1 R else R) (insert x.1 R)
            (List.replicate m x) =
          remFold b (insert x.1 R) (List.replicate m x)) from rfl, ih]
      rcases Nat.eq_zero_or_pos m with rfl | hm
      · simp [hb]
      · have h1 : ¬ (m = 0 ∨ x.1 = b) := by
          simp [hb]; omega
        have h2 : ¬ (m + 1 = 0 ∨ x.1 = b) := by
          simp [hb]
        rw [if_neg h1, if_neg h2, Finset.insert_idem]

theorem doiPassRemove_eq (items : List Item) :
    doiPassRemove items = (buildDoiMap items).foldl doiStep ∅ := rfl

theorem doiStep_pure (R : Finset ℕ) (g : String × List (ℕ × Item))
    (x : ℕ × Item) (n : ℕ) (h : g.2 = List.replicate n x) :
    doiStep R g = R := by
  unfold doiStep
  rw [h]
  by_cases hn : (List.replicate n x).length ≤ 1
  · rw [if_pos hn]
  · rw [if_neg hn, minByFirst_replicate n x (by simp at hn; omega)]
    simp [remFold_replicate]

theorem doiStep_mixed (R : Finset ℕ) (a b : Item)
    (g : String × List (ℕ × Item)) (n k : ℕ) (hn : 1 ≤ n) (hk : 1 ≤ k)
    (hg : g.2 = List.replicate n (0, a) ++ List.replicate k (1, b)) :
    doiStep R g = insert (loserIdx a b) R := by
  unfold doiStep
  rw [hg]
  have hlen : ¬ (List.replicate n (0, a) ++
      List.replicate k (1, b)).length ≤ 1 := by
    simp [List.length_append]; omega
  rw [if_neg hlen]
  have hmb := minByFirst_mixed n k ((0 : ℕ), a) ((1 : ℕ), b) hn hk
  by_cases hlt : dedupeKey b < dedupeKey a
  · rw [if_pos (show dedupeKey ((1 : ℕ), b).2 < dedupeKey ((0 : ℕ), a).2
      from hlt)] at hmb
    rw [hmb]
    show remFold (1 : ℕ) R
      (List.replicate n ((0 : ℕ), a) ++ List.replicate k ((1 : ℕ), b)) =
      insert (loserIdx a b) R
    rw [remFold_append, remFold_replicate, remFold_replicate]
    have h1 : ¬ (n = 0 ∨ ((0 : ℕ), a).1 = 1) := by simp; omega
    have h2 : (k = 0 ∨ ((1 : ℕ), b).1 = 1) := by simp
    rw [if_pos h2, if_neg h1, loserIdx, if_pos hlt]
  · rw [if_neg (show ¬ dedupeKey ((1 : ℕ), b).2 < dedupeKey ((0 : ℕ), a).2
      from hlt)] at hmb
    rw [hmb]
    show remFold (0 : ℕ) R
      (List.replicate n ((0 : ℕ), a) ++ List.replicate k ((1 : ℕ), b)) =
      insert (loserIdx a b) R
    rw [remFold_append, remFold_replicate, remFold_replicate]
    have h1 : (n = 0 ∨ ((0 : ℕ), a).1 = 0) := by simp
    have h2 : ¬ (k = 0 ∨ ((1 : ℕ), b).1 = 0) := by simp; omega
    rw [if_neg h2, if_pos h1, loserIdx, if_neg hlt]

theorem doiFold_unshared (a b : Item)
    (gs : List (String × List (ℕ × Item)))
    (hs : ∀ g ∈ gs, (∃ n, g.2 = List.replicate n ((0 : ℕ), a)) ∨
      (∃ k, g.2 = List.replicate k ((1 : ℕ), b)))
    (R : Finset ℕ) : gs.foldl doiStep R = R := by
  induction gs generalizing R with
  | nil => rfl
  | cons g t ih =>
    simp only [List.foldl_cons]
    rcases hs g (List.mem_cons_self g t) with ⟨n, hg⟩ | ⟨k, hg⟩
    · rw [doiStep_pure R g _ n hg]
      exact ih (fun g hg => hs g (List.mem_cons_of_mem _ hg)) R
    · rw [doiStep_pure R g _ k hg]
      exact ih (fun g hg => hs g (List.mem_cons_of_mem _ hg)) R

theorem doiFold_fix (a b : Item) (gs : List (String × List (ℕ × Item)))
    (hs : ∀ g ∈ gs, ∃ n k,
      g.2 = List.replicate n ((0 : ℕ), a) ++ List.replicate k ((1 : ℕ), b)) :
    gs.foldl doiStep {loserIdx a b} = {loserIdx a b} := by
  induction gs with
  | nil => rfl
  | cons g t ih =>
    obtain ⟨n, k, hg⟩ := hs g (List.mem_cons_self g t)
    simp only [List.foldl_cons]
    rcases Nat.eq_zero_or_pos n with rfl | hn
    · rw [doiStep_pure _ g _ k (by simpa using hg)]
      exact ih (fun g hg => hs g (List.mem_cons_of_mem _ hg))
    rcases Nat.eq_zero_or_pos k with rfl | hk
    · rw [doiStep_pure _ g _ n (by simpa using hg)]
      exact ih (fun g hg => hs g (List.mem_cons_of_mem _ hg))
    · rw [doiStep_mixed _ a b g n k hn hk hg,
        Finset.insert_eq_self.mpr (Finset.mem_singleton_self _)]
      exact ih (fun g hg => hs g (List.mem_cons_of_mem _ hg))

theorem doiFold_shared (a b : Item)
    (gs : List (String × List (ℕ × Item)))
    (hs : ∀ g ∈ gs, ∃ n k,
      g.2 = List.replicate n ((0 : ℕ), a) ++ List.replicate k ((1 : ℕ), b))
    (hmix : ∃ g ∈ gs, ∃ n k, 1 ≤ n ∧ 1 ≤ k ∧
      g.2 = List.replicate n ((0 : ℕ), a) ++ List.replicate k ((1 : ℕ), b)) :
    gs.foldl doiStep ∅ = {loserIdx a b} := by
  induction gs with
  | nil => simp at hmix
  | cons g t ih =>
    obtain ⟨n, k, hg⟩ := hs g (List.mem_cons_self g t)
    simp only [List.foldl_cons]
    by_cases hcase : 1 ≤ n ∧ 1 ≤ k
    · rw [doiStep_mixed _ a b g n k hcase.1 hcase.2 hg]
      have he : insert (loserIdx a b) (∅ : Finset ℕ) = {loserIdx a b} := by
        simp
      rw [he]
      exact doiFold_fix a b t (fun g hg => hs g (List.mem_cons_of_mem _ hg))
    · have hpure : (∃ m, g.2 = List.replicate m ((0 : ℕ), a)) ∨
          (∃ m, g.2 = List.replicate m ((1 : ℕ), b)) := by
        rcases Nat.eq_zero_or_pos n with rfl | hn
        · exact Or.inr ⟨k, by simpa using hg⟩
        rcases Nat.eq_zero_or_pos k with rfl | hk
        · exact Or.inl ⟨n, by simpa using hg⟩
        · exact absurd ⟨hn, hk⟩ hcase
      obtain ⟨g2, hg2, n2, k2, hn2, hk2, hrep2⟩ := hmix
      rcases List.mem_cons.mp hg2 with rfl | hg2t
      · exfalso
        have h1 : ((1 : ℕ), b) ∈ g2.2 := by
          rw [hrep2]
          exact List.mem_append_right _
            (List.mem_replicate.mpr ⟨by omega, rfl⟩)
        have h0 : ((0 : ℕ), a) ∈ g2.2 := by
          rw [hrep2]
          exact List.mem_append_left _
            (List.mem_replicate.mpr ⟨by omega, rfl⟩)
        rcases hpure with ⟨m, hm⟩ | ⟨m, hm⟩
        · rw [hm] at h1
          have := List.eq_of_mem_replicate h1
          simp at this
        · rw [hm] at h0
          have := List.eq_of_mem_replicate h0
          simp at this
      · rcases hpure with ⟨m, hm⟩ | ⟨m, hm⟩
        · rw [doiStep_pure _ g _ m hm]
          exact ih (fun g hg => hs g (List.mem_cons_of_mem _ hg))
            ⟨g2, hg2t, n2, k2, hn2, hk2, hrep2⟩
        · rw [doiStep_pure _ g _ m hm]
          exact ih (fun g hg => hs g (List.mem_cons_of_mem _ hg))
            ⟨g2, hg2t, n2, k2, hn2, hk2, hrep2⟩

theorem lookupGroup_cons_pos (q : String × List (ℕ × Item))
    (t : List (String × List (ℕ × Item))) (d : String) (h : q.1 = d) :
    lookupGroup (q :: t) d = some q.2 := by
  unfold lookupGroup
  rw [List.find?_cons_of_pos _ (by simpa using h)]
  rfl

theorem lookupGroup_cons_neg (q : String × List (ℕ × Item))
    (t : List (String × List (ℕ × Item))) (d : String) (h : ¬ q.1 = d) :
    lookupGroup (q :: t) d = lookupGroup t d := by
  unfold lookupGroup
  rw [List.find?_cons_of_neg _ (by simpa using h)]

theorem lookupGroup_any (m : List (String × List (ℕ × Item))) (d : String)
    (l : List (ℕ × Item)) (h : lookupGroup m d = some l) :
    m.any (fun q => q.1 = d) = true := by
  induction m with
  | nil => simp [lookupGroup] at h
  | cons q t ih =>
    by_cases hq : q.1 = d
    · simp [List.any_cons, hq]
    · rw [lookupGroup_cons_neg q t d hq] at h
      simp [List.any_cons, ih h]

theorem lookupGroup_of_any (m : List (String × List (ℕ × Item)))
    (d : String) (h : m.any (fun q => q.1 = d) = true) :
    ∃ l, lookupGroup m d = some l := by
  induction m with
  | nil => simp at h
  | cons q t ih =>
    by_cases hq : q.1 = d
    · exact ⟨q.2, lookupGroup_cons_pos q t d hq⟩
    · rw [lookupGroup_cons_neg q t d hq]
      apply ih
      simpa [List.any_cons, hq] using h

theorem lookupGroup_append_some (m : List (String × List (ℕ × Item)))
    (e : String × List (ℕ × Item)) (d : String) (l : List (ℕ × Item))
    (h : lookupGroup m d = some l) :
    lookupGroup (m ++ [e]) d = some l := by
  induction m with
  | nil => simp [lookupGroup] at h
  | cons q t ih =>
    by_cases hq : q.1 = d
    · rw [lookupGroup_cons_pos q t d hq] at h
      rw [List.cons_append, lookupGroup_cons_pos q _ d hq]
      exact h
    · rw [lookupGroup_cons_neg q t d hq] at h
      rw [List.cons_append, lookupGroup_cons_neg q _ d hq]
      exact ih h

theorem lookupGroup_append_none (m : List (String × List (ℕ × Item)))
    (e : String × List (ℕ × Item)) (d : String)
    (h : lookupGroup m d = none) :
    lookupGroup (m ++ [e]) d = if e.1 = d then some e.2 else none := by
  induction m with
  | nil =>
    rw [List.nil_append]
    by_cases he : e.1 = d
    · rw [lookupGroup_cons_pos e [] d he, if_pos he]
    · rw [lookupGroup_cons_neg e [] d he, if_neg he]
      rfl
  | cons q t ih =>
    by_cases hq : q.1 = d
    · rw [lookupGroup_cons_pos q t d hq] at h
      cases h
    · rw [lookupGroup_cons_neg q t d hq] at h
      rw [List.cons_append, lookupGroup_cons_neg q _ d hq]
      exact ih h

theorem lookupGroup_map_some (m : List (String × List (ℕ × Item)))
    (d' : String) (p : ℕ × Item) (d : String) (l : List (ℕ × Item))
    (h : lookupGroup m d = some l) :
    lookupGroup
      (m.map fun q => if q.1 = d' then (q.1, q.2 ++ [p]) else q) d =
      if d = d' then some (l ++ [p]) else some l := by
  induction m with
  | nil => simp [lookupGroup] at h
  | cons q t ih =>
    have hk : (if q.1 = d' then (q.1, q.2 ++ [p]) else q).1 = q.1 := by
      split <;> rfl
    by_cases hq : q.1 = d
    · rw [lookupGroup_cons_pos q t d hq] at h
      injection h with h
      rw [List.map_cons, lookupGroup_cons_pos _ _ d (by rw [hk]; exact hq)]
      by_cases hdd : d = d'
      · have hq' : q.1 = d' := by rw [hq, hdd]
        rw [if_pos hq', if_pos hdd, ← h]
      · have hq' : ¬ q.1 = d' := by rw [hq]; exact hdd
        rw [if_neg hq', if_neg hdd, ← h]
    · rw [lookupGroup_cons_neg q t d hq] at h
      rw [List.map_cons, lookupGroup_cons_neg _ _ d (by rw [hk]; exact hq)]
      exact ih h

theorem lookupGroup_insertDoi_some (m : List (String × List (ℕ × Item)))
    (d' : String) (p : ℕ × Item) (d : String) (l : List (ℕ × Item))
    (h : lookupGroup m d = some l) :
    lookupGroup (insertDoi m d' p) d =
      if d = d' then some (l ++ [p]) else some l := by
  unfold insertDoi
  by_cases hany : m.any (fun q => q.1 = d')
  · rw [if_pos hany]
    exact lookupGroup_map_some m d' p d l h
  · rw [if_neg hany]
    have hd : ¬ d = d' := by
      intro he
      subst he
      exact hany (lookupGroup_any m d l h)
    rw [lookupGroup_append_some m _ d l h, if_neg hd]

theorem lookupGroup_insertDoi_hit (m : List (String × List (ℕ × Item)))
    (d : String) (p : ℕ × Item) :
    ∃ l, lookupGroup (insertDoi m d p) d = some l ∧ p ∈ l := by
  by_cases hany : m.any (fun q => q.1 = d)
  · obtain ⟨l0, hl0⟩ := lookupGroup_of_any m d hany
    have := lookupGroup_insertDoi_some m d p d l0 hl0
    rw [if_pos rfl] at this
    exact ⟨l0 ++ [p], this, List.mem_append_right _ (List.mem_cons_self p [])⟩
  · unfold insertDoi
    rw [if_neg hany]
    have hld : lookupGroup m d = none := by
      cases hl : lookupGroup m d with
      | none => rfl
      | some l0 => exact absurd (lookupGroup_any m d l0 hl) hany
    have := lookupGroup_append_none m (d, [p]) d hld
    rw [if_pos rfl] at this
    exact ⟨[p], this, List.mem_cons_self p []⟩

theorem lookupGroup_insertDoi_mono (m : List (String × List (ℕ × Item)))
    (d' : String) (p : ℕ × Item) (d : String) (l : List (ℕ × Item))
    (h : lookupGroup m d = some l) :
    ∃ l', lookupGroup (insertDoi m d' p) d = some l' ∧ ∀ x ∈ l, x ∈ l' := by
  have hh := lookupGroup_insertDoi_some m d' p d l h
  by_cases hdd : d = d'
  · rw [if_pos hdd] at hh
    exact ⟨l ++ [p], hh, fun x hx => List.mem_append_left _ hx⟩
  · rw [if_neg hdd] at hh
    exact ⟨l, hh, fun x hx => hx⟩

theorem lookupGroup_insDois_mono (ds : List String)
    (m : List (String × List (ℕ × Item))) (p : ℕ × Item) (d : String)
    (l : List (ℕ × Item)) (h : lookupGroup m d = some l) (x : ℕ × Item)
    (hx : x ∈ l) :
    ∃ l', lookupGroup (insDois m ds p) d = some l' ∧ x ∈ l' := by
  induction ds generalizing m l with
  | nil => exact ⟨l, h, hx⟩
  | cons e t ih =>
    obtain ⟨l', h', sub⟩ := lookupGroup_insertDoi_mono m e p d l h
    exact ih (insertDoi m e p) l' h' (sub x hx)

theorem lookupGroup_insDois_hit (ds : List String)
    (m : List (String × List (ℕ × Item))) (p : ℕ × Item) (d : String)
    (hd : d ∈ ds) :
    ∃ l, lookupGroup (insDois m ds p) d = some l ∧ p ∈ l := by
  induction ds generalizing m with
  | nil => cases hd
  | cons e t ih =>
    by_cases hdt : d ∈ t
    · exact ih (insertDoi m e p) hdt
    · have he : e = d := by
        rcases List.mem_cons.mp hd with h | h
        · exact h.symm
        · exact absurd h hdt
      subst he
      obtain ⟨l, hl, hp⟩ := lookupGroup_insertDoi_hit m e p
      exact lookupGroup_insDois_mono t (insertDoi m e p) p e l hl p hp

theorem lookupGroup_mem (m : List (String × List (ℕ × Item))) (d : String)
    (l : List (ℕ × Item)) (h : lookupGroup m d = some l) :
    ∃ g ∈ m, g.2 = l := by
  unfold lookupGroup at h
  cases hf : m.find? (fun q => q.1 = d) with
  | none => rw [hf] at h; cases h
  | some q =>
    rw [hf] at h
    injection h with h
    exact ⟨q, List.mem_of_find?_eq_some hf, h⟩

theorem insDois_shape_a (a : Item) (S : List String) (ds : List String)
    (hds : ∀ d ∈ ds, d ∈ S) (m : List (String × List (ℕ × Item)))
    (hm : ∀ g ∈ m, ∃ n, 1 ≤ n ∧
      g.2 = List.replicate n ((0 : ℕ), a) ∧ g.1 ∈ S) :
    ∀ g ∈ insDois m ds ((0 : ℕ), a), ∃ n, 1 ≤ n ∧
      g.2 = List.replicate n ((0 : ℕ), a) ∧ g.1 ∈ S := by
  induction ds generalizing m with
  | nil => exact hm
  | cons e t ih =>
    refine ih (fun d hd => hds d (List.mem_cons_of_mem e hd))
      (insertDoi m e ((0 : ℕ), a)) ?_
    intro g hg
    unfold insertDoi at hg
    by_cases hany : m.any (fun q => q.1 = e)
    · rw [if_pos hany] at hg
      obtain ⟨q, hq, rfl⟩ := List.mem_map.mp hg
      obtain ⟨n, hn, hrep, hS⟩ := hm q hq
      by_cases hqe : q.1 = e
      · rw [if_pos hqe]
        refine ⟨n + 1, by omega, ?_, ?_⟩
        · show q.2 ++ [((0 : ℕ), a)] = List.replicate (n + 1) ((0 : ℕ), a)
          rw [List.replicate_succ', hrep]
        · exact hS
      · rw [if_neg hqe]
        exact ⟨n, hn, hrep, hS⟩
    · rw [if_neg hany] at hg
      rcases List.mem_append.mp hg with hg | hg
      · exact hm g hg
      · have hge : g = (e, [((0 : ℕ), a)]) := by simpa using hg
        subst hge
        exact ⟨1, le_refl 1, rfl, hds e (List.mem_cons_self e t)⟩

theorem insDois_shape_b (a b : Item) (SB : List String) (ds : List String)
    (hds : ∀ d ∈ ds, d ∈ SB) (m : List (String × List (ℕ × Item)))
    (hm : ∀ g ∈ m, ∃ n k,
      g.2 = List.replicate n ((0 : ℕ), a) ++ List.replicate k ((1 : ℕ), b) ∧
      (1 ≤ n → g.1 ∈ getDois a) ∧ (1 ≤ k → g.1 ∈ SB)) :
    ∀ g ∈ insDois m ds ((1 : ℕ), b), ∃ n k,
      g.2 = List.replicate n ((0 : ℕ), a) ++ List.replicate k ((1 : ℕ), b) ∧
      (1 ≤ n → g.1 ∈ getDois a) ∧ (1 ≤ k → g.1 ∈ SB) := by
  induction ds generalizing m with
  | nil => exact hm
  | cons e t ih =>
    refine ih (fun d hd => hds d (List.mem_cons_of_mem e hd))
      (insertDoi m e ((1 : ℕ), b)) ?_
    intro g hg
    unfold insertDoi at hg
    by_cases hany : m.any (fun q => q.1 = e)
    · rw [if_pos hany] at hg
      obtain ⟨q, hq, rfl⟩ := List.mem_map.mp hg
      obtain ⟨n, k, hrep, hA, hB⟩ := hm q hq
      by_cases hqe : q.1 = e
      · rw [if_pos hqe]
        refine ⟨n, k + 1, ?_, hA, ?_⟩
        · show q.2 ++ [((1 : ℕ), b)] = _
          rw [hrep, List.replicate_succ', List.append_assoc]
        · intro _
          rw [show ((q.1, q.2 ++ [((1 : ℕ), b)]) :
            String × List (ℕ × Item)).1 = q.1 from rfl, hqe]
          exact hds e (List.mem_cons_self e t)
      · rw [if_neg hqe]
        exact ⟨n, k, hrep, hA, hB⟩
    · rw [if_neg hany] at hg
      rcases List.mem_append.mp hg with hg | hg
      · exact hm g hg
      · have hge : g = (e, [((1 : ℕ), b)]) := by simpa using hg
        subst hge
        refine ⟨0, 1, rfl, ?_, ?_⟩
        · intro h
          exact absurd h (by omega)
        · intro _
          exact hds e (List.mem_cons_self e t)

theorem buildDoiMap_two (a b : Item) :
    buildDoiMap [a, b] =
      insDois (insDois [] (getDois a) ((0 : ℕ), a)) (getDois b)
        ((1 : ℕ), b) := rfl

theorem buildDoiMap_two_shape (a b : Item) :
    ∀ g ∈ buildDoiMap [a, b], ∃ n k,
      g.2 = List.replicate n ((0 : ℕ), a) ++ List.replicate k ((1 : ℕ), b) ∧
      (1 ≤ n → g.1 ∈ getDois a) ∧ (1 ≤ k → g.1 ∈ getDois b) := by
  rw [buildDoiMap_two]
  refine insDois_shape_b a b (getDois b) (getDois b) (fun d hd => hd)
    (insDois [] (getDois a) ((0 : ℕ), a)) ?_
  intro g hg
  obtain ⟨n, hn, hrep, hS⟩ := insDois_shape_a a (getDois a) (getDois a)
    (fun d hd => hd) [] (fun g hg => absurd hg (List.not_mem_nil g)) g hg
  refine ⟨n, 0, by simpa using hrep, fun _ => hS, fun h => absurd h (by omega)⟩

theorem doiPassRemove_two (a b : Item) :
    doiPassRemove [a, b] =
      if anySharedDoi a b then {loserIdx a b} else ∅ := by
  rw [doiPassRemove_eq]
  by_cases hsh : anySharedDoi a b = true
  · rw [if_pos hsh]
    obtain ⟨d, hda, hdb⟩ : ∃ d, d ∈ getDois a ∧ d ∈ getDois b := by
      obtain ⟨d, hda, hdb⟩ := List.any_eq_true.mp hsh
      exact ⟨d, hda, by simpa using hdb⟩
    obtain ⟨l1, hl1, hm0⟩ :=
      lookupGroup_insDois_hit (getDois a) [] ((0 : ℕ), a) d hda
    obtain ⟨l2, hl2, hm0f⟩ := lookupGroup_insDois_mono (getDois b)
      (insDois [] (getDois a) ((0 : ℕ), a)) ((1 : ℕ), b) d l1 hl1
      ((0 : ℕ), a) hm0
    obtain ⟨l3, hl3, hm1f⟩ := lookupGroup_insDois_hit (getDois b)
      (insDois [] (getDois a) ((0 : ℕ), a)) ((1 : ℕ), b) d hdb
    rw [hl2] at hl3
    injection hl3 with hll
    obtain ⟨g, hgmem, hg2⟩ := lookupGroup_mem _ d l2 hl2
    have hgmem' : g ∈ buildDoiMap [a, b] := by
      rw [buildDoiMap_two]
      exact hgmem
    obtain ⟨n, k, hrep, hA, hB⟩ := buildDoiMap_two_shape a b g hgmem'
    have h0 : ((0 : ℕ), a) ∈ g.2 := by rw [hg2]; exact hm0f
    have h1 : ((1 : ℕ), b) ∈ g.2 := by rw [hg2, hll]; exact hm1f
    have hn : 1 ≤ n := by
      rw [hrep] at h0
      rcases List.mem_append.mp h0 with h | h
      · have := (List.mem_replicate.mp h).1
        omega
      · have := List.eq_of_mem_replicate h
        simp at this
    have hk : 1 ≤ k := by
      rw [hrep] at h1
      rcases List.mem_append.mp h1 with h | h
      · have := List.eq_of_mem_replicate h
        simp at this
      · have := (List.mem_replicate.mp h).1
        omega
    refine doiFold_shared a b (buildDoiMap [a, b]) ?_ ?_
    · intro g hg
      obtain ⟨n, k, hrep, _, _⟩ := buildDoiMap_two_shape a b g hg
      exact ⟨n, k, hrep⟩
    · exact ⟨g, hgmem', n, k, hn, hk, hrep⟩
  · rw [if_neg hsh]
    apply doiFold_unshared a b
    intro g hg
    obtain ⟨n, k, hrep, hA, hB⟩ := buildDoiMap_two_shape a b g hg
    rcases Nat.eq_zero_or_pos n with rfl | hn
    · exact Or.inr ⟨k, by simpa using hrep⟩
    rcases Nat.eq_zero_or_pos k with rfl | hk
    · exact Or.inl ⟨n, by simpa using hrep⟩
    · exfalso
      apply hsh
      exact List.any_eq_true.mpr ⟨g.1, hA hn, by simpa using hB hk⟩

theorem dedupeKey_le_iff (a b : Item) :
    dedupeKey a ≤ dedupeKey b ↔ keepsFirst a b := by
  unfold dedupeKey keepsFirst
  rw [Prod.Lex.le_iff]
  constructor
  · rintro (h | ⟨h1, h2⟩)
    · exact Or.inl h
    · refine Or.inr ⟨h1, ?_⟩
      simp only [] at h2
      omega
  · rintro (h | ⟨h1, h2⟩)
    · exact Or.inl h
    · refine Or.inr ⟨h1, ?_⟩
      simp only []
      omega

theorem dedupeCross_two (a b : Item)
    (h : anySharedDoi a b = true ∨
      7/10 ≤ jaccardSimilarity (getNgrams (itemTitle a))
        (getNgrams (itemTitle b))) :
    dedupeCrossSource [a, b] =
      if dedupeKey a ≤ dedupeKey b then [a] else [b] := by
  have hlen : ¬ ([a, b] : List Item).length ≤ 1 := by simp
  simp only [dedupeCrossSource]
  rw [if_neg hlen, doiPassRemove_two]
  by_cases hsh : anySharedDoi a b = true
  · rw [if_pos hsh]
    by_cases hK : dedupeKey a ≤ dedupeKey b
    · have hl : loserIdx a b = 1 := by
        unfold loserIdx
        rw [if_neg (not_lt.mpr hK)]
      rw [if_pos hK, hl]
      simp [List.enum, List.enumFrom, titlePassOuter, titlePassInner]
    · have hl : loserIdx a b = 0 := by
        unfold loserIdx
        rw [if_pos (not_le.mp hK)]
      rw [if_neg hK, hl]
      simp [List.enum, List.enumFrom, titlePassOuter, titlePassInner]
  · rw [if_neg hsh]
    have hj := h.resolve_left hsh
    by_cases hK : dedupeKey a ≤ dedupeKey b
    · rw [if_pos hK]
      simp [List.enum, List.enumFrom, titlePassOuter, titlePassInner,
        hj, hK]
    · rw [if_neg hK]
      simp [List.enum, List.enumFrom, titlePassOuter, titlePassInner,
        hj, hK]

theorem dedupeWithin_two (a b : Item)
    (hj : 7/10 ≤ jaccardSimilarity (getNgrams (itemTitle a))
      (getNgrams (itemTitle b))) :
    dedupeWithinSource [a, b] =
      if itemScore b ≤ itemScore a then [a] else [b] := by
  have hlen : ¬ ([a, b] : List Item).length ≤ 1 := by simp
  simp only [dedupeWithinSource]
  rw [if_neg hlen]
  by_cases hK : itemScore b ≤ itemScore a
  · rw [if_pos hK]
    simp [List.enum, List.enumFrom, withinOuter, withinInner, hj, hK]
  · rw [if_neg hK]
    simp [List.enum, List.enumFrom, withinOuter, withinInner, hj, hK]

theorem remFold_cons (bi : ℕ) (R : Finset ℕ) (p : ℕ × Item)
    (t : List (ℕ × Item)) :
    remFold bi R (p :: t) =
      remFold bi (if p.1 ≠ bi then insert p.1 R else R) t := rfl

theorem remFold_subset (bi : ℕ) (R : Finset ℕ) (l : List (ℕ × Item)) :
    R ⊆ remFold bi R l := by
  induction l generalizing R with
  | nil => exact fun x hx => hx
  | cons p t ih =>
    rw [remFold_cons]
    refine subset_trans ?_ (ih _)
    by_cases hp : p.1 ≠ bi
    · rw [if_pos hp]
      exact Finset.subset_insert _ _
    · rw [if_neg hp]

theorem remFold_mem (bi : ℕ) (R : Finset ℕ) (l : List (ℕ × Item))
    (p : ℕ × Item) (hp : p ∈ l) (hne : p.1 ≠ bi) :
    p.1 ∈ remFold bi R l := by
  induction l generalizing R with
  | nil => cases hp
  | cons q t ih =>
    rw [remFold_cons]
    rcases List.mem_cons.mp hp with rfl | hpt
    · apply remFold_subset
      rw [if_pos hne]
      exact Finset.mem_insert_self _ _
    · exact ih _ hpt

theorem doiStep_subset (R : Finset ℕ) (g : String × List (ℕ × Item)) :
    R ⊆ doiStep R g := by
  unfold doiStep
  split
  · exact fun x hx => hx
  · split
    · exact fun x hx => hx
    · exact remFold_subset _ _ _

theorem doiFold_subset (gs : List (String × List (ℕ × Item)))
    (R : Finset ℕ) : R ⊆ gs.foldl doiStep R := by
  induction gs generalizing R with
  | nil => exact fun x hx => hx
  | cons g t ih =>
    simp only [List.foldl_cons]
    exact subset_trans (doiStep_subset R g) (ih _)

theorem doiPass_removes (items : List Item)
    (g : String × List (ℕ × Item)) (best p : ℕ × Item)
    (hg : g ∈ buildDoiMap items) (hlen : 2 ≤ g.2.length)
    (hmin : minByFirst g.2 = some best) (hp : p ∈ g.2)
    (hne : p.1 ≠ best.1) : p.1 ∈ doiPassRemove items := by
  rw [doiPassRemove_eq]
  obtain ⟨l, r, hsplit⟩ := List.append_of_mem hg
  rw [hsplit, List.foldl_append, List.foldl_cons]
  apply doiFold_subset
  unfold doiStep
  have hl1 : ¬ g.2.length ≤ 1 := by omega
  rw [if_neg hl1, hmin]
  exact remFold_mem best.1 _ g.2 p hp hne

theorem getDois_pubmed (p : PubmedItem) (d : String) (hp : p.doi = some d)
    (hd : ¬ d = "") : pyStrip (lowerStr d) ∈ getDois (Item.pubmed p) := by
  simp only [getDois, itemEngagement, hp]
  rw [if_pos hd]
  refine List.mem_map.mpr ⟨d, List.mem_filter.mpr ⟨?_, by simpa using hd⟩,
    rfl⟩
  rcases hpe : p.engagement with _ | e
  · simp only [hpe]
    exact List.mem_singleton.mpr rfl
  · rcases hed : e.published_doi with _ | d2
    · simp only [hpe, hed]
      exact List.mem_singleton.mpr rfl
    · simp only [hpe, hed]
      by_cases h2 : d2 ≠ ""
      · rw [if_pos h2]
        exact List.mem_append_left _ (List.mem_singleton.mpr rfl)
      · rw [if_neg h2]
        exact List.mem_singleton.mpr rfl

theorem getDois_eng (it : Item) (e : AcademicEngagement) (d : String)
    (he : itemEngagement it = some e) (hed : e.published_doi = some d)
    (hd : ¬ d = "") : pyStrip (lowerStr d) ∈ getDois it := by
  simp only [getDois, he, hed]
  rw [if_pos hd]
  exact List.mem_map.mpr ⟨d, List.mem_filter.mpr
    ⟨List.mem_append_right _ (List.mem_singleton.mpr rfl),
     by simpa using hd⟩, rfl⟩

theorem getNgrams_short (t : String)
    (h : (normalizeText t).toList.length < 3) :
    getNgrams t = {normalizeText t} := by
  simp only [getNgrams]
  rw [if_pos h]

theorem jaccard_self_singleton (x : String) :
    jaccardSimilarity {x} {x} = 1 := by
  unfold jaccardSimilarity
  have hne : ¬ (({x} : Finset String) = ∅ ∨ ({x} : Finset String) = ∅) := by
    simp
  rw [if_neg hne]
  simp

/-- C1 counterexample: the claim assigns Semantic Scholar items source
priority 1 (equal to OpenAlex) and keeps the higher-scored item on a
priority tie; in the code `_get_source` has no `SemanticScholarItem`
branch and `SOURCE_PRIORITY` has no `"unknown"` key, so an S2 item gets
the fallback priority 99.  Here an S2 paper with score 90 collides by DOI
with an OpenAlex work of score 10; under the claim the S2 paper (equal
priority, higher score) would be kept, but `dedupe_cross_source` keeps
the OpenAlex work. -/
theorem c1_counterexample :
    sourcePriority (.semanticscholar c1S2) = 99 ∧
    ¬ sourcePriority (.semanticscholar c1S2) = 1 ∧
    anySharedDoi (.openalex c1Oa) (.semanticscholar c1S2) = true ∧
    itemScore (.semanticscholar c1S2) = 90 ∧
    itemScore (.openalex c1Oa) = 10 ∧
    dedupeCrossSource [.openalex c1Oa, .semanticscholar c1S2] =
      [.openalex c1Oa] := by
  refine ⟨by decide, by decide, by decide, by decide, by decide, ?_⟩
  rw [dedupeCross_two _ _ (Or.inl (by decide))]
  have hk : dedupeKey (Item.openalex c1Oa) ≤
      dedupeKey (Item.semanticscholar c1S2) := by decide
  rw [if_pos hk]

/-- C1 (amended): the source priorities of `dedupe_cross_source` are
pubmed = 0 < openalex = 1 < biorxiv = 2 < medrxiv = 3 < arxiv = 4 <
huggingface = 5, but a Semantic Scholar item falls through `_get_source`
to `"unknown"` and gets the fallback priority 99 (the lowest priority of
all, not 1); for a two-item colliding pair (DOI-equal or title-similar at
the 0.7 threshold) the item with the strictly lower priority number is
kept, and on a priority tie the item with the higher score (first on a
full tie). -/
theorem c1_priority_amended :
    (∀ p, sourcePriority (.pubmed p) = 0) ∧
    (∀ o, sourcePriority (.openalex o) = 1) ∧
    (∀ b, b.source = "biorxiv" → sourcePriority (.biorxiv b) = 2) ∧
    (∀ b, b.source = "medrxiv" → sourcePriority (.biorxiv b) = 3) ∧
    (∀ a, sourcePriority (.arxiv a) = 4) ∧
    (∀ h, sourcePriority (.huggingface h) = 5) ∧
    (∀ s, sourcePriority (.semanticscholar s) = 99) ∧
    (∀ a b : Item,
      anySharedDoi a b = true ∨
        7/10 ≤ jaccardSimilarity (getNgrams (itemTitle a))
          (getNgrams (itemTitle b)) →
      dedupeCrossSource [a, b] = if keepsFirst a b then [a] else [b]) := by
  refine ⟨fun p => rfl, fun o => rfl, ?_, ?_, fun a => rfl, fun h => rfl,
    fun s => rfl, ?_⟩
  · intro b hb
    unfold sourcePriority
    rw [show getSource (.biorxiv b) = b.source from rfl, hb]
    rfl
  · intro b hb
    unfold sourcePriority
    rw [show getSource (.biorxiv b) = b.source from rfl, hb]
    rfl
  · intro a b h
    rw [dedupeCross_two a b h]
    by_cases hK : dedupeKey a ≤ dedupeKey b
    · rw [if_pos hK, if_pos ((dedupeKey_le_iff a b).mp hK)]
    · rw [if_neg hK, if_neg (fun hk => hK ((dedupeKey_le_iff a b).mpr hk))]

/-- C1 witness: the keep-rule of the amended statement applied to a
concrete DOI-colliding PubMed/bioRxiv pair (pubmed priority 0 beats
biorxiv priority 2 despite the lower score), and the biorxiv priority
equation at a concrete item. -/
theorem c1_witness :
    anySharedDoi (.pubmed c1WP) (.biorxiv c1WB) = true ∧
    sourcePriority (.biorxiv c1WB) = 2 ∧
    dedupeCrossSource [.pubmed c1WP, .biorxiv c1WB] = [.pubmed c1WP] := by
  refine ⟨by decide, c1_priority_amended.2.2.1 c1WB rfl, ?_⟩
  rw [c1_priority_amended.2.2.2.2.2.2.2 (.pubmed c1WP) (.biorxiv c1WB)
    (Or.inl (by decide))]
  have hkeep : keepsFirst (.pubmed c1WP) (.biorxiv c1WB) := by decide
  rw [if_pos hkeep]

/-- C4: in the DOI pass of `dedupe_cross_source`, (1) for every group of
the DOI map with at least two entries, every entry other than the
`(source_priority asc, score desc)`-minimal one is marked removed; (2) a
two-item pair sharing any DOI is deduped to exactly the key-minimal item;
(3) in particular a PubMed item with DOI `10.1038/xxx` and a bioRxiv item
whose `engagement.published_doi` is `10.1038/xxx` leave only the PubMed
item, regardless of both scores. -/
theorem c4_doi_pass :
    (∀ (items : List Item) (g : String × List (ℕ × Item))
      (best p : ℕ × Item), g ∈ buildDoiMap items → 2 ≤ g.2.length →
      minByFirst g.2 = some best → p ∈ g.2 → p.1 ≠ best.1 →
      p.1 ∈ doiPassRemove items) ∧
    (∀ a b : Item, anySharedDoi a b = true →
      dedupeCrossSource [a, b] =
        if dedupeKey a ≤ dedupeKey b then [a] else [b]) ∧
    (∀ (p : PubmedItem) (b : BiorxivItem),
      p.doi = some "10.1038/xxx" →
      (∃ e, b.engagement = some e ∧
        e.published_doi = some "10.1038/xxx") →
      b.source = "biorxiv" ∨ b.source = "medrxiv" →
      dedupeCrossSource [.pubmed p, .biorxiv b] = [.pubmed p]) := by
  refine ⟨doiPass_removes, fun a b h => dedupeCross_two a b (Or.inl h), ?_⟩
  intro p b hp he hsrc
  obtain ⟨e, he, hed⟩ := he
  have hshared : anySharedDoi (.pubmed p) (.biorxiv b) = true := by
    refine List.any_eq_true.mpr ⟨pyStrip (lowerStr "10.1038/xxx"),
      getDois_pubmed p "10.1038/xxx" hp (by decide), ?_⟩
    simpa using getDois_eng (.biorxiv b) e "10.1038/xxx"
      (by rw [show itemEngagement (.biorxiv b) = b.engagement from rfl, he])
      hed (by decide)
  rw [dedupeCross_two _ _ (Or.inl hshared)]
  have hk : dedupeKey (Item.pubmed p) ≤ dedupeKey (Item.biorxiv b) := by
    rw [dedupeKey_le_iff]
    left
    have hpp : sourcePriority (Item.pubmed p) = 0 := rfl
    have hbb : sourcePriority (Item.biorxiv b) = 2 ∨
        sourcePriority (Item.biorxiv b) = 3 := by
      rcases hsrc with hs | hs
      · left
        unfold sourcePriority
        rw [show getSource (.biorxiv b) = b.source from rfl, hs]
        rfl
      · right
        unfold sourcePriority
        rw [show getSource (.biorxiv b) = b.source from rfl, hs]
        rfl
    rcases hbb with hbb | hbb <;> rw [hpp, hbb] <;> norm_num
  rw [if_pos hk]

/-- C4 witness: the spec scenario, with the preprint scoring higher than
the published article (80 vs 60); the PubMed item is still the one
kept. -/
theorem c4_witness :
    c4P.doi = some "10.1038/xxx" ∧ c4P.score = 60 ∧ c4B.score = 80 ∧
    dedupeCrossSource [.pubmed c4P, .biorxiv c4B] = [.pubmed c4P] :=
  ⟨rfl, rfl, rfl,
   c4_doi_pass.2.2 c4P c4B rfl
     ⟨{ published_doi := some "10.1038/xxx" }, rfl, rfl⟩ (Or.inl rfl)⟩

/-- C10: a title whose normalized form is shorter than 3 characters makes
`get_ngrams` return the singleton of the normalized text itself, so two
items whose titles normalize to the same short string have Jaccard
similarity exactly 1 (≥ 0.7) and both `dedupe_within_source` and
`dedupe_cross_source` drop one of the two. -/
theorem c10_short_title_dedupe (a b : Item)
    (ha : (normalizeText (itemTitle a)).toList.length < 3)
    (heq : normalizeText (itemTitle a) = normalizeText (itemTitle b)) :
    getNgrams (itemTitle a) = {normalizeText (itemTitle a)} ∧
    jaccardSimilarity (getNgrams (itemTitle a))
      (getNgrams (itemTitle b)) = 1 ∧
    (dedupeWithinSource [a, b]).length = 1 ∧
    (dedupeCrossSource [a, b]).length = 1 := by
  have hb : (normalizeText (itemTitle b)).toList.length < 3 := by
    rw [← heq]
    exact ha
  have hga := getNgrams_short (itemTitle a) ha
  have hgb := getNgrams_short (itemTitle b) hb
  have hj1 : jaccardSimilarity (getNgrams (itemTitle a))
      (getNgrams (itemTitle b)) = 1 := by
    rw [hga, hgb, ← heq]
    exact jaccard_self_singleton _
  have hj : 7/10 ≤ jaccardSimilarity (getNgrams (itemTitle a))
      (getNgrams (itemTitle b)) := by
    rw [hj1]
    norm_num
  refine ⟨hga, hj1, ?_, ?_⟩
  · rw [dedupeWithin_two a b hj]
    split <;> rfl
  · rw [dedupeCross_two a b (Or.inr hj)]
    split <;> rfl

/-- C10 witness: two arXiv items titled `!!` and `??`; both titles
normalize to the empty string, and each dedup pass keeps exactly one of
the two items. -/
theorem c10_witness :
    (normalizeText (itemTitle (.arxiv c10A))).toList.length < 3 ∧
    normalizeText (itemTitle (.arxiv c10A)) =
      normalizeText (itemTitle (.arxiv c10B)) ∧
    (dedupeWithinSource [.arxiv c10A, .arxiv c10B]).length = 1 ∧
    (dedupeCrossSource [.arxiv c10A, .arxiv c10B]).length = 1 :=
  ⟨by decide, by decide,
   (c10_short_title_dedupe _ _ (by decide) (by decide)).2.2.1,
   (c10_short_title_dedupe _ _ (by decide) (by decide)).2.2.2⟩

/-! ## Adapter relevance-filter lemmas -/

theorem filterMap_forall {α β : Type} (f : α → Option β) (P : β → Prop)
    (h : ∀ a b, f a = some b → P b) (l : List α) :
    ∀ i ∈ l.filterMap f, P i := by
  intro i hi
  obtain ⟨a, _, ha⟩ := List.mem_filterMap.mp hi
  exact h a i ha

theorem filterPage_item (topic server : String) (item b : BioRaw)
    (h : (if (computeKeywordRelevance topic item.title item.abstract).1 >
        1/10 then
      some { item with
        relevance := (computeKeywordRelevance topic item.title
          item.abstract).1,
        why_relevant := (computeKeywordRelevance topic item.title
          item.abstract).2,
        source := server }
      else none) = some b) : 1/10 < b.relevance := by
  split at h
  · rename_i hrel
    injection h with h
    rw [← h]
    exact hrel
  · cases h

theorem filterPage_rel (topic server : String) (coll : List BioRaw) :
    ∀ i ∈ filterPage topic server coll, 1/10 < i.relevance :=
  filterMap_forall _ _ (fun a b hab => filterPage_item topic server a b hab)
    coll

theorem bioPagesLoop_rel (fetch : ℤ → Except String BioPage)
    (topic server : String) (maxRelevant : ℕ) :
    ∀ (cursors : List ℤ) (acc : List BioRaw),
      (∀ i ∈ acc, 1/10 < i.relevance) →
      ∀ i ∈ bioPagesLoop fetch topic server maxRelevant cursors acc,
        1/10 < i.relevance := by
  intro cursors
  induction cursors with
  | nil => intro acc hacc; exact hacc
  | cons cur rest ih =>
    intro acc hacc i hi
    cases hf : fetch cur with
    | error e =>
      simp only [bioPagesLoop, hf] at hi
      exact ih acc hacc i hi
    | ok page =>
      simp only [bioPagesLoop, hf] at hi
      split at hi
      · have hacc2 : ∀ j ∈ acc ++ filterPage topic server page.collection,
            1/10 < j.relevance := by
          intro j hj
          rcases List.mem_append.mp hj with h | h
          · exact hacc j h
          · exact filterPage_rel topic server page.collection j h
        split at hi
        · exact hacc2 i hi
        · exact ih _ hacc2 i hi
      · split at hi
        · exact hacc i hi
        · exact ih _ hacc i hi

theorem searchPreprint_rel (server topic depth : String)
    (fetch : ℤ → Except String BioPage) :
    ∀ i ∈ (searchPreprintServer server topic depth fetch).1,
      1/10 < i.relevance := by
  intro i hi
  cases hf : fetch 0 with
  | error e =>
    simp only [searchPreprintServer, hf] at hi
    cases hi
  | ok page =>
    simp only [searchPreprintServer, hf] at hi
    split at hi
    · cases hi
    · split at hi
      · exact filterPage_rel topic server page.collection i
          (List.mem_of_mem_take hi)
      · split at hi
        · exact filterPage_rel topic server page.collection i
            (List.mem_of_mem_take hi)
        · split at hi
          · exact filterPage_rel topic server page.collection i
              (List.mem_of_mem_take hi)
          · split at hi
            · exact filterPage_rel topic server page.collection i
                (List.mem_of_mem_take hi)
            · exact bioPagesLoop_rel fetch topic server _ _ _
                (filterPage_rel topic server page.collection) i
                (List.mem_of_mem_take hi)

theorem oaProcessWork_rel (topic : String) (maxResults globalRank : ℕ)
    (work : OWork) (item : OAItemRaw)
    (h : oaProcessWork topic maxResults globalRank work = some item) :
    1/10 < (computeKeywordRelevance topic work.title (oaAbstract work)).1 ∧
    1/10 < item.relevance := by
  simp only [oaProcessWork] at h
  split at h
  · rename_i hrel
    refine ⟨hrel, ?_⟩
    injection h with h
    rw [← h]
    refine lt_min (by norm_num) ?_
    have hb := le_max_left (0 : ℚ)
      ((1/10) * (1 - (globalRank : ℚ) / (maxResults : ℚ)))
    linarith [hrel]
  · cases h

theorem s2ProcessPaper_rel (topic : String) (maxResults : ℕ)
    (globalRank : ℤ) (paper : SPaper) (item : S2ItemRaw)
    (h : s2ProcessPaper topic maxResults globalRank paper = some item) :
    3/10 < (computeKeywordRelevance topic paper.title
      (paper.abstract.getD "")).1 ∧
    3/10 < item.relevance := by
  simp only [s2ProcessPaper] at h
  split at h
  · rename_i hrel
    refine ⟨hrel, ?_⟩
    injection h with h
    rw [← h]
    refine lt_min (by norm_num) ?_
    have hb := le_max_left (0 : ℚ)
      ((1/10) * (1 - (globalRank : ℚ) / (maxResults : ℚ)))
    linarith [hrel]
  · cases h

theorem oaLoop_rel (fetch : ℕ → Except String OPage) (topic : String)
    (maxResults : ℕ) :
    ∀ (fuel pageNum : ℕ) (acc : List OAItemRaw),
      (∀ i ∈ acc, 1/10 < i.relevance) →
      ∀ i ∈ (oaLoop fetch topic maxResults pageNum fuel acc).1,
        1/10 < i.relevance := by
  intro fuel
  induction fuel with
  | zero =>
    intro pageNum acc hacc i hi
    simp only [oaLoop] at hi
    exact hacc i (List.mem_of_mem_take hi)
  | succ n ih =>
    intro pageNum acc hacc i hi
    cases hf : fetch pageNum with
    | error e =>
      simp only [oaLoop, hf] at hi
      split at hi
      · cases hi
      · exact hacc i (List.mem_of_mem_take hi)
    | ok page =>
      simp only [oaLoop, hf] at hi
      have hacc2 : ∀ j ∈ acc ++ page.results.enum.filterMap
          (fun p => oaProcessWork topic maxResults
            ((pageNum - 1) * OPENALEX_PAGE_SIZE + p.1) p.2),
          1/10 < j.relevance := by
        intro j hj
        rcases List.mem_append.mp hj with h | h
        · exact hacc j h
        · obtain ⟨p, _, hp⟩ := List.mem_filterMap.mp h
          exact (oaProcessWork_rel topic maxResults _ p.2 j hp).2
      split at hi
      · exact hacc i (List.mem_of_mem_take hi)
      · split at hi
        · exact hacc2 i (List.mem_of_mem_take hi)
        · split at hi
          · exact hacc2 i (List.mem_of_mem_take hi)
          · exact ih _ _ hacc2 i hi

theorem s2Loop_rel (fetch : ℤ → Except String SPage) (topic : String)
    (maxResults : ℕ) :
    ∀ (fuel : ℕ) (offset : ℤ) (acc : List S2ItemRaw),
      (∀ i ∈ acc, 3/10 < i.relevance) →
      ∀ i ∈ (s2Loop fetch topic maxResults offset fuel acc).1,
        3/10 < i.relevance := by
  intro fuel
  induction fuel with
  | zero =>
    intro offset acc hacc i hi
    simp only [s2Loop] at hi
    exact hacc i (List.mem_of_mem_take hi)
  | succ n ih =>
    intro offset acc hacc i hi
    cases hf : fetch offset with
    | error e =>
      simp only [s2Loop, hf] at hi
      split at hi
      · cases hi
      · exact hacc i (List.mem_of_mem_take hi)
    | ok page =>
      simp only [s2Loop, hf] at hi
      have hacc2 : ∀ j ∈ acc ++ page.data.enum.filterMap
          (fun p => s2ProcessPaper topic maxResults
            (offset + (p.1 : ℤ)) p.2),
          3/10 < j.relevance := by
        intro j hj
        rcases List.mem_append.mp hj with h | h
        · exact hacc j h
        · obtain ⟨p, _, hp⟩ := List.mem_filterMap.mp h
          exact (s2ProcessPaper_rel topic maxResults _ p.2 j hp).2
      split at hi
      · exact hacc i (List.mem_of_mem_take hi)
      · split at hi
        · exact hacc2 i (List.mem_of_mem_take hi)
        · split at hi
          · exact hacc2 i (List.mem_of_mem_take hi)
          · split at hi
            · exact hacc2 i (List.mem_of_mem_take hi)
            · exact ih _ _ hacc2 i hi

theorem hfSearchPapers_rel (topic : String)
    (dataRes : Except String (List HFPaperRaw)) :
    ∀ p ∈ (hfSearchPapers topic dataRes).1,
      1/10 < (computeKeywordRelevance topic (hfPaperTitle p) "").1 := by
  intro p hp
  cases dataRes with
  | error e => simp [hfSearchPapers] at hp
  | ok data =>
    simp only [hfSearchPapers] at hp
    have hfilt := List.of_mem_filter hp
    simpa [hfPaperTitle] using hfilt

theorem quantumCooking_rel :
    (computeKeywordRelevance "quantum" "Cooking recipes" "").1 = 0 := by
  have h3 : (wordTokens (lowerStr "quantum")).length = 1 := by decide
  have h1 : (List.filter (fun w => strContains (lowerStr "Cooking recipes") w)
      (wordTokens (lowerStr "quantum"))).length = 0 := by decide
  have h2 : (List.filter (fun w => strContains (lowerStr "") w)
      (wordTokens (lowerStr "quantum"))).length = 0 := by decide
  simp +decide [computeKeywordRelevance, h1, h2, h3]
  norm_num [round3, pyRound]

theorem quantumBert_rel :
    (computeKeywordRelevance "quantum" "bert" "").1 = 0 := by
  have h3 : (wordTokens (lowerStr "quantum")).length = 1 := by decide
  have h1 : (List.filter (fun w => strContains (lowerStr "bert") w)
      (wordTokens (lowerStr "quantum"))).length = 0 := by decide
  have h2 : (List.filter (fun w => strContains (lowerStr "") w)
      (wordTokens (lowerStr "quantum"))).length = 0 := by decide
  simp +decide [computeKeywordRelevance, h1, h2, h3]
  norm_num [round3, pyRound]

theorem crisprEditing_rel :
    (computeKeywordRelevance "crispr" "CRISPR editing" "").1 = 1 := by
  have h3 : (wordTokens (lowerStr "crispr")).length = 1 := by decide
  have h1 : (List.filter (fun w => strContains (lowerStr "CRISPR editing") w)
      (wordTokens (lowerStr "crispr"))).length = 1 := by decide
  have h2 : (List.filter (fun w => strContains (lowerStr "") w)
      (wordTokens (lowerStr "crispr"))).length = 0 := by decide
  simp +decide [computeKeywordRelevance, h1, h2, h3]
  norm_num [round3, pyRound]

/-- C3 counterexample: the claim says every adapter filters rows at
relevance > 0.1, "in particular including arXiv and PubMed"; but
`search_arxiv` attaches the relevance and keeps every parsed row.  A
"Cooking recipes" entry under the topic "quantum" scores relevance 0 and
still appears in the arXiv adapter's output. -/
theorem c3_counterexample :
    ((searchArxiv "quantum" (Except.ok (some c3Feed))).1.map
      (fun i => (i.title, i.relevance))) = [("Cooking recipes", 0)] := by
  have hparse : parseArxivAtom (some c3Feed) = [c3Row0] := by decide
  simp only [searchArxiv, hparse, List.map_map, List.map_cons, List.map_nil,
    Function.comp, c3Row0]
  rw [quantumCooking_rel]

/-- C3 (amended): the `relevance > 0.1` filter is applied by
bioRxiv/medRxiv, OpenAlex and the HuggingFace daily-papers feed, and
Semantic Scholar uses the stricter `> 0.3` — but arXiv and PubMed attach
relevance without filtering (their output row count equals the parsed row
count), and HuggingFace models/datasets are gated only by id presence and
date, so a zero-relevance model still reaches the output. -/
theorem c3_filter_amended :
    (∀ server topic depth fetch,
      ∀ i ∈ (searchPreprintServer server topic depth fetch).1,
        1/10 < i.relevance) ∧
    (∀ topic depth fetch,
      ∀ i ∈ (searchOpenalex topic depth fetch).1, 1/10 < i.relevance) ∧
    (∀ topic depth fetch,
      ∀ i ∈ (searchSemanticScholar topic depth fetch).1,
        3/10 < i.relevance) ∧
    (∀ topic maxResults globalRank work item,
      oaProcessWork topic maxResults globalRank work = some item →
      1/10 < (computeKeywordRelevance topic work.title
        (oaAbstract work)).1) ∧
    (∀ topic maxResults globalRank paper item,
      s2ProcessPaper topic maxResults globalRank paper = some item →
      3/10 < (computeKeywordRelevance topic paper.title
        (paper.abstract.getD "")).1) ∧
    (∀ topic dataRes, ∀ p ∈ (hfSearchPapers topic dataRes).1,
      1/10 < (computeKeywordRelevance topic (hfPaperTitle p) "").1) ∧
    (∀ topic root, ((searchArxiv topic (.ok root)).1).length =
      (parseArxivAtom root).length) ∧
    (∀ topic pmids qt efetchFn,
      ((searchPubmed topic (.ok (pmids, qt)) efetchFn).1).length =
        (efetchLoop efetchFn (pmidBatches pmids) []).1.length) ∧
    (∀ topic fromDate m item ms dsRes psRes,
      hfNormalizeModel m topic = some item →
      hfDateOk fromDate item = true → m ∈ ms →
      item ∈ (searchHuggingface topic fromDate (.ok ms) dsRes psRes).1) := by
  refine ⟨fun server topic depth fetch =>
      searchPreprint_rel server topic depth fetch,
    fun topic depth fetch => oaLoop_rel fetch topic _ _ _ []
      (fun i hi => absurd hi (List.not_mem_nil i)),
    fun topic depth fetch => s2Loop_rel fetch topic _ _ _ []
      (fun i hi => absurd hi (List.not_mem_nil i)),
    fun topic mr gr work item h =>
      (oaProcessWork_rel topic mr gr work item h).1,
    fun topic mr gr paper item h =>
      (s2ProcessPaper_rel topic mr gr paper item h).1,
    fun topic dataRes => hfSearchPapers_rel topic dataRes,
    fun topic root => by simp [searchArxiv],
    ?_, ?_⟩
  · intro topic pmids qt efetchFn
    by_cases hp : pmids = []
    · subst hp
      have hb : pmidBatches [] = [] := rfl
      simp [searchPubmed, hb, efetchLoop]
    · simp [searchPubmed, hp]
  · intro topic fromDate m item ms dsRes psRes hnorm hdate hm
    simp only [searchHuggingface]
    refine List.mem_append_left _ (List.mem_append_left _ ?_)
    exact List.mem_filterMap.mpr ⟨m, hm, by simp [hnorm, hdate]⟩

/-- C3 witness: a HuggingFace model named `org/bert`, entirely unrelated
to the topic `quantum` (relevance 0), passes the id and date gates and
appears in `search_huggingface`'s output. -/
theorem c3_witness :
    hfNormalizeModel c3WModel "quantum" = some c3WHFItem ∧
    hfDateOk "2025-01-01" c3WHFItem = true ∧
    c3WHFItem ∈ (searchHuggingface "quantum" "2025-01-01"
      (.ok [c3WModel]) (.ok []) (.ok [])).1 ∧
    c3WHFItem.relevance = 0 := by
  have hnorm : hfNormalizeModel c3WModel "quantum" = some c3WHFItem := rfl
  have hdate : hfDateOk "2025-01-01" c3WHFItem = true := by
    simp only [hfDateOk, c3WHFItem, decide_eq_true_eq]
    exact String.le_iff_toList_le.mpr (by decide)
  refine ⟨hnorm, hdate,
    c3_filter_amended.2.2.2.2.2.2.2.2 "quantum" "2025-01-01" c3WModel
      c3WHFItem [c3WModel] (.ok []) (.ok []) hnorm hdate
      (List.mem_singleton.mpr rfl), ?_⟩
  show (computeKeywordRelevance "quantum" "bert" "").1 = 0
  exact quantumBert_rel

/-! ## Error-channel lemmas for the paginated adapters -/

theorem oaLoop_error_first (fetch : ℕ → Except String OPage)
    (topic : String) (maxResults fuel : ℕ) (e : String)
    (hfe : fetch 1 = .error e) :
    oaLoop fetch topic maxResults 1 (fuel + 1) [] = ([], some e) := by
  simp only [oaLoop, hfe]
  rw [if_true]

theorem s2Loop_error_first (fetch : ℤ → Except String SPage)
    (topic : String) (maxResults fuel : ℕ) (e : String)
    (hfe : fetch 0 = .error e) :
    s2Loop fetch topic maxResults 0 (fuel + 1) [] = ([], some e) := by
  simp only [s2Loop, hfe]
  rw [if_true]

theorem oaLoop_cases (fetch : ℕ → Except String OPage) (topic : String)
    (maxResults : ℕ) :
    ∀ (fuel pageNum : ℕ) (acc : List OAItemRaw),
      (oaLoop fetch topic maxResults pageNum fuel acc).2 = none ∨
      (oaLoop fetch topic maxResults pageNum fuel acc).1 = [] := by
  intro fuel
  induction fuel with
  | zero => intro pageNum acc; exact Or.inl rfl
  | succ n ih =>
    intro pageNum acc
    cases hf : fetch pageNum with
    | error e =>
      simp only [oaLoop, hf]
      split
      · simp
      · simp
    | ok page =>
      simp only [oaLoop, hf]
      split
      · simp
      · split
        · simp
        · split
          · simp
          · exact ih _ _

theorem s2Loop_cases (fetch : ℤ → Except String SPage) (topic : String)
    (maxResults : ℕ) :
    ∀ (fuel : ℕ) (offset : ℤ) (acc : List S2ItemRaw),
      (s2Loop fetch topic maxResults offset fuel acc).2 = none ∨
      (s2Loop fetch topic maxResults offset fuel acc).1 = [] := by
  intro fuel
  induction fuel with
  | zero => intro offset acc; exact Or.inl rfl
  | succ n ih =>
    intro offset acc
    cases hf : fetch offset with
    | error e =>
      simp only [s2Loop, hf]
      split
      · simp
      · simp
    | ok page =>
      simp only [s2Loop, hf]
      split
      · simp
      · split
        · simp
        · split
          · simp
          · split
            · simp
            · exact ih _ _

theorem searchPreprint_cases (server topic depth : String)
    (fetch : ℤ → Except String BioPage) :
    (searchPreprintServer server topic depth fetch).2 = none ∨
    (searchPreprintServer server topic depth fetch).1 = [] := by
  cases hf : fetch 0 with
  | error e =>
    simp only [searchPreprintServer, hf]
    simp
  | ok page =>
    simp only [searchPreprintServer, hf]
    split
    · simp
    · split
      · simp
      · split
        · simp
        · split
          · simp
          · split
            · simp
            · simp

/-- C7 counterexample: the claim says a retriable upstream failure after a
successful first page yields partial results **plus a non-null error**;
in `search_openalex` a later-page `HTTPError` merely `break`s, so the
adapter returns the partial results with `error = None`.  Here page 1
succeeds with one relevant work (meta.count 300 promises more pages) and
page 2 fails with a 500: one item is returned and the error channel is
`none`. -/
theorem c7_counterexample :
    ((searchOpenalex "crispr" "default" c7Fetch).1).length = 1 ∧
    (searchOpenalex "crispr" "default" c7Fetch).2 = none ∧
    c7Fetch 2 = .error "HTTP 500: Internal Server Error" := by
  have hgt : (computeKeywordRelevance "crispr" "CRISPR editing" "").1 >
      1/10 := by
    rw [crisprEditing_rel]
    norm_num
  have hpw : ∃ x, oaProcessWork "crispr" 100 0 c7Work = some x := by
    simp only [oaProcessWork, c7Work, reconstructAbstract]
    rw [if_pos hgt]
    exact ⟨_, rfl⟩
  obtain ⟨x, hpw⟩ := hpw
  have hf1 : c7Fetch 1 = .ok c7Page1 := rfl
  have hf2 : c7Fetch 2 = .error "HTTP 500: Internal Server Error" := rfl
  have hm : ¬ ((300 : ℚ) ≤ 100) := by norm_num
  have hloop : searchOpenalex "crispr" "default" c7Fetch = ([x], none) := by
    show oaLoop c7Fetch "crispr" 100 1 5 [] = ([x], none)
    simp [oaLoop, hf1, hf2, c7Page1, hpw, OPENALEX_PAGE_SIZE, hm]
  rw [hloop]
  exact ⟨rfl, rfl, rfl⟩

/-- C7 (amended): a first-page failure is the only one surfaced.  For all
three paginated adapters a failing first page yields `([], error)`; and
whenever the error channel is non-null the item list is empty, so a
later-page failure after a successful first page can never produce
"partial results plus an error" — OpenAlex and Semantic Scholar `break`
with the partial items and `error = None`, and bioRxiv/medRxiv skip the
failed page (`continue`) with no error recorded. -/
theorem c7_error_channel_amended :
    (∀ (topic depth e : String) (fetch : ℕ → Except String OPage),
      fetch 1 = .error e →
      searchOpenalex topic depth fetch = ([], some e)) ∧
    (∀ (topic depth e : String) (fetch : ℤ → Except String SPage),
      fetch 0 = .error e →
      searchSemanticScholar topic depth fetch = ([], some e)) ∧
    (∀ (server topic depth e : String) (fetch : ℤ → Except String BioPage),
      fetch 0 = .error e →
      searchPreprintServer server topic depth fetch = ([], some e)) ∧
    (∀ (topic depth : String) (fetch : ℕ → Except String OPage),
      ((searchOpenalex topic depth fetch).2).isSome = true →
      (searchOpenalex topic depth fetch).1 = []) ∧
    (∀ (topic depth : String) (fetch : ℤ → Except String SPage),
      ((searchSemanticScholar topic depth fetch).2).isSome = true →
      (searchSemanticScholar topic depth fetch).1 = []) ∧
    (∀ (server topic depth : String) (fetch : ℤ → Except String BioPage),
      ((searchPreprintServer server topic depth fetch).2).isSome = true →
      (searchPreprintServer server topic depth fetch).1 = []) := by
  refine ⟨?_, ?_, ?_, ?_, ?_, ?_⟩
  · intro topic depth e fetch hfe
    exact oaLoop_error_first fetch topic (depthLimitOpenalex depth) 4 e hfe
  · intro topic depth e fetch hfe
    exact s2Loop_error_first fetch topic (depthLimitS2 depth) 2 e hfe
  · intro server topic depth e fetch hfe
    simp only [searchPreprintServer, hfe]
  · intro topic depth fetch h
    rcases oaLoop_cases fetch topic (depthLimitOpenalex depth)
      OPENALEX_MAX_PAGES 1 [] with h2 | h2
    · exfalso
      rw [show (searchOpenalex topic depth fetch).2 =
        (oaLoop fetch topic (depthLimitOpenalex depth) 1
          OPENALEX_MAX_PAGES []).2 from rfl, h2] at h
      simp at h
    · exact h2
  · intro topic depth fetch h
    rcases s2Loop_cases fetch topic (depthLimitS2 depth)
      S2_MAX_PAGES 0 [] with h2 | h2
    · exfalso
      rw [show (searchSemanticScholar topic depth fetch).2 =
        (s2Loop fetch topic (depthLimitS2 depth) 0 S2_MAX_PAGES []).2
        from rfl, h2] at h
      simp at h
    · exact h2
  · intro server topic depth fetch h
    rcases searchPreprint_cases server topic depth fetch with h2 | h2
    · exfalso
      rw [h2] at h
      simp at h
    · exact h2

/-- C7 witness: a first-page 503 from OpenAlex is surfaced as
`([], "HTTP 503")`, the only case in which the error channel is set. -/
theorem c7_witness :
    c7FailFetch 1 = .error "HTTP 503" ∧
    searchOpenalex "gene editing" "default" c7FailFetch =
      ([], some "HTTP 503") :=
  ⟨rfl, c7_error_channel_amended.1 "gene editing" "default" "HTTP 503"
    c7FailFetch rfl⟩

/-- C8 counterexample: the claim says a row with a missing title is
dropped by every adapter; but `parse_arxiv_atom` and
`parse_pubmed_efetch` keep such rows with `title = ''`.  An Atom entry
with no title element and a PubMed article with wrappers but no
`ArticleTitle` both produce an output row whose title is the empty
string. -/
theorem c8_counterexample :
    ((searchArxiv "quantum" (Except.ok (some c8Feed))).1.map
      (fun i => i.title)) = [""] ∧
    ((parsePubmedEfetch (some c8PubmedRoot)).map
      (fun r => r.title)) = [""] := by
  constructor
  · have hparse : parseArxivAtom (some c8Feed) =
        [{ arxiv_id := "", title := "", authors := "", author_count := 0,
           abstract := "", published := "", updated := "",
           primary_category := "", categories := [], link := "" }] := by
      decide
    simp [searchArxiv, hparse]
  · have hdesc : c8PubmedRoot.findDesc "PubmedArticle" = [c8Article] := by
      simp +decide [c8PubmedRoot, c8Article, XElem.findDesc, XElem.children,
        findDescList]
    have hart : parsePubmedArticle c8Article = some c8PubmedRow := by decide
    simp [parsePubmedEfetch, hdesc, hart, c8PubmedRow]

/-- C8 (amended): missing-field behavior per adapter: `parse_arxiv_atom`
emits a row for every `entry` element (missing fields become `''`, a
missing title is *not* dropped); `parse_pubmed_efetch` drops an article
exactly when its `MedlineCitation` or `Article` wrapper is missing, and
otherwise keeps it, with a missing title becoming `''`; among the
HuggingFace normalizers only the daily-papers one drops a row for a
missing/empty title, while models and datasets are dropped exactly when
their id is empty. -/
theorem c8_missing_fields_amended :
    (∀ root, (parseArxivAtom (some root)).length =
      (root.childrenTag (ATOM_NS ++ "entry")).length) ∧
    (∀ article, (parsePubmedArticle article).isSome = true ↔
      ∃ m, article.find1 "MedlineCitation" = some m ∧
        (m.find1 "Article").isSome = true) ∧
    (∀ raw topic, hfNormalizePaper raw topic = none ↔
      hfPaperTitle raw = "") ∧
    (∀ raw topic, hfNormalizeModel raw topic = none ↔
      hfModelId raw = "") ∧
    (∀ raw topic, hfNormalizeDataset raw topic = none ↔ raw.id = "") := by
  refine ⟨?_, ?_, ?_, ?_, ?_⟩
  · intro root
    simp [parseArxivAtom]
  · intro article
    cases hm : article.find1 "MedlineCitation" with
    | none =>
      simp only [parsePubmedArticle, hm]
      constructor
      · intro h
        cases h
      · rintro ⟨m, hm2, _⟩
        cases hm2
    | some medline =>
      cases ha : medline.find1 "Article" with
      | none =>
        simp only [parsePubmedArticle, hm, ha]
        constructor
        · intro h
          cases h
        · rintro ⟨m, hm2, ha2⟩
          injection hm2 with hm2
          subst hm2
          rw [ha] at ha2
          cases ha2
      | some art =>
        simp only [parsePubmedArticle, hm, ha]
        constructor
        · intro _
          exact ⟨medline, rfl, by rw [ha]; rfl⟩
        · intro _
          rfl
  · intro raw topic
    simp only [hfNormalizePaper]
    constructor
    · intro h
      split at h
      · rename_i ht
        exact ht
      · cases h
    · intro ht
      rw [show (match raw.paper with
        | some p => if p.title ≠ "" then p.title else raw.title
        | none => raw.title) = hfPaperTitle raw from rfl, ht]
      rw [if_pos rfl]
  · intro raw topic
    simp only [hfNormalizeModel]
    constructor
    · intro h
      split at h
      · rename_i ht
        exact ht
      · cases h
    · intro ht
      rw [show (match raw.modelId with
        | some m => if m ≠ "" then m else raw.id
        | none => raw.id) = hfModelId raw from rfl, ht]
      rw [if_pos rfl]
  · intro raw topic
    simp only [hfNormalizeDataset]
    constructor
    · intro h
      split at h
      · rename_i ht
        exact ht
      · cases h
    · intro ht
      rw [ht]
      rw [if_pos rfl]

/-- C8 witness: the daily-papers normalizer applied to a row with an
empty title drops it, and the arXiv parser emits exactly one row for the
one (title-less) entry of the `c8Feed` fixture. -/
theorem c8_witness :
    hfNormalizePaper ({} : HFPaperRaw) "quantum" = none ∧
    (parseArxivAtom (some c8Feed)).length = 1 :=
  ⟨(c8_missing_fields_amended.2.2.1 {} "quantum").mpr rfl,
   by rw [c8_missing_fields_amended.1 c8Feed]; decide⟩

end Research30
